import Mathlib

/-!
# Verification harness of the MIPS core simulation (`src/mips_cpu`)

A shallow embedding of `verilator_main.cpp` and `simulation.h`:

* the stream verifier (`pc_event`, `wb_event`, `ls_event`) as state passing
  over `Sim`, the process-wide variables those callbacks read and write;
* the display-name tables of `simulation.h` (`to_string`);
* the physical-register encoding (`PhysReg`);
* the tracer (`Tracer`), whose output file is the text written so far, and the
  stage formatter `log_pipeline_stage` that feeds it;
* the statistics (`stats_event`, `predictor_event`) and the loop of `main`
  (`simulate`), in which the model and the signals are given from outside;
* the names of the files of the stream verifier and what dumping leaves in
  them (`pc_event_files`);
* the benchmark `src/hex_generator/test_functions.c` (`foo`, `begin`).

Machine integers are `Int`/`Nat`; an `unsigned int` counter wraps modulo
`2^32`, and an `int` that is compared with or printed as an unsigned value goes
through `to_unsigned`.
-/

namespace MipsSim

/-! ## Integers and number formatting -/

/-- The value `2^32`, one more than the largest `unsigned int`. -/
def UINT_RANGE : Nat := 4294967296

/-- The value `2^64`, one more than the largest `uint64_t`. -/
def UINT64_RANGE : Nat := 18446744073709551616

/-- Conversion of an `int` to `unsigned int` (two's complement), as done by
`expected_pc != pc` and by `std::hex << pc`. -/
def to_unsigned (x : Int) : Nat := (x % 4294967296).toNat

/-- Text of `os << std::hex << n` for an unsigned value: lowercase hexadecimal
digits, no prefix. -/
def hexStr (n : Nat) : String := String.mk (Nat.toDigits 16 n)

/-- Text of `os << std::dec << n` for an unsigned value. -/
def decStr (n : Nat) : String := String.mk (Nat.toDigits 10 n)

/-- Text of `os << std::dec << i` for an `int`. -/
def intStr (i : Int) : String :=
  if i < 0 then "-" ++ decStr i.natAbs else decStr i.natAbs

/-- The signal number of `SIGINT`. -/
def SIGINT : Int := 2

/-! ## Process state of the stream verifier -/

/-- The global variables of `verilator_main.cpp` used by the stream callbacks,
with the files they hold open.

A golden reader (`static std::ifstream f(fname)`) is the list of the numerals
that the file under `fname` holds from the position of the reader on, in the
order in which the extractions `f >> std::hex >> x` meet them; `none` is a file
that cannot be opened. A dump writer (`static std::ofstream f(fname)`) is the
text written through it so far; `none` is a file that cannot be opened. Reader
and writer of a channel are opened on the same `fname`, and every line dumped
is flushed by `std::endl`: a line dumped changes what the reader yields
(`dump_to_golden`). The flags are set by `main` before the first event and
stay as they are. -/
structure Sim where
  stream_dump : Int := 0
  stream_print : Int := 0
  stream_check : Int := 1
  main_time : Nat := 0
  interrupt : Int := 0
  stop_time : Nat := 0
  cout : String := ""
  instruction_count : Nat := 0
  write_back_count : Nat := 0
  load_store_count : Nat := 0
  pc_golden : Option (List Nat) := none
  wb_golden : Option (List Nat) := none
  ls_golden : Option (List Nat) := none
  pc_dump : Option String := some ""
  wb_dump : Option String := some ""
  ls_dump : Option String := some ""
deriving DecidableEq

/-- The handler installed by `main`, run by `std::raise(SIGINT)`:
`signal_handler` stores the signal number in `interrupt`. -/
def raise_SIGINT (s : Sim) : Sim := { s with interrupt := SIGINT }

/-- One extraction `f >> std::hex >> x` into an `unsigned int`: the value read
(`none` when the extraction fails) and what the reader yields afterwards. At
the end of the file the extraction fails. A numeral of `2^32` or more does not
fit `unsigned int`: the extraction fails and the stream stays failed, so no
later extraction gets past that numeral, which stays at the head of the
list. -/
def extract (g : List Nat) : Option Nat × List Nat :=
  match g with
  | [] => (none, [])
  | v :: rest => if v < UINT_RANGE then (some v, rest) else (none, v :: rest)

/-- The numeral that an extraction `f >> std::hex >> x` takes from the text of
`f << std::dec << n`: the decimal digits of `n`, read as hexadecimal ones. -/
def hex_of_dec (n : Nat) : Nat :=
  (Nat.toDigits 10 n).foldl (fun acc ch => 16 * acc + (ch.toNat - 48)) 0

/-- The numerals of a dumped line, as the reader of the same file meets them:
the time, written in decimal under `stream_dump >= 2`, then the values of the
event, written in hexadecimal. -/
def dump_numerals (stream_dump : Int) (main_time : Nat) (values : List Int) : List Nat :=
  (if stream_dump ≥ 2 then [hex_of_dec main_time] else []) ++ values.map to_unsigned

/-- What the golden reader of a channel yields once a line has been dumped on
the channel, reader and writer being opened on the same `fname`. The writer is
opened by the first event that dumps (its text `dump` is still empty): this
creates the file or empties it, before the reader is opened on it, so the
reader yields the numerals of the line. A later line is written behind what
the reader has still to yield. -/
def dump_to_golden (dump : String) (golden : Option (List Nat)) (line : List Nat) :
    Option (List Nat) :=
  if dump = "" then some line else golden.map fun g => g ++ line

/-! ## Retired program counters: `pc_event` -/

/-- Line printed by `pc_event` under `stream_print`. -/
def pc_echo_text (pc : Int) : String :=
  "-- EVENT pc=" ++ hexStr (to_unsigned pc) ++ "\n"

/-- Diagnostic of `pc_event` when the golden reader has nothing left. -/
def pc_exhausted_text (pc : Int) : String :=
  "\n!! Ran out of expected pc." ++
  "\n!! More instructions are executed than expected" ++
  "\n!! Additional pc=" ++ hexStr (to_unsigned pc) ++ "\n"

/-- Diagnostic of `pc_event` when the golden value differs from the live one. -/
def pc_mismatch_text (t : Nat) (expected_pc : Nat) (pc : Int) : String :=
  "\n!! [" ++ decStr t ++ "] expected_pc=" ++ hexStr expected_pc ++
  " mismatches pc=" ++ hexStr (to_unsigned pc) ++ "\n"

/-- The `if (stream_print)` block of `pc_event`. -/
def pc_print (pc : Int) (s : Sim) : Sim :=
  if s.stream_print ≠ 0 then { s with cout := s.cout ++ pc_echo_text pc } else s

/-- The `if (stream_dump)` block of `pc_event`; `none` is `exit(-1)`. The line
goes to the file that the golden reader of the channel reads. -/
def pc_dump_step (pc : Int) (s : Sim) : Option Sim :=
  if s.stream_dump ≠ 0 then
    match s.pc_dump with
    | none => none
    | some f =>
      let f1 := if s.stream_dump ≥ 2 then f ++ decStr s.main_time ++ " " else f
      some { s with pc_dump := some (f1 ++ hexStr (to_unsigned pc) ++ "\n"),
                    pc_golden := dump_to_golden f s.pc_golden
                      (dump_numerals s.stream_dump s.main_time [pc]) }
  else some s

/-- The `if (stream_check)` block of `pc_event`; `none` is `exit(-1)`. -/
def pc_check (pc : Int) (s : Sim) : Option Sim :=
  if s.stream_check ≠ 0 then
    match s.pc_golden with
    | none => none
    | some g =>
      match extract g with
      | (none, g1) =>
        some (raise_SIGINT
          { s with pc_golden := some g1, cout := s.cout ++ pc_exhausted_text pc })
      | (some expected_pc, g1) =>
        if expected_pc ≠ to_unsigned pc then
          some (raise_SIGINT
            { s with pc_golden := some g1,
                     cout := s.cout ++ pc_mismatch_text s.main_time expected_pc pc })
        else some { s with pc_golden := some g1 }
  else some s

/-- The callback `pc_event(pc)`; `none` is a process ended by `exit(-1)`. -/
def pc_event (pc : Int) (s : Sim) : Option Sim :=
  (pc_dump_step pc (pc_print pc s)).bind fun s1 =>
  (pc_check pc s1).bind fun s2 =>
  some { s2 with instruction_count := (s2.instruction_count + 1) % UINT_RANGE }

/-- A sequence of `pc_event` calls, in order. -/
def pc_events (pcs : List Int) (s : Sim) : Option Sim :=
  match pcs with
  | [] => some s
  | pc :: rest => (pc_event pc s).bind (pc_events rest)

/-! ## Write-backs: `wb_event` -/

/-- Line printed by `wb_event` under `stream_print`. -/
def wb_echo_text (addr data : Int) : String :=
  "-- EVENT wb addr=" ++ hexStr (to_unsigned addr) ++
  " data=" ++ hexStr (to_unsigned data) ++ "\n"

/-- Diagnostic of `wb_event` when the golden reader has no full record left. -/
def wb_exhausted_text (addr data : Int) : String :=
  "\n!! Ran out of expected write back." ++
  "\n!! More write back are executed than expected" ++
  "\n!! Additional write back addr=" ++ hexStr (to_unsigned addr) ++
  " data=" ++ hexStr (to_unsigned data) ++ "\n"

/-- Diagnostic of `wb_event` when a golden field differs from the live one. -/
def wb_mismatch_text (t : Nat) (expected_addr expected_data : Nat)
    (addr data : Int) : String :=
  "\n!! [" ++ decStr t ++ "] expected write back mismatches" ++
  "\n!! [" ++ decStr t ++ "] expected addr=" ++ hexStr expected_addr ++
  " data=" ++ hexStr expected_data ++
  "\n!! [" ++ decStr t ++ "] actual   addr=" ++ hexStr (to_unsigned addr) ++
  " data=" ++ hexStr (to_unsigned data) ++ "\n"

/-- The `if (stream_print)` block of `wb_event`. -/
def wb_print (addr data : Int) (s : Sim) : Sim :=
  if s.stream_print ≠ 0 then { s with cout := s.cout ++ wb_echo_text addr data }
  else s

/-- The `if (stream_dump)` block of `wb_event`; `none` is `exit(-1)`. The line
goes to the file that the golden reader of the channel reads. -/
def wb_dump_step (addr data : Int) (s : Sim) : Option Sim :=
  if s.stream_dump ≠ 0 then
    match s.wb_dump with
    | none => none
    | some f =>
      let f1 := if s.stream_dump ≥ 2 then f ++ decStr s.main_time ++ " " else f
      some { s with wb_dump := some (f1 ++ hexStr (to_unsigned addr) ++ " " ++
                                      hexStr (to_unsigned data) ++ "\n"),
                    wb_golden := dump_to_golden f s.wb_golden
                      (dump_numerals s.stream_dump s.main_time [addr, data]) }
  else some s

/-- The extraction `f >> std::hex >> expected_addr >> expected_data`. -/
def extract2 (g : List Nat) : Option (Nat × Nat) × List Nat :=
  match extract g with
  | (none, g1) => (none, g1)
  | (some a, g1) =>
    match extract g1 with
    | (none, g2) => (none, g2)
    | (some d, g2) => (some (a, d), g2)

/-- The `if (stream_check)` block of `wb_event`; `none` is `exit(-1)`. -/
def wb_check (addr data : Int) (s : Sim) : Option Sim :=
  if s.stream_check ≠ 0 then
    match s.wb_golden with
    | none => none
    | some g =>
      match extract2 g with
      | (none, g1) =>
        some (raise_SIGINT
          { s with wb_golden := some g1,
                   cout := s.cout ++ wb_exhausted_text addr data })
      | (some (expected_addr, expected_data), g1) =>
        if expected_addr ≠ to_unsigned addr ∨ expected_data ≠ to_unsigned data then
          some (raise_SIGINT
            { s with wb_golden := some g1,
                     cout := s.cout ++ wb_mismatch_text s.main_time
                               expected_addr expected_data addr data })
        else some { s with wb_golden := some g1 }
  else some s

/-- The callback `wb_event(addr, data)`; `none` is a process ended by
`exit(-1)`. -/
def wb_event (addr data : Int) (s : Sim) : Option Sim :=
  (wb_dump_step addr data (wb_print addr data s)).bind fun s1 =>
  (wb_check addr data s1).bind fun s2 =>
  some { s2 with write_back_count := (s2.write_back_count + 1) % UINT_RANGE }

/-- A sequence of `wb_event` calls, in order, each an `(addr, data)` pair. -/
def wb_events (evs : List (Int × Int)) (s : Sim) : Option Sim :=
  match evs with
  | [] => some s
  | ev :: rest => (wb_event ev.1 ev.2 s).bind (wb_events rest)

/-! ## Loads and stores: `ls_event` -/

/-- Line printed by `ls_event` under `stream_print`. -/
def ls_echo_text (op addr data : Int) : String :=
  "-- EVENT ls op=" ++ hexStr (to_unsigned op) ++
  " addr=" ++ hexStr (to_unsigned addr) ++
  " data=" ++ hexStr (to_unsigned data) ++ "\n"

/-- Diagnostic of `ls_event` when the golden reader has no full record left. -/
def ls_exhausted_text (op addr data : Int) : String :=
  "\n!! Ran out of expected load store" ++
  "\n!! More load store are executed than expected" ++
  "\n!! Additional load store op=" ++ hexStr (to_unsigned op) ++
  " addr=" ++ hexStr (to_unsigned addr) ++
  " data=" ++ hexStr (to_unsigned data) ++ "\n"

/-- Diagnostic of `ls_event` when a golden field differs from the live one. -/
def ls_mismatch_text (t : Nat) (expected_op expected_addr expected_data : Nat)
    (op addr data : Int) : String :=
  "\n!! [" ++ decStr t ++ "] expected load store mismatches" ++
  "\n!! [" ++ decStr t ++ "] expected op=" ++ hexStr expected_op ++
  " addr=" ++ hexStr expected_addr ++
  " data=" ++ hexStr expected_data ++
  "\n!! [" ++ decStr t ++ "] actual   op=" ++ hexStr (to_unsigned op) ++
  " addr=" ++ hexStr (to_unsigned addr) ++
  " data=" ++ hexStr (to_unsigned data) ++ "\n"

/-- The `if (stream_print)` block of `ls_event`. -/
def ls_print (op addr data : Int) (s : Sim) : Sim :=
  if s.stream_print ≠ 0 then { s with cout := s.cout ++ ls_echo_text op addr data }
  else s

/-- The `if (stream_dump)` block of `ls_event`; `none` is `exit(-1)`. The line
goes to the file that the golden reader of the channel reads. -/
def ls_dump_step (op addr data : Int) (s : Sim) : Option Sim :=
  if s.stream_dump ≠ 0 then
    match s.ls_dump with
    | none => none
    | some f =>
      let f1 := if s.stream_dump ≥ 2 then f ++ decStr s.main_time ++ " " else f
      some { s with ls_dump := some (f1 ++ hexStr (to_unsigned op) ++ " " ++
                                      hexStr (to_unsigned addr) ++ " " ++
                                      hexStr (to_unsigned data) ++ "\n"),
                    ls_golden := dump_to_golden f s.ls_golden
                      (dump_numerals s.stream_dump s.main_time [op, addr, data]) }
  else some s

/-- The extraction
`f >> std::hex >> expected_op && f >> expected_addr && f >> expected_data`. -/
def extract3 (g : List Nat) : Option (Nat × Nat × Nat) × List Nat :=
  match extract g with
  | (none, g1) => (none, g1)
  | (some o, g1) =>
    match extract g1 with
    | (none, g2) => (none, g2)
    | (some a, g2) =>
      match extract g2 with
      | (none, g3) => (none, g3)
      | (some d, g3) => (some (o, a, d), g3)

/-- The `if (stream_check)` block of `ls_event`; `none` is `exit(-1)`. -/
def ls_check (op addr data : Int) (s : Sim) : Option Sim :=
  if s.stream_check ≠ 0 then
    match s.ls_golden with
    | none => none
    | some g =>
      match extract3 g with
      | (none, g1) =>
        some (raise_SIGINT
          { s with ls_golden := some g1,
                   cout := s.cout ++ ls_exhausted_text op addr data })
      | (some (expected_op, expected_addr, expected_data), g1) =>
        if expected_op ≠ to_unsigned op ∨ expected_addr ≠ to_unsigned addr
            ∨ expected_data ≠ to_unsigned data then
          some (raise_SIGINT
            { s with ls_golden := some g1,
                     cout := s.cout ++ ls_mismatch_text s.main_time
                               expected_op expected_addr expected_data op addr data })
        else some { s with ls_golden := some g1 }
  else some s

/-- The callback `ls_event(op, addr, data)`; `none` is a process ended by
`exit(-1)`. -/
def ls_event (op addr data : Int) (s : Sim) : Option Sim :=
  (ls_dump_step op addr data (ls_print op addr data s)).bind fun s1 =>
  (ls_check op addr data s1).bind fun s2 =>
  some { s2 with load_store_count := (s2.load_store_count + 1) % UINT_RANGE }

/-- A sequence of `ls_event` calls, in order, each an `(op, addr, data)`
triple. -/
def ls_events (evs : List (Int × Int × Int)) (s : Sim) : Option Sim :=
  match evs with
  | [] => some s
  | ev :: rest => (ls_event ev.1 ev.2.1 ev.2.2 s).bind (ls_events rest)
/-! ## Display names (`simulation.h`) -/

/-- The name list `SIM_ALL_INSTRUCTIONS`, in the order of the X-macro. -/
def SIM_ALL_INSTRUCTIONS : List String :=
  ["ADD", "ADDU", "SUB", "SUBU", "ADDI", "ADDIU", "AND", "OR", "XOR", "NOR",
   "ANDI", "ORI", "XORI", "SLL", "SRL", "SRA", "SLLV", "SRLV", "SRAV", "SLT",
   "SLTU", "SLTI", "SLTIU", "LUI", "J", "JAL", "JR", "JALR", "BEQ", "BNE",
   "BLEZ", "BGEZ", "BLTZ", "BGTZ", "LW", "SW", "MTC0", "INVALID"]

/-- The name list `SIM_ALL_ALU_OPERATIONS`, in the order of the X-macro. -/
def SIM_ALL_ALU_OPERATIONS : List String :=
  ["NOP", "ADD", "ADDU", "SUB", "SUBU", "AND", "OR", "XOR", "SLT", "SLTU",
   "SLL", "SRL", "SRA", "SLLV", "SRLV", "SRAV", "NOR", "MTC0_PASS", "MTC0_FAIL",
   "MTC0_DONE", "BA", "BEQ", "BNE", "BLEZ", "BGTZ", "BGEZ", "BLTZ"]

/-- The function `to_string(Instruction const&)`: the expanded switch, one case
per enumerator `INS_<NAME>` (numbered from 0 in list order), on the integer
value the enumeration object holds. -/
def Instruction.to_string (ins : Int) : String :=
  match ins with
  | 0 => "ADD"
  | 1 => "ADDU"
  | 2 => "SUB"
  | 3 => "SUBU"
  | 4 => "ADDI"
  | 5 => "ADDIU"
  | 6 => "AND"
  | 7 => "OR"
  | 8 => "XOR"
  | 9 => "NOR"
  | 10 => "ANDI"
  | 11 => "ORI"
  | 12 => "XORI"
  | 13 => "SLL"
  | 14 => "SRL"
  | 15 => "SRA"
  | 16 => "SLLV"
  | 17 => "SRLV"
  | 18 => "SRAV"
  | 19 => "SLT"
  | 20 => "SLTU"
  | 21 => "SLTI"
  | 22 => "SLTIU"
  | 23 => "LUI"
  | 24 => "J"
  | 25 => "JAL"
  | 26 => "JR"
  | 27 => "JALR"
  | 28 => "BEQ"
  | 29 => "BNE"
  | 30 => "BLEZ"
  | 31 => "BGEZ"
  | 32 => "BLTZ"
  | 33 => "BGTZ"
  | 34 => "LW"
  | 35 => "SW"
  | 36 => "MTC0"
  | 37 => "INVALID"
  | _ => "(unknown instruction)"

/-- The function `to_string(ALU_Operation const&)`: the expanded switch, one
case per enumerator `ALU_<NAME>` (numbered from 0 in list order). -/
def ALU_Operation.to_string (op : Int) : String :=
  match op with
  | 0 => "NOP"
  | 1 => "ADD"
  | 2 => "ADDU"
  | 3 => "SUB"
  | 4 => "SUBU"
  | 5 => "AND"
  | 6 => "OR"
  | 7 => "XOR"
  | 8 => "SLT"
  | 9 => "SLTU"
  | 10 => "SLL"
  | 11 => "SRL"
  | 12 => "SRA"
  | 13 => "SLLV"
  | 14 => "SRLV"
  | 15 => "SRAV"
  | 16 => "NOR"
  | 17 => "MTC0_PASS"
  | 18 => "MTC0_FAIL"
  | 19 => "MTC0_DONE"
  | 20 => "BA"
  | 21 => "BEQ"
  | 22 => "BNE"
  | 23 => "BLEZ"
  | 24 => "BGTZ"
  | 25 => "BGEZ"
  | 26 => "BLTZ"
  | _ => "(unknown operation)"

/-- The function `to_string(Register const&)`. -/
def Register.to_string (reg : Int) : String :=
  match reg with
  | 0 => "zero"
  | 1 => "at"
  | 2 => "v0"
  | 3 => "v1"
  | 4 => "a0"
  | 5 => "a1"
  | 6 => "a2"
  | 7 => "a3"
  | 8 => "t0"
  | 9 => "t1"
  | 10 => "t2"
  | 11 => "t3"
  | 12 => "t4"
  | 13 => "t5"
  | 14 => "t6"
  | 15 => "t7"
  | 16 => "s0"
  | 17 => "s1"
  | 18 => "s2"
  | 19 => "s3"
  | 20 => "s4"
  | 21 => "s5"
  | 22 => "s6"
  | 23 => "s7"
  | 24 => "t8"
  | 25 => "t9"
  | 26 => "k0"
  | 27 => "k1"
  | 28 => "gp"
  | 29 => "sp"
  | 30 => "s8"
  | 31 => "ra"
  | _ => "(invalid register)"

/-- The function `alu_ctl_to_string`: `to_string(ALU_Operation(alu_ctl))`. -/
def alu_ctl_to_string (alu_ctl : Int) : String := ALU_Operation.to_string alu_ctl

/-- The function `mips_reg_to_string`: `to_string(Register(index))`. -/
def mips_reg_to_string (index : Int) : String := Register.to_string index

/-! ## Physical registers -/

/-- The struct `PhysReg`: bit 0 of `index` is the use flag, the bits above it
the physical index. -/
structure PhysReg where
  index : Int
deriving DecidableEq

/-- The method `PhysReg::adjust(n)`: `index >> n`, an arithmetic shift. -/
def PhysReg.adjust (r : PhysReg) (n : Nat) : PhysReg := { index := r.index >>> n }

/-- The test `index & 1` made on a register field before it is shown. -/
def PhysReg.use_flag (r : PhysReg) : Int := Int.land r.index 1

/-! ## Tracer -/

/-- The table `stage_name_table`. -/
def stage_name_table : List String := ["Fetch", "Decode", "Rename", "Issue", "Commit"]

/-- Text of `os << hex{value}`: the 32-bit word in lowercase hexadecimal,
right-aligned in a field of 8 filled with `0`, between double quotes. -/
def hex_text (value : Int) : String :=
  let digits := Nat.toDigits 16 (to_unsigned value)
  "\"" ++ String.mk (List.replicate (8 - digits.length) '0' ++ digits) ++ "\""

/-- Text of `os << reg` for a `PhysReg`. -/
def PhysReg.text (reg : PhysReg) : String := "\"p" ++ intStr reg.index ++ "\""

/-- The value types `T` with which `Trace_Entry<T>` is instantiated. -/
inductive Trace_Value where
  | hex (value : Int)
  | c_str (s : String)
  | int (value : Int)
  | phys_reg (reg : PhysReg)
deriving DecidableEq

/-- The constant `is_string_type<T>`: true for `char const*` only. -/
def Trace_Value.is_string_type : Trace_Value → Bool
  | .c_str _ => true
  | _ => false

/-- Text of `f << entry.value`. -/
def Trace_Value.text : Trace_Value → String
  | .hex value => hex_text value
  | .c_str s => s
  | .int value => intStr value
  | .phys_reg reg => reg.text

/-- The struct `Trace_Entry<T>`, as built by `make_entry`. -/
structure Trace_Entry where
  key : String
  value : Trace_Value
  visible : Bool := true
deriving DecidableEq

/-- The struct `Tracer`. The stream `f` is the text of the file it was opened
on, with `is_open` telling whether it is open; an insertion into a stream that
is not open writes nothing. -/
structure Tracer where
  is_open : Bool := false
  f : String := ""
  event_count : Int := 0
  json_fragment : Int := 0
deriving DecidableEq

/-- One insertion `f << s`. -/
def Tracer.put (t : Tracer) (s : String) : Tracer :=
  if t.is_open then { t with f := t.f ++ s } else t

/-- Text of `f << output_trace`; the null pointer only ever meets a stream that
was never opened, and is rendered as no text. -/
def c_str_text (output_trace : Option String) : String := output_trace.getD ""

/-- The record written by `Tracer::create` for one stage. -/
def placeholder_text (output_trace : Option String) (stage : String) : String :=
  "\x7b\"cat\":\"a\",\"dur\":1,\"name\":\"DUMMY\",\"ph\":\"X\",\"pid\":\"" ++
  c_str_text output_trace ++ "\",\"tid\":\"" ++ stage ++ "\",\"ts\":0\x7d,"

/-- The opening text written by `Tracer::create` outside fragment mode. -/
def envelope_text : String := "\x7b\"otherData\":\x7b\x7d,\"traceEvents\": ["

/-- The method `Tracer::create`; the file `output_trace + ".json"` is opened
empty when `output_trace` is set. -/
def Tracer.create (output_trace : Option String) (t : Tracer) : Tracer :=
  let t1 := if output_trace.isSome then { t with is_open := true, f := "" } else t
  let t2 := if t1.json_fragment = 0 then t1.put envelope_text else t1
  stage_name_table.foldl (fun acc stage => acc.put (placeholder_text output_trace stage)) t2

/-- The single-entry overload of `Tracer::add_json_trace_event_args`, with the
value it returns. -/
def Tracer.add_json_trace_event_arg (entry : Trace_Entry) (t : Tracer) : Tracer × Bool :=
  if !entry.visible then (t, false)
  else
    let t1 := t.put ("\"" ++ entry.key ++ "\":")
    let t2 := if entry.value.is_string_type then t1.put "\"" else t1
    let t3 := t2.put entry.value.text
    let t4 := if entry.value.is_string_type then t3.put "\"" else t3
    (t4, true)

/-- The variadic overload of `Tracer::add_json_trace_event_args`, which ends in
the single-entry overload on the last entry. -/
def Tracer.add_json_trace_event_args : List Trace_Entry → Tracer → Tracer
  | [], t => t
  | [entry], t => (t.add_json_trace_event_arg entry).1
  | entry :: rest, t =>
    let r := t.add_json_trace_event_arg entry
    let t1 := if r.2 then r.1.put "," else r.1
    Tracer.add_json_trace_event_args rest t1

/-- The text `Tracer::add_json_trace_event` writes before the arguments; `ts`
and `duration` are `uint64_t`, and `T(ts)` is `ts*100` in that type. -/
def event_head_text (output_trace : Option String) (thread name : String)
    (ts duration : Nat) : String :=
  "\x7b\"cat\":\"write\",\"dur\":" ++ decStr duration ++
  ",\"name\":\"" ++ name ++ "\",\"ph\":\"X\",\"pid\":\"" ++ c_str_text output_trace ++
  "\",\"tid\":\"" ++ thread ++ "\",\"ts\":" ++ decStr (ts * 100 % UINT64_RANGE)

/-- The method `Tracer::add_json_trace_event`. -/
def Tracer.add_json_trace_event (output_trace : Option String) (thread name : String)
    (ts duration : Nat) (args : List Trace_Entry) (t : Tracer) : Tracer :=
  if t.event_count ≥ 100000 then t
  else
    let t1 := t.put (event_head_text output_trace thread name ts duration)
    let t2 :=
      if args.length > 0 then
        ((t1.put ",\"args\":\x7b").add_json_trace_event_args args).put "\x7d\x7d,"
      else t1
    { t2 with event_count := t2.event_count + 1 }

/-- The arguments of one call of `Tracer::add_json_trace_event`. -/
structure Trace_Call where
  thread : String
  name : String
  ts : Nat
  duration : Nat
  args : List Trace_Entry
deriving DecidableEq

/-- One call of `Tracer::add_json_trace_event`. -/
def Tracer.record (output_trace : Option String) (t : Tracer) (c : Trace_Call) : Tracer :=
  t.add_json_trace_event output_trace c.thread c.name c.ts c.duration c.args

/-- A sequence of calls of `Tracer::add_json_trace_event`, in order. -/
def Tracer.record_all (output_trace : Option String) (calls : List Trace_Call)
    (t : Tracer) : Tracer :=
  calls.foldl (Tracer.record output_trace) t

/-- The text one call writes to an open stream below the cap. -/
def Trace_Call.text (output_trace : Option String) (c : Trace_Call) : String :=
  (Tracer.record output_trace { is_open := true } c).f

/-- Concatenation of texts, in order. -/
def concat_texts : List String → String
  | [] => ""
  | x :: xs => x ++ concat_texts xs

/-! ## Text written for the arguments of a record -/

/-- Text of one visible entry: the quoted key, a colon, and the value, between
double quotes when it is a `char const*`. -/
def Trace_Entry.text (entry : Trace_Entry) : String :=
  "\"" ++ entry.key ++ "\":" ++
    (if entry.value.is_string_type then "\"" ++ entry.value.text ++ "\""
     else entry.value.text)

/-- Text written by the variadic `Tracer::add_json_trace_event_args`: a visible
entry that is not the last is followed by a comma, a hidden entry writes
nothing. -/
def args_text : List Trace_Entry → String
  | [] => ""
  | [entry] => if entry.visible then entry.text else ""
  | entry :: rest => (if entry.visible then entry.text ++ "," else "") ++ args_text rest

/-! ## Stage formatter: `log_pipeline_stage` -/

/-- The macro `DURATION`. -/
def DURATION : Nat := 1000

/-- The read `stage_name_table[stage]`; `none` is a read outside the table,
which has no defined result. -/
def stage_name_lookup (stage : Int) : Option String :=
  if 0 ≤ stage then stage_name_table.get? stage.toNat else none

/-- The label of a Rename record: `"p%i"` of the shifted destination when its
use flag is set, `"I"` otherwise. -/
def rename_label (dst : PhysReg) : String :=
  if dst.use_flag ≠ 0 then "p" ++ intStr (dst.adjust 1).index else "I"

/-- The label `"C%i"` of an Issue or Commit record. -/
def commit_label (commit_index : Int) : String := "C" ++ intStr commit_index

/-- The call made by `case 0` (Fetch): the payload read as `pc`,
`raw_instruction`. -/
def fetch_call (stage_name : String) (main_time : Nat) (a b : Int) : Trace_Call :=
  { thread := stage_name, name := "F", ts := main_time, duration := DURATION,
    args := [{ key := "pc", value := Trace_Value.hex a },
             { key := "raw_instruction", value := Trace_Value.hex b }] }

/-- The call made by `case 1` (Decode): the payload read as `pc`, `ins`, `rw`,
`rs`, `rt`, `imm`. -/
def decode_call (stage_name : String) (main_time : Nat) (a b c d e f : Int) : Trace_Call :=
  { thread := stage_name, name := Instruction.to_string b, ts := main_time,
    duration := DURATION,
    args := [{ key := "pc", value := Trace_Value.hex a },
             { key := "rw", value := Trace_Value.c_str (Register.to_string c) },
             { key := "rs", value := Trace_Value.c_str (Register.to_string d) },
             { key := "rt", value := Trace_Value.c_str (Register.to_string e) },
             { key := "imm", value := Trace_Value.int f }] }

/-- The call made by `case 2` (Rename): the payload read as `pc`,
`commit_index`, `old`, `dst`, `src1`, `src2`. -/
def rename_call (stage_name : String) (main_time : Nat) (a b c d e f : Int) : Trace_Call :=
  { thread := stage_name, name := rename_label { index := d }, ts := main_time,
    duration := DURATION,
    args := [{ key := "pc", value := Trace_Value.hex a },
             { key := "Commit Index", value := Trace_Value.int b },
             { key := "src1", value := Trace_Value.phys_reg ((PhysReg.mk e).adjust 1),
               visible := decide ((PhysReg.mk e).use_flag ≠ 0) },
             { key := "src2", value := Trace_Value.phys_reg ((PhysReg.mk f).adjust 1),
               visible := decide ((PhysReg.mk f).use_flag ≠ 0) },
             { key := "old", value := Trace_Value.phys_reg { index := c } }] }

/-- The call made by `case 3` (Issue): the payload read as `pc`,
`commit_index`, `result`, `outcome`. -/
def issue_call (stage_name : String) (main_time : Nat) (a b c d : Int) : Trace_Call :=
  { thread := stage_name, name := commit_label b, ts := main_time, duration := DURATION,
    args := [{ key := "pc", value := Trace_Value.hex a },
             { key := "Commit Index", value := Trace_Value.int b },
             { key := "result", value := Trace_Value.int c },
             { key := "outcome", value := Trace_Value.int d }] }

/-- The call made by `case 4` (Commit): the payload read as `pc`,
`commit_index`, `dst`, `free`. -/
def commit_call (stage_name : String) (main_time : Nat) (a b c d : Int) : Trace_Call :=
  { thread := stage_name, name := commit_label b, ts := main_time, duration := DURATION,
    args := [{ key := "pc", value := Trace_Value.hex a },
             { key := "dst", value := Trace_Value.phys_reg ((PhysReg.mk c).adjust 1),
               visible := decide ((PhysReg.mk c).use_flag ≠ 0) },
             { key := "free", value := Trace_Value.phys_reg ((PhysReg.mk d).adjust 1),
               visible := decide ((PhysReg.mk d).use_flag ≠ 0) },
             { key := "Commit Index", value := Trace_Value.int b }] }

/-- The function `log_pipeline_stage` on the global tracer; `none` is a call
whose behaviour is undefined, the table having been read outside its five
entries. -/
def log_pipeline_stage (output_trace : Option String) (main_time : Nat)
    (stage a b c d e f : Int) (t : Tracer) : Option Tracer :=
  if output_trace.isNone then some t
  else
    match stage_name_lookup stage with
    | none => none
    | some stage_name =>
      match stage with
      | 0 => some (t.record output_trace (fetch_call stage_name main_time a b))
      | 1 => some (t.record output_trace (decode_call stage_name main_time a b c d e f))
      | 2 => some (t.record output_trace (rename_call stage_name main_time a b c d e f))
      | 3 => some (t.record output_trace (issue_call stage_name main_time a b c d))
      | 4 => some (t.record output_trace (commit_call stage_name main_time a b c d))
      | _ => some t

/-- The method `Tracer::destroy`, with the line it prints on `std::cout`.
`f.seekp(-1, std::ios_base::cur)` moves the write position of the append-only
stream before its last character, so that `f << ' '` replaces it; on an empty
file the seek fails and the insertions that follow write nothing. -/
def Tracer.destroy (output_trace : Option String) (t : Tracer) : Tracer × String :=
  if !t.is_open then (t, "")
  else
    let f1 :=
      if t.f.data = [] then t.f
      else
        let trimmed := String.mk t.f.data.dropLast ++ " "
        if t.json_fragment = 0 then trimmed ++ "]\x7d" else trimmed
    ({ t with f := f1, is_open := false },
     "Wrote trace to \"" ++ c_str_text output_trace ++ ".json\"\n")

/-- The map `stats`: the counter of each label that has one. -/
abbrev Stats := String → Option Nat

/-- The empty map. -/
def Stats.empty : Stats := fun _ => none

/-- The function `stats_event`: `stats[s]++`, where `operator[]` inserts a
zero counter for a label that has none; the counters are `unsigned int`. -/
def stats_event (e : String) (stats : Stats) : Stats :=
  fun label => if label = e then some (((stats e).getD 0 + 1) % UINT_RANGE) else stats label

/-- A sequence of `stats_event` calls, in order. -/
def stats_events (labels : List String) (stats : Stats) : Stats :=
  labels.foldl (fun acc e => stats_event e acc) stats

/-- The largest `int`. -/
def INT_MAX : Int := 2147483647

/-- The global counters `prediction`, `correct` and `total_btb_used`. -/
structure Predictor where
  prediction : Int := 0
  correct : Int := 0
  total_btb_used : Int := 0
deriving DecidableEq

/-- The increment `x++` of an `int`; `none` is the overflow, which has no
defined result. -/
def int_incr (x : Int) : Option Int := if x < INT_MAX then some (x + 1) else none

/-- The function `predictor_event`. -/
def predictor_event (prediction correct : Int) (g : Predictor) : Option Predictor :=
  (if prediction = correct then int_incr g.correct else some g.correct).bind fun c =>
  (int_incr g.prediction).bind fun p =>
  some { g with correct := c, prediction := p }

/-- A sequence of `predictor_event` calls, in order, each a
`(prediction, correct)` pair. -/
def predictor_events (calls : List (Int × Int)) (g : Predictor) : Option Predictor :=
  match calls with
  | [] => some g
  | c :: rest => (predictor_event c.1 c.2 g).bind (predictor_events rest)

/-! ## Orchestration loop of `main` -/

/-- The variables the loop of `main` tests and updates: `main_time`,
`interrupt`, `stop_time` and the output `top->done` of the model. -/
structure Loop where
  main_time : Nat := 0
  interrupt : Int := 0
  stop_time : Nat := 0
  done : Bool := false
deriving DecidableEq

/-- What the world does during one iteration: whether the flag `interrupt` is
raised before the body tests it (a divergence reported by a stream callback
inside `top->eval()`, or a signal delivered by then), whether a signal is
delivered after the body has tested the flag and before the loop condition
reads it, and the value of `top->done` the evaluation leaves. -/
structure Tick where
  raise_early : Bool := false
  raise_late : Bool := false
  done : Bool := false
deriving DecidableEq

/-- The loop condition `!top->done && !(interrupt && main_time >= stop_time)`. -/
def loop_cond (s : Loop) : Bool :=
  !s.done && !(decide (s.interrupt ≠ 0) && decide (s.main_time ≥ s.stop_time))

/-- One iteration of the loop body. -/
def loop_body (k : Tick) (s : Loop) : Loop :=
  let s1 := { s with done := k.done,
                     interrupt := if k.raise_early then SIGINT else s.interrupt }
  let s2 := { s1 with main_time := (s1.main_time + 5) % UINT64_RANGE }
  let s3 :=
    if s2.interrupt ≠ 0 ∧ s2.stop_time = 0 then
      { s2 with stop_time := (s2.main_time + 100) % UINT64_RANGE }
    else s2
  { s3 with interrupt := if k.raise_late then SIGINT else s3.interrupt }

/-- The loop, run for at most `fuel` iterations from iteration `i`: the number
of the iteration at which the condition failed and the state there, or `none`
when the fuel does not reach that point. -/
def simulate (env : Nat → Tick) : Nat → Nat → Loop → Option (Nat × Loop)
  | fuel, i, s =>
    if loop_cond s then
      match fuel with
      | 0 => none
      | fuel1 + 1 => simulate env fuel1 (i + 1) (loop_body (env i) s)
    else some (i, s)

/-! ## Well-formed JSON text -/

/-- The variable `hexfiles_dir`. -/
def hexfiles_dir : String := ".."

/-- The name `fname` built in the `if (stream_dump)` block of `pc_event`. -/
def pc_dump_fname (benchmark : String) : String :=
  hexfiles_dir ++ "/hexfiles/" ++ benchmark ++ ".pc.txt"

/-- The name `fname` built in the `if (stream_check)` block of `pc_event`. -/
def pc_check_fname (benchmark : String) : String :=
  hexfiles_dir ++ "/hexfiles/" ++ benchmark ++ ".pc.txt"

/-- The name `fname` built in the `if (stream_dump)` block of `wb_event`. -/
def wb_dump_fname (benchmark : String) : String :=
  hexfiles_dir ++ "/hexfiles/" ++ benchmark ++ ".wb.txt"

/-- The name `fname` built in the `if (stream_check)` block of `wb_event`. -/
def wb_check_fname (benchmark : String) : String :=
  hexfiles_dir ++ "/hexfiles/" ++ benchmark ++ ".wb.txt"

/-- The name `fname` built in the `if (stream_dump)` block of `ls_event`. -/
def ls_dump_fname (benchmark : String) : String :=
  hexfiles_dir ++ "/hexfiles/" ++ benchmark ++ ".ls.txt"

/-- The name `fname` built in the `if (stream_check)` block of `ls_event`. -/
def ls_check_fname (benchmark : String) : String :=
  hexfiles_dir ++ "/hexfiles/" ++ benchmark ++ ".ls.txt"

/-- The name `hex_file_name` of the program image that `main` loads. -/
def hex_file_name (benchmark : String) : String :=
  hexfiles_dir ++ "/hexfiles/" ++ benchmark ++ ".hex"

/-- The files on disk: the text held under each path, `none` where there is no
file. -/
abbrev Files := String → Option String

/-- The files with `text` held under `fname`. -/
def Files.write (files : Files) (fname : String) (text : String) : Files :=
  fun path => if path = fname then some text else files path

/-- The files after `pc_event` ran its `if (stream_dump)` block. The writer
`static std::ofstream f(fname)` is opened on `pc_dump_fname` by the first event
that runs the block, which creates the file or empties it, and every line
written ends with `std::endl`, which flushes: the file holds the text written
through the writer. An event that does not run the block, or whose writer
could not be opened, leaves the files as they are. -/
def pc_event_files (benchmark : String) (pc : Int) (s : Sim) (files : Files) : Files :=
  if s.stream_dump ≠ 0 then
    match (pc_dump_step pc (pc_print pc s)).bind fun s1 => s1.pc_dump with
    | some text => files.write (pc_dump_fname benchmark) text
    | none => files
  else files

/-- The files after `wb_event` ran its `if (stream_dump)` block, as for
`pc_event_files`. -/
def wb_event_files (benchmark : String) (addr data : Int) (s : Sim) (files : Files) : Files :=
  if s.stream_dump ≠ 0 then
    match (wb_dump_step addr data (wb_print addr data s)).bind fun s1 => s1.wb_dump with
    | some text => files.write (wb_dump_fname benchmark) text
    | none => files
  else files

/-- The files after `ls_event` ran its `if (stream_dump)` block, as for
`pc_event_files`. -/
def ls_event_files (benchmark : String) (op addr data : Int) (s : Sim) (files : Files) :
    Files :=
  if s.stream_dump ≠ 0 then
    match (ls_dump_step op addr data (ls_print op addr data s)).bind fun s1 => s1.ls_dump with
    | some text => files.write (ls_dump_fname benchmark) text
    | none => files
  else files

/-! ## The argument object as specified -/

/-- Texts joined by single commas: one comma between two neighbours, none
before the first text or after the last. -/
def join_commas : List String → String
  | [] => ""
  | [x] => x
  | x :: y :: rest => x ++ "," ++ join_commas (y :: rest)

/-- The argument object as the specification describes it: the texts of the
visible entries, in call order, separated by single commas. -/
def visible_args_text (args : List Trace_Entry) : String :=
  join_commas ((args.filter fun entry => entry.visible).map Trace_Entry.text)

/-- Number of commas in a text. -/
def comma_count (s : String) : Nat := s.data.count ','

/-- The call made by `log_pipeline_stage` in the `case` of a stage 0..4, with
the lane name read from `stage_name_table`. -/
def stage_call (main_time : Nat) (stage a b c d e f : Int) : Option Trace_Call :=
  match stage with
  | 0 => some (fetch_call "Fetch" main_time a b)
  | 1 => some (decode_call "Decode" main_time a b c d e f)
  | 2 => some (rename_call "Rename" main_time a b c d e f)
  | 3 => some (issue_call "Issue" main_time a b c d)
  | 4 => some (commit_call "Commit" main_time a b c d)
  | _ => none

/-! ## The register fields that a record shows -/

/-- The fields that a Rename record shows, each with its key and the text of
its value: `pc`, `Commit Index`, then `src1` and `src2`, each only when bit 0 of
its encoded word is set and then as `p` with the word shifted right by one, and
`old` in every record, as `p` with the encoded word itself. -/
def rename_fields (a b c e f : Int) : List (String × String) :=
  [("pc", hex_text a), ("Commit Index", intStr b)] ++
  (if e % 2 = 1 then [("src1", "\"p" ++ intStr (e >>> (1 : Nat)) ++ "\"")] else []) ++
  (if f % 2 = 1 then [("src2", "\"p" ++ intStr (f >>> (1 : Nat)) ++ "\"")] else []) ++
  [("old", "\"p" ++ intStr c ++ "\"")]

/-- The fields that a Commit record shows, each with its key and the text of
its value: `pc`, then `dst` and `free`, each only when bit 0 of its encoded word
is set and then as `p` with the word shifted right by one, and
`Commit Index`. -/
def commit_fields (a b c d : Int) : List (String × String) :=
  [("pc", hex_text a)] ++
  (if c % 2 = 1 then [("dst", "\"p" ++ intStr (c >>> (1 : Nat)) ++ "\"")] else []) ++
  (if d % 2 = 1 then [("free", "\"p" ++ intStr (d >>> (1 : Nat)) ++ "\"")] else []) ++
  [("Commit Index", intStr b)]

/-- The argument object that shows the given fields: each as its key between
double quotes, a colon and its value, separated by single commas. -/
def fields_text (fields : List (String × String)) : String :=
  join_commas (fields.map fun field => "\"" ++ field.1 ++ "\":" ++ field.2)

/-! ## Benchmark `test_functions` (`src/hex_generator/test_functions.c`) -/

/-- The smallest `int`. -/
def INT_MIN : Int := -2147483648

/-- Result of an `int` addition on the 32-bit core: the sum is reduced into
`INT_MIN .. INT_MAX` modulo `2^32` (two's complement wrap-around, as `addu`
computes it; C itself leaves a sum outside the range undefined). -/
def int_wrap (v : Int) : Int := (v + 2147483648) % 4294967296 - 2147483648

/-- The marks a benchmark emits with the custom instructions `PASS`, `FAIL`
and `DONE`, each with the value of its operand. -/
inductive Mark where
  | PASS (value : Int)
  | FAIL (value : Int)
  | DONE (value : Int)
deriving DecidableEq

/-- The variables of `foo` inside its loop, with the marks emitted so far. -/
structure Foo where
  x : Int
  j : Int := 0
  k : Int := 1
  i : Int := 0
  marks : List Mark := []
deriving DecidableEq

/-- One iteration of the loop of `foo`: the body, then `++i`. -/
def foo_body (s : Foo) : Foo :=
  let x := int_wrap (s.x + s.k)
  let j := int_wrap (s.j + 1)
  let k := int_wrap (s.k + j)
  { x := x, j := j, k := k, i := int_wrap (s.i + 1), marks := s.marks ++ [Mark.PASS x] }

/-- The loop `for (int i = 0; i < 40; ++i)` of `foo`, from the state after its
initialisation; `none` is a loop that has not ended within `fuel` tests of its
condition. -/
def foo_loop : Nat → Foo → Option Foo
  | 0, _ => none
  | fuel + 1, s => if s.i < 40 then foo_loop fuel (foo_body s) else some s

/-- The function `foo`: the value returned, the marks emitted and the number of
iterations made (the final value of `i`). -/
def foo (fuel : Nat) (x : Int) : Option (Int × List Mark × Int) :=
  (foo_loop fuel { x := x }).map fun s => (s.x, s.marks, s.i)

/-- The function `begin` of `test_functions.c`: the value returned and the
marks emitted, those of `foo` first. -/
def begin (fuel : Nat) : Option (Int × List Mark) :=
  match foo fuel 7 with
  | none => none
  | some (r, marks, _) =>
    let branch := if r = 0x29d3 then [Mark.PASS r] else [Mark.FAIL r]
    let k : Int := 105
    some (0, marks ++ branch ++ [Mark.DONE k])

/-- The mark is a `FAIL`. -/
def Mark.is_fail : Mark → Bool
  | .FAIL _ => true
  | _ => false

/-- What `foo` has added to its argument after `n + 1` iterations:
`1 + 2 + 4 + 7 + ...`, the first `n + 1` values of `k`. -/
def foo_offset (n : Nat) : Int := (n : Int) + 1 + (n : Int) * (n + 1) * (n + 2) / 6

/-- The mark with its value moved by `x`, in `int` arithmetic. -/
def Mark.shift (x : Int) : Mark → Mark
  | .PASS v => .PASS (int_wrap (x + v))
  | .FAIL v => .FAIL (int_wrap (x + v))
  | .DONE v => .DONE (int_wrap (x + v))

/-- The state of `foo` with `x` and the marks moved by `x0`. -/
def Foo.shift (x0 : Int) (s : Foo) : Foo :=
  { s with x := int_wrap (x0 + s.x), marks := s.marks.map (Mark.shift x0) }

/-! ## Lemmas on conversions and extraction -/

theorem to_unsigned_lt (x : Int) : to_unsigned x < UINT_RANGE := by
  unfold to_unsigned UINT_RANGE
  omega

/-- An extraction fails and leaves the reader where it is, or takes the
numeral at the head. -/
theorem extract_cases (g : List Nat) :
    extract g = (none, g) ∨
    ∃ v rest, g = v :: rest ∧ v < UINT_RANGE ∧ extract g = (some v, rest) := by
  cases g with
  | nil => exact Or.inl rfl
  | cons v rest =>
    by_cases hv : v < UINT_RANGE
    · exact Or.inr ⟨v, rest, rfl, hv, by simp [extract, hv]⟩
    · exact Or.inl (by simp [extract, hv])

theorem extract_nil : extract [] = (none, []) := rfl

theorem extract_cons (v : Nat) (rest : List Nat) (hv : v < UINT_RANGE) :
    extract (v :: rest) = (some v, rest) := by
  simp [extract, hv]

/-- A line dumped leaves a reader that can be opened. -/
theorem dump_to_golden_ne_none (dump : String) (golden : Option (List Nat)) (line : List Nat)
    (h : golden ≠ none) : dump_to_golden dump golden line ≠ none := by
  obtain ⟨g, hg⟩ := Option.ne_none_iff_exists'.mp h
  unfold dump_to_golden
  split <;> simp [hg]

/-! ## One `pc_event` call -/

/-- What the print and dump blocks of `pc_event` leave behind; with dumping
off the golden reader is as it was. -/
theorem pc_dump_step_spec (pc : Int) (s : Sim)
    (hdump : s.stream_dump ≠ 0 → s.pc_dump ≠ none) :
    ∃ s1, pc_dump_step pc (pc_print pc s) = some s1 ∧
      s1.stream_check = s.stream_check ∧ s1.stream_dump = s.stream_dump ∧
      s1.stream_print = s.stream_print ∧ s1.main_time = s.main_time ∧
      (s.stream_dump ≠ 0 → s1.pc_dump ≠ none) ∧
      (s.stream_dump = 0 → s1.pc_golden = s.pc_golden) ∧
      (s.pc_golden ≠ none → s1.pc_golden ≠ none) ∧
      s1.instruction_count = s.instruction_count ∧
      s1.cout = (pc_print pc s).cout ∧ s1.interrupt = s.interrupt := by
  by_cases hd : s.stream_dump = 0
  · by_cases hp : s.stream_print = 0 <;> simp [pc_print, pc_dump_step, hd, hp]
  · obtain ⟨f, hf⟩ := Option.ne_none_iff_exists'.mp (hdump hd)
    by_cases hp : s.stream_print = 0 <;>
      simp [pc_print, pc_dump_step, hd, hp, hf] <;>
      exact dump_to_golden_ne_none _ _ _

/-- The check block of `pc_event` on a reader that yields `g`: what is kept,
what is consumed, and what each of the three outcomes leaves behind. -/
theorem pc_check_spec (pc : Int) (s : Sim) (g : List Nat)
    (hcheck : s.stream_check ≠ 0) (hg : s.pc_golden = some g) :
    ∃ s1, pc_check pc s = some s1 ∧
      (s1.stream_check = s.stream_check ∧ s1.stream_dump = s.stream_dump ∧
        s1.stream_print = s.stream_print ∧ s1.main_time = s.main_time ∧
        s1.pc_dump = s.pc_dump) ∧
      s1.pc_golden = some (extract g).2 ∧
      s1.instruction_count = s.instruction_count ∧
      ((extract g).1 = none →
        s1.cout = s.cout ++ pc_exhausted_text pc ∧ s1.interrupt = SIGINT) ∧
      (∀ e, (extract g).1 = some e → e ≠ to_unsigned pc →
        s1.cout = s.cout ++ pc_mismatch_text s.main_time e pc ∧ s1.interrupt = SIGINT) ∧
      ((extract g).1 = some (to_unsigned pc) →
        s1.cout = s.cout ∧ s1.interrupt = s.interrupt) := by
  unfold pc_check
  simp only [hcheck, hg, ne_eq, not_false_eq_true, if_true]
  rcases hx : extract g with ⟨_ | e, g1⟩
  · simp [raise_SIGINT]
  · by_cases he : e = to_unsigned pc
    · simp [he]
    · simp [he, raise_SIGINT]

/-- One `pc_event` call under verification, with dumping off: what is kept,
what is consumed, and what each of the three outcomes of the check leaves
behind. -/
theorem pc_event_spec (pc : Int) (s : Sim) (g : List Nat)
    (hcheck : s.stream_check ≠ 0) (hg : s.pc_golden = some g)
    (hdump : s.stream_dump = 0) :
    ∃ s1, pc_event pc s = some s1 ∧
      (s1.stream_check = s.stream_check ∧ s1.stream_dump = 0 ∧
        s1.stream_print = s.stream_print ∧ s1.main_time = s.main_time) ∧
      s1.pc_golden = some (extract g).2 ∧
      s1.instruction_count = (s.instruction_count + 1) % UINT_RANGE ∧
      ((extract g).1 = none →
        s1.cout = (pc_print pc s).cout ++ pc_exhausted_text pc ∧ s1.interrupt = SIGINT) ∧
      (∀ e, (extract g).1 = some e → e ≠ to_unsigned pc →
        s1.cout = (pc_print pc s).cout ++ pc_mismatch_text s.main_time e pc ∧
          s1.interrupt = SIGINT) ∧
      ((extract g).1 = some (to_unsigned pc) →
        s1.cout = (pc_print pc s).cout ∧ s1.interrupt = s.interrupt) := by
  obtain ⟨s1, h1, hc1, hd1, hp1, ht1, _, hg1, _, hn1, hco1, hi1⟩ :=
    pc_dump_step_spec pc s (fun h => absurd hdump h)
  have hg1' : s1.pc_golden = some g := by rw [hg1 hdump, hg]
  obtain ⟨s2, h2, ⟨hc2, hd2, hp2, ht2, _⟩, hg2, hn2, hex, hmis, hok⟩ :=
    pc_check_spec pc s1 g (by rw [hc1]; exact hcheck) hg1'
  refine ⟨{ s2 with instruction_count := (s2.instruction_count + 1) % UINT_RANGE }, ?_,
    ⟨by rw [← hc1, ← hc2], by rw [← hdump, ← hd1, ← hd2], by rw [← hp1, ← hp2],
      by rw [← ht1, ← ht2]⟩, hg2, ?_, ?_, ?_, ?_⟩
  · unfold pc_event
    rw [h1]
    simp only [Option.some_bind, h2]
  · show (s2.instruction_count + 1) % UINT_RANGE = _
    rw [hn2, hn1]
  · intro h
    obtain ⟨ha, hb⟩ := hex h
    exact ⟨by rw [← hco1]; exact ha, hb⟩
  · intro e h hne
    obtain ⟨ha, hb⟩ := hmis e h hne
    exact ⟨by rw [← hco1, ← ht1]; exact ha, hb⟩
  · intro h
    obtain ⟨ha, hb⟩ := hok h
    exact ⟨by rw [← hco1]; exact ha, by rw [← hi1]; exact hb⟩

/-- With dumping off, a reader on which the extraction fails stays where it is
through any run of `pc_event` calls. -/
theorem pc_events_stuck (evs : List Int) :
    ∀ (s : Sim) (g : List Nat), s.stream_check ≠ 0 → s.stream_dump = 0 →
      s.pc_golden = some g → extract g = (none, g) →
      ∃ s1, pc_events evs s = some s1 ∧ s1.stream_check ≠ 0 ∧ s1.stream_dump = 0 ∧
        s1.main_time = s.main_time ∧ s1.pc_golden = some g := by
  induction evs with
  | nil =>
    intro s g hcheck hdump hg _
    exact ⟨s, rfl, hcheck, hdump, rfl, hg⟩
  | cons pc tl ih =>
    intro s g hcheck hdump hg hstuck
    obtain ⟨s1, h1, ⟨hc1, hd1, _, ht1⟩, hg1, _⟩ := pc_event_spec pc s g hcheck hg hdump
    rw [hstuck] at hg1
    obtain ⟨s2, h2, hc2, hd2, ht2, hg2⟩ :=
      ih s1 g (by rw [hc1]; exact hcheck) hd1 hg1 hstuck
    exact ⟨s2, by simp [pc_events, h1, h2], hc2, hd2, by rw [ht2, ht1], hg2⟩

/-- With dumping off, a run of `pc_event` calls under verification keeps the
configuration and takes one numeral from the golden reader per call, until the
extraction fails. -/
theorem pc_events_consume (evs : List Int) :
    ∀ (s : Sim) (g : List Nat), s.stream_check ≠ 0 → s.stream_dump = 0 →
      s.pc_golden = some g →
      ∃ s1 g1, pc_events evs s = some s1 ∧ s1.stream_check ≠ 0 ∧ s1.stream_dump = 0 ∧
        s1.main_time = s.main_time ∧ s1.pc_golden = some g1 ∧
        (extract g1 = (none, g1) ∨ g1.length + evs.length ≤ g.length) := by
  induction evs with
  | nil =>
    intro s g hcheck hdump hg
    exact ⟨s, g, rfl, hcheck, hdump, rfl, hg, Or.inr (by simp)⟩
  | cons pc tl ih =>
    intro s g hcheck hdump hg
    obtain ⟨s1, h1, ⟨hc1, hd1, _, ht1⟩, hg1, _⟩ := pc_event_spec pc s g hcheck hg hdump
    have hc1' : s1.stream_check ≠ 0 := by rw [hc1]; exact hcheck
    rcases extract_cases g with hstuck | ⟨v, rest, rfl, _, hx⟩
    · rw [hstuck] at hg1
      obtain ⟨s2, h2, hc2, hd2, ht2, hg2⟩ := pc_events_stuck tl s1 g hc1' hd1 hg1 hstuck
      exact ⟨s2, g, by simp [pc_events, h1, h2], hc2, hd2, by rw [ht2, ht1], hg2,
        Or.inl hstuck⟩
    · rw [hx] at hg1
      obtain ⟨s2, g2, h2, hc2, hd2, ht2, hg2, hlen2⟩ := ih s1 rest hc1' hd1 hg1
      refine ⟨s2, g2, by simp [pc_events, h1, h2], hc2, hd2, by rw [ht2, ht1], hg2, ?_⟩
      rcases hlen2 with h | h
      · exact Or.inl h
      · exact Or.inr (by simp only [List.length_cons]; omega)

/-- With dumping off, a run of `pc_event` calls whose values are the golden
numerals, one by one: no interrupt, no diagnostic, one count per call. -/
theorem pc_events_replay (live : List Int) :
    ∀ (s : Sim) (rest : List Nat), s.stream_check ≠ 0 →
      s.pc_golden = some (live.map to_unsigned ++ rest) →
      s.stream_dump = 0 →
      s.instruction_count < UINT_RANGE →
      ∃ s1, pc_events live s = some s1 ∧ s1.interrupt = s.interrupt ∧
        s1.pc_golden = some rest ∧
        s1.instruction_count = (s.instruction_count + live.length) % UINT_RANGE ∧
        (s.stream_print = 0 → s1.cout = s.cout) := by
  induction live with
  | nil =>
    intro s rest _ hg _ hlt
    exact ⟨s, rfl, rfl, by simpa using hg, by simp [Nat.mod_eq_of_lt hlt], fun _ => rfl⟩
  | cons pc tl ih =>
    intro s rest hcheck hg hdump _
    have hg0 : s.pc_golden = some (to_unsigned pc :: (tl.map to_unsigned ++ rest)) := by
      simpa using hg
    obtain ⟨s1, h1, ⟨hc1, hd1, hp1, _⟩, hg1, hn1, _, _, hm1⟩ :=
      pc_event_spec pc s _ hcheck hg0 hdump
    rw [extract_cons _ _ (to_unsigned_lt pc)] at hg1 hm1
    obtain ⟨hco1, hi1⟩ := hm1 rfl
    obtain ⟨s2, h2, hi2, hg2, hn2, hco2⟩ :=
      ih s1 rest (by rw [hc1]; exact hcheck) hg1 hd1
        (by rw [hn1]; exact Nat.mod_lt _ (by decide))
    refine ⟨s2, ?_, by rw [hi2, hi1], hg2, ?_, ?_⟩
    · simp [pc_events, h1, h2]
    · rw [hn2, hn1]; simp [UINT_RANGE]; omega
    · intro hp
      rw [hco2 (by rw [hp1]; exact hp), hco1]
      simp [pc_print, hp]

/-- The replay of `n` golden zeros by `n` live zeros leaves the counter at
`n` modulo `2^32`. -/
theorem pc_events_replicate (n : Nat) :
    ∃ s1, pc_events (List.replicate n (0 : Int))
        { pc_golden := some (List.replicate n 0) } = some s1 ∧
      s1.interrupt = 0 ∧ s1.instruction_count = n % UINT_RANGE := by
  obtain ⟨s1, h1, hi, _, hn, _⟩ :=
    pc_events_replay (List.replicate n (0 : Int))
      { pc_golden := some (List.replicate n 0) } []
      (by simp) (by simp [List.map_replicate, to_unsigned]) rfl (by simp [UINT_RANGE])
  exact ⟨s1, h1, hi, by rw [hn]; simp⟩

/-! ## Claims on `pc_event` -/

/-- C1 (amended): with verification enabled and dumping off, a live sequence
of retired-PC events that equals the golden list `g` element by element (as
32-bit words) raises no divergence after any number of its events, and from a
zero counter and a list shorter than `2^32` the retired-instruction count ends
at the length of `g`. -/
theorem pc_event_golden_replay (s : Sim) (g : List Nat) (live : List Int)
    (hcheck : s.stream_check ≠ 0) (hg : s.pc_golden = some g)
    (hlive : live.map to_unsigned = g)
    (hdump : s.stream_dump = 0)
    (hint : s.interrupt = 0) (hcnt : s.instruction_count = 0)
    (hlen : g.length < UINT_RANGE) :
    (∀ k, k ≤ live.length →
      ∃ sk, pc_events (live.take k) s = some sk ∧ sk.interrupt = 0 ∧
        (s.stream_print = 0 → sk.cout = s.cout)) ∧
    ∃ s1, pc_events live s = some s1 ∧ s1.interrupt = 0 ∧
      s1.instruction_count = g.length := by
  have hc0 : s.instruction_count < UINT_RANGE := by rw [hcnt]; decide
  constructor
  · intro k _
    have hsplit : s.pc_golden
        = some ((live.take k).map to_unsigned ++ (live.drop k).map to_unsigned) := by
      rw [hg, ← hlive, ← List.map_append, List.take_append_drop]
    obtain ⟨sk, h1, hi, _, _, hcout⟩ :=
      pc_events_replay (live.take k) s _ hcheck hsplit hdump hc0
    exact ⟨sk, h1, by rw [hi, hint], hcout⟩
  · obtain ⟨s1, h1, hi, _, hn, _⟩ :=
      pc_events_replay live s [] hcheck (by rw [hg, ← hlive]; simp) hdump hc0
    refine ⟨s1, h1, by rw [hi, hint], ?_⟩
    have hl : live.length = g.length := by rw [← hlive]; simp
    rw [hn, hcnt, hl, Nat.zero_add, Nat.mod_eq_of_lt hlen]

/-- C1, the example of the specification: golden `100 104 108`, live `0x100`,
`0x104`, `0x108`, dumping off. -/
theorem pc_event_golden_replay_witness :
    ∃ s1, pc_events [0x100, 0x104, 0x108] { pc_golden := some [0x100, 0x104, 0x108] }
        = some s1 ∧ s1.interrupt = 0 ∧ s1.instruction_count = 3 :=
  (pc_event_golden_replay { pc_golden := some [0x100, 0x104, 0x108] }
    [0x100, 0x104, 0x108] [0x100, 0x104, 0x108]
    (by decide) rfl (by decide) rfl rfl rfl (by decide)).2

/-- C1 as stated fails in two ways. For a golden list of `2^32` records the
replay raises no divergence, and the `unsigned int` counter ends at 0, not at
the length. And with time-stamped dumping on (`stream_dump = 2`), the golden
file holding `100`, the live event `0x100` at time 110 is first dumped: the
file then holds the line `110 100`, the reader takes `110` from it, and the
event that equals the golden record raises the interrupt flag with a mismatch
diagnostic. -/
theorem pc_event_replay_count_wraps :
    (∃ s1, pc_events (List.replicate 4294967296 (0 : Int))
        { pc_golden := some (List.replicate 4294967296 0) } = some s1 ∧
      s1.interrupt = 0 ∧ s1.instruction_count = 0 ∧
      s1.instruction_count ≠ (List.replicate 4294967296 (0 : Nat)).length) ∧
    (pc_event 0x100 { stream_dump := 2, main_time := 110, pc_golden := some [0x100] }).map
        (fun s => (s.interrupt, s.pc_dump, s.cout)) =
      some (SIGINT, some "110 100\n", "\n!! [110] expected_pc=110 mismatches pc=100\n") := by
  constructor
  · obtain ⟨s1, h1, hi, hn⟩ := pc_events_replicate 4294967296
    have h0 : s1.instruction_count = 0 := by rw [hn]; exact Nat.mod_self _
    refine ⟨s1, h1, hi, h0, ?_⟩
    rw [h0, List.length_replicate]
    exact Nat.zero_ne_add_one 4294967295
  · decide

/-- C2 (amended): with verification enabled and dumping off, once earlier live
events have taken every record of the golden list `g`, `pc_event(p)` prints the
stream-exhausted diagnostic ending in `Additional pc=` and `p` in hexadecimal,
and raises the interrupt flag. -/
theorem pc_event_stream_exhausted (s : Sim) (g : List Nat) (evs : List Int) (p : Int)
    (hcheck : s.stream_check ≠ 0) (hg : s.pc_golden = some g)
    (hdump : s.stream_dump = 0)
    (hall : g.length ≤ evs.length) :
    ∃ s1 s2, pc_events evs s = some s1 ∧ pc_event p s1 = some s2 ∧
      s2.cout = (pc_print p s1).cout ++
        ("\n!! Ran out of expected pc." ++
         "\n!! More instructions are executed than expected" ++
         "\n!! Additional pc=" ++ hexStr (to_unsigned p) ++ "\n") ∧
      s2.interrupt = SIGINT ∧ s2.interrupt ≠ 0 := by
  obtain ⟨s1, g1, h1, hc1, hd1, _, hg1, hlen1⟩ := pc_events_consume evs s g hcheck hdump hg
  have hfail : (extract g1).1 = none := by
    rcases hlen1 with h | h
    · rw [h]
    · have hnil : g1 = [] := List.length_eq_zero.mp (by omega)
      rw [hnil]
      rfl
  obtain ⟨s2, h2, _, _, _, hex, _, _⟩ := pc_event_spec p s1 g1 hc1 hg1 hd1
  obtain ⟨hco, hi⟩ := hex hfail
  exact ⟨s1, s2, h1, h2, hco, hi, by rw [hi]; decide⟩

/-- C2, the example of the specification: a fourth event `0x200` after golden
`100 104 108` has been consumed, dumping off. -/
theorem pc_event_stream_exhausted_witness :
    ∃ s1 s2, pc_events [0x100, 0x104, 0x108] { pc_golden := some [0x100, 0x104, 0x108] }
        = some s1 ∧ pc_event 0x200 s1 = some s2 ∧
      s2.cout = (pc_print 0x200 s1).cout ++
        ("\n!! Ran out of expected pc." ++
         "\n!! More instructions are executed than expected" ++
         "\n!! Additional pc=" ++ hexStr (to_unsigned 0x200) ++ "\n") ∧
      s2.interrupt = SIGINT ∧ s2.interrupt ≠ 0 :=
  pc_event_stream_exhausted { pc_golden := some [0x100, 0x104, 0x108] }
    [0x100, 0x104, 0x108] [0x100, 0x104, 0x108] 0x200
    (by decide) rfl rfl (by decide)

/-- C2 as stated fails with dumping on (`stream_dump = 1`): the golden file
holding `100 104 108`, the first event dumped empties it, every event is
dumped to it before the reader is asked, and the fourth event `0x200` finds
its own value there: no diagnostic is printed and the interrupt flag stays 0,
the golden file now being the four lines dumped. -/
theorem pc_event_dumped_not_exhausted :
    ((pc_events [0x100, 0x104, 0x108]
        { stream_dump := 1, pc_golden := some [0x100, 0x104, 0x108] }).bind
      (pc_event 0x200)).map (fun s => (s.interrupt, s.cout, s.pc_dump)) =
      some (0, "", some "100\n104\n108\n200\n") := by
  decide

/-- C3 (amended): with verification enabled and dumping off, a next golden
value `e` (an `unsigned int`) and a live value `p` that differs from it, at
simulated time `t`: `pc_event(p)` prints the mismatch diagnostic with `t` in
decimal, `e` and `p` in hexadecimal, and raises the interrupt flag. -/
theorem pc_event_value_mismatch (s : Sim) (e : Nat) (rest : List Nat) (p : Int) (t : Nat)
    (hcheck : s.stream_check ≠ 0) (hg : s.pc_golden = some (e :: rest))
    (he : e < UINT_RANGE) (hne : e ≠ to_unsigned p) (ht : s.main_time = t)
    (hdump : s.stream_dump = 0) :
    ∃ s1, pc_event p s = some s1 ∧
      s1.cout = (pc_print p s).cout ++
        ("\n!! [" ++ decStr t ++ "] expected_pc=" ++ hexStr e ++
         " mismatches pc=" ++ hexStr (to_unsigned p) ++ "\n") ∧
      s1.interrupt = SIGINT ∧ s1.interrupt ≠ 0 := by
  obtain ⟨s1, h1, _, _, _, _, hmis, _⟩ := pc_event_spec p s _ hcheck hg hdump
  rw [extract_cons e rest he] at hmis
  obtain ⟨hco, hi⟩ := hmis e rfl hne
  refine ⟨s1, h1, ?_, hi, by rw [hi]; decide⟩
  rw [hco, ht]
  rfl

/-- C3, the example of the specification: golden `104`, live `0x100`, at time
105, dumping off. -/
theorem pc_event_value_mismatch_witness :
    ∃ s1, pc_event 0x100 { pc_golden := some [0x104], main_time := 105 } = some s1 ∧
      s1.cout = (pc_print 0x100 { pc_golden := some [0x104], main_time := 105 }).cout ++
        ("\n!! [" ++ decStr 105 ++ "] expected_pc=" ++ hexStr 0x104 ++
         " mismatches pc=" ++ hexStr (to_unsigned 0x100) ++ "\n") ∧
      s1.interrupt = SIGINT ∧ s1.interrupt ≠ 0 :=
  pc_event_value_mismatch { pc_golden := some [0x104], main_time := 105 } 0x104 [] 0x100 105
    (by decide) rfl (by decide) (by decide) rfl rfl

/-- C3 as stated fails with dumping on (`stream_dump = 1`): the golden file
holding `104`, the live event `0x100` at time 105 is first dumped, the file
then holds the line `100`, the reader takes `100` from it, and the event that
differs from the golden record prints no diagnostic and leaves the interrupt
flag at 0. -/
theorem pc_event_dumped_not_mismatched :
    (pc_event 0x100 { stream_dump := 1, pc_golden := some [0x104], main_time := 105 }).map
        (fun s => (s.interrupt, s.cout, s.pc_dump)) =
      some (0, "", some "100\n") := by
  decide

/-! ## One `wb_event` call and one `ls_event` call -/

theorem extract2_cons (a d : Nat) (rest : List Nat) (ha : a < UINT_RANGE)
    (hd : d < UINT_RANGE) : extract2 (a :: d :: rest) = (some (a, d), rest) := by
  simp [extract2, extract, ha, hd]

theorem extract3_cons (o a d : Nat) (rest : List Nat) (ho : o < UINT_RANGE)
    (ha : a < UINT_RANGE) (hd : d < UINT_RANGE) :
    extract3 (o :: a :: d :: rest) = (some (o, a, d), rest) := by
  simp [extract3, extract, ho, ha, hd]

/-- A text is not itself followed by a non-empty text. -/
theorem append_ne_self (a b : String) (hb : 0 < b.length) : a ≠ a ++ b := by
  intro h
  have hl := congrArg String.length h
  rw [String.length_append] at hl
  omega

theorem wb_mismatch_text_length (t ea ed : Nat) (a d : Int) :
    0 < (wb_mismatch_text t ea ed a d).length := by
  simp only [wb_mismatch_text, String.length_append]
  have : ("\n!! [" : String).length = 5 := by decide
  omega

theorem ls_mismatch_text_length (t eo ea ed : Nat) (o a d : Int) :
    0 < (ls_mismatch_text t eo ea ed o a d).length := by
  simp only [ls_mismatch_text, String.length_append]
  have : ("\n!! [" : String).length = 5 := by decide
  omega

/-- What the print and dump blocks of `wb_event` leave behind; with dumping
off the golden reader is as it was. -/
theorem wb_dump_step_spec (addr data : Int) (s : Sim)
    (hdump : s.stream_dump ≠ 0 → s.wb_dump ≠ none) :
    ∃ s1, wb_dump_step addr data (wb_print addr data s) = some s1 ∧
      s1.stream_check = s.stream_check ∧ s1.stream_dump = s.stream_dump ∧
      s1.stream_print = s.stream_print ∧ s1.main_time = s.main_time ∧
      (s.stream_dump ≠ 0 → s1.wb_dump ≠ none) ∧
      (s.stream_dump = 0 → s1.wb_golden = s.wb_golden) ∧
      (s.wb_golden ≠ none → s1.wb_golden ≠ none) ∧
      s1.write_back_count = s.write_back_count ∧
      s1.cout = (wb_print addr data s).cout ∧ s1.interrupt = s.interrupt := by
  by_cases hd : s.stream_dump = 0
  · by_cases hp : s.stream_print = 0 <;> simp [wb_print, wb_dump_step, hd, hp]
  · obtain ⟨f, hf⟩ := Option.ne_none_iff_exists'.mp (hdump hd)
    by_cases hp : s.stream_print = 0 <;>
      simp [wb_print, wb_dump_step, hd, hp, hf] <;>
      exact dump_to_golden_ne_none _ _ _

/-- The check block of `wb_event` on a reader that yields `g`. -/
theorem wb_check_spec (addr data : Int) (s : Sim) (g : List Nat)
    (hcheck : s.stream_check ≠ 0) (hg : s.wb_golden = some g) :
    ∃ s1, wb_check addr data s = some s1 ∧
      (s1.stream_check = s.stream_check ∧ s1.stream_dump = s.stream_dump ∧
        s1.stream_print = s.stream_print ∧ s1.main_time = s.main_time ∧
        s1.wb_dump = s.wb_dump) ∧
      s1.wb_golden = some (extract2 g).2 ∧
      s1.write_back_count = s.write_back_count ∧
      ((extract2 g).1 = none →
        s1.cout = s.cout ++ wb_exhausted_text addr data ∧ s1.interrupt = SIGINT) ∧
      (∀ ea ed, (extract2 g).1 = some (ea, ed) →
        (ea ≠ to_unsigned addr ∨ ed ≠ to_unsigned data) →
        s1.cout = s.cout ++ wb_mismatch_text s.main_time ea ed addr data ∧
          s1.interrupt = SIGINT) ∧
      ((extract2 g).1 = some (to_unsigned addr, to_unsigned data) →
        s1.cout = s.cout ∧ s1.interrupt = s.interrupt) := by
  unfold wb_check
  simp only [hcheck, hg, ne_eq, not_false_eq_true, if_true]
  rcases hx : extract2 g with ⟨_ | ⟨ea, ed⟩, g1⟩
  · simp [raise_SIGINT]
  · by_cases he : ea = to_unsigned addr ∧ ed = to_unsigned data
    · obtain ⟨he1, he2⟩ := he
      simp [he1, he2]
    · have he' : ¬ea = to_unsigned addr ∨ ¬ed = to_unsigned data := by
        by_cases h1 : ea = to_unsigned addr
        · exact Or.inr fun h2 => he ⟨h1, h2⟩
        · exact Or.inl h1
      simp [he, he', raise_SIGINT]

/-- One `wb_event` call under verification, with dumping off. -/
theorem wb_event_spec (addr data : Int) (s : Sim) (g : List Nat)
    (hcheck : s.stream_check ≠ 0) (hg : s.wb_golden = some g)
    (hdump : s.stream_dump = 0) :
    ∃ s1, wb_event addr data s = some s1 ∧
      (s1.stream_check = s.stream_check ∧ s1.stream_dump = 0 ∧
        s1.stream_print = s.stream_print ∧ s1.main_time = s.main_time) ∧
      s1.wb_golden = some (extract2 g).2 ∧
      s1.write_back_count = (s.write_back_count + 1) % UINT_RANGE ∧
      ((extract2 g).1 = none →
        s1.cout = (wb_print addr data s).cout ++ wb_exhausted_text addr data ∧
          s1.interrupt = SIGINT) ∧
      (∀ ea ed, (extract2 g).1 = some (ea, ed) →
        (ea ≠ to_unsigned addr ∨ ed ≠ to_unsigned data) →
        s1.cout = (wb_print addr data s).cout ++
            wb_mismatch_text s.main_time ea ed addr data ∧
          s1.interrupt = SIGINT) ∧
      ((extract2 g).1 = some (to_unsigned addr, to_unsigned data) →
        s1.cout = (wb_print addr data s).cout ∧ s1.interrupt = s.interrupt) := by
  obtain ⟨s1, h1, hc1, hd1, hp1, ht1, _, hg1, _, hn1, hco1, hi1⟩ :=
    wb_dump_step_spec addr data s (fun h => absurd hdump h)
  have hg1' : s1.wb_golden = some g := by rw [hg1 hdump, hg]
  obtain ⟨s2, h2, ⟨hc2, hd2, hp2, ht2, _⟩, hg2, hn2, hex, hmis, hok⟩ :=
    wb_check_spec addr data s1 g (by rw [hc1]; exact hcheck) hg1'
  refine ⟨{ s2 with write_back_count := (s2.write_back_count + 1) % UINT_RANGE }, ?_,
    ⟨by rw [← hc1, ← hc2], by rw [← hdump, ← hd1, ← hd2], by rw [← hp1, ← hp2],
      by rw [← ht1, ← ht2]⟩, hg2, ?_, ?_, ?_, ?_⟩
  · unfold wb_event
    rw [h1]
    simp only [Option.some_bind, h2]
  · show (s2.write_back_count + 1) % UINT_RANGE = _
    rw [hn2, hn1]
  · intro h
    obtain ⟨ha, hb⟩ := hex h
    exact ⟨by rw [← hco1]; exact ha, hb⟩
  · intro ea ed h hne
    obtain ⟨ha, hb⟩ := hmis ea ed h hne
    exact ⟨by rw [← hco1, ← ht1]; exact ha, hb⟩
  · intro h
    obtain ⟨ha, hb⟩ := hok h
    exact ⟨by rw [← hco1]; exact ha, by rw [← hi1]; exact hb⟩

/-- What the print and dump blocks of `ls_event` leave behind; with dumping
off the golden reader is as it was. -/
theorem ls_dump_step_spec (op addr data : Int) (s : Sim)
    (hdump : s.stream_dump ≠ 0 → s.ls_dump ≠ none) :
    ∃ s1, ls_dump_step op addr data (ls_print op addr data s) = some s1 ∧
      s1.stream_check = s.stream_check ∧ s1.stream_dump = s.stream_dump ∧
      s1.stream_print = s.stream_print ∧ s1.main_time = s.main_time ∧
      (s.stream_dump ≠ 0 → s1.ls_dump ≠ none) ∧
      (s.stream_dump = 0 → s1.ls_golden = s.ls_golden) ∧
      (s.ls_golden ≠ none → s1.ls_golden ≠ none) ∧
      s1.load_store_count = s.load_store_count ∧
      s1.cout = (ls_print op addr data s).cout ∧ s1.interrupt = s.interrupt := by
  by_cases hd : s.stream_dump = 0
  · by_cases hp : s.stream_print = 0 <;> simp [ls_print, ls_dump_step, hd, hp]
  · obtain ⟨f, hf⟩ := Option.ne_none_iff_exists'.mp (hdump hd)
    by_cases hp : s.stream_print = 0 <;>
      simp [ls_print, ls_dump_step, hd, hp, hf] <;>
      exact dump_to_golden_ne_none _ _ _

/-- The check block of `ls_event` on a reader that yields `g`. -/
theorem ls_check_spec (op addr data : Int) (s : Sim) (g : List Nat)
    (hcheck : s.stream_check ≠ 0) (hg : s.ls_golden = some g) :
    ∃ s1, ls_check op addr data s = some s1 ∧
      (s1.stream_check = s.stream_check ∧ s1.stream_dump = s.stream_dump ∧
        s1.stream_print = s.stream_print ∧ s1.main_time = s.main_time ∧
        s1.ls_dump = s.ls_dump) ∧
      s1.ls_golden = some (extract3 g).2 ∧
      s1.load_store_count = s.load_store_count ∧
      ((extract3 g).1 = none →
        s1.cout = s.cout ++ ls_exhausted_text op addr data ∧ s1.interrupt = SIGINT) ∧
      (∀ eo ea ed, (extract3 g).1 = some (eo, ea, ed) →
        (eo ≠ to_unsigned op ∨ ea ≠ to_unsigned addr ∨ ed ≠ to_unsigned data) →
        s1.cout = s.cout ++ ls_mismatch_text s.main_time eo ea ed op addr data ∧
          s1.interrupt = SIGINT) ∧
      ((extract3 g).1 = some (to_unsigned op, to_unsigned addr, to_unsigned data) →
        s1.cout = s.cout ∧ s1.interrupt = s.interrupt) := by
  unfold ls_check
  simp only [hcheck, hg, ne_eq, not_false_eq_true, if_true]
  rcases hx : extract3 g with ⟨_ | ⟨eo, ea, ed⟩, g1⟩
  · simp [raise_SIGINT]
  · by_cases he : eo = to_unsigned op ∧ ea = to_unsigned addr ∧ ed = to_unsigned data
    · obtain ⟨he0, he1, he2⟩ := he
      simp [he0, he1, he2]
    · have he' : ¬eo = to_unsigned op ∨ ¬ea = to_unsigned addr ∨ ¬ed = to_unsigned data := by
        by_cases h0 : eo = to_unsigned op
        · by_cases h1 : ea = to_unsigned addr
          · exact Or.inr (Or.inr fun h2 => he ⟨h0, h1, h2⟩)
          · exact Or.inr (Or.inl h1)
        · exact Or.inl h0
      simp [he, he', raise_SIGINT]

/-- One `ls_event` call under verification, with dumping off. -/
theorem ls_event_spec (op addr data : Int) (s : Sim) (g : List Nat)
    (hcheck : s.stream_check ≠ 0) (hg : s.ls_golden = some g)
    (hdump : s.stream_dump = 0) :
    ∃ s1, ls_event op addr data s = some s1 ∧
      (s1.stream_check = s.stream_check ∧ s1.stream_dump = 0 ∧
        s1.stream_print = s.stream_print ∧ s1.main_time = s.main_time) ∧
      s1.ls_golden = some (extract3 g).2 ∧
      s1.load_store_count = (s.load_store_count + 1) % UINT_RANGE ∧
      ((extract3 g).1 = none →
        s1.cout = (ls_print op addr data s).cout ++ ls_exhausted_text op addr data ∧
          s1.interrupt = SIGINT) ∧
      (∀ eo ea ed, (extract3 g).1 = some (eo, ea, ed) →
        (eo ≠ to_unsigned op ∨ ea ≠ to_unsigned addr ∨ ed ≠ to_unsigned data) →
        s1.cout = (ls_print op addr data s).cout ++
            ls_mismatch_text s.main_time eo ea ed op addr data ∧
          s1.interrupt = SIGINT) ∧
      ((extract3 g).1 = some (to_unsigned op, to_unsigned addr, to_unsigned data) →
        s1.cout = (ls_print op addr data s).cout ∧ s1.interrupt = s.interrupt) := by
  obtain ⟨s1, h1, hc1, hd1, hp1, ht1, _, hg1, _, hn1, hco1, hi1⟩ :=
    ls_dump_step_spec op addr data s (fun h => absurd hdump h)
  have hg1' : s1.ls_golden = some g := by rw [hg1 hdump, hg]
  obtain ⟨s2, h2, ⟨hc2, hd2, hp2, ht2, _⟩, hg2, hn2, hex, hmis, hok⟩ :=
    ls_check_spec op addr data s1 g (by rw [hc1]; exact hcheck) hg1'
  refine ⟨{ s2 with load_store_count := (s2.load_store_count + 1) % UINT_RANGE }, ?_,
    ⟨by rw [← hc1, ← hc2], by rw [← hdump, ← hd1, ← hd2], by rw [← hp1, ← hp2],
      by rw [← ht1, ← ht2]⟩, hg2, ?_, ?_, ?_, ?_⟩
  · unfold ls_event
    rw [h1]
    simp only [Option.some_bind, h2]
  · show (s2.load_store_count + 1) % UINT_RANGE = _
    rw [hn2, hn1]
  · intro h
    obtain ⟨ha, hb⟩ := hex h
    exact ⟨by rw [← hco1]; exact ha, hb⟩
  · intro eo ea ed h hne
    obtain ⟨ha, hb⟩ := hmis eo ea ed h hne
    exact ⟨by rw [← hco1, ← ht1]; exact ha, hb⟩
  · intro h
    obtain ⟨ha, hb⟩ := hok h
    exact ⟨by rw [← hco1]; exact ha, by rw [← hi1]; exact hb⟩

/-- With dumping off, after `k` calls of `wb_event` the golden reader stands
behind its first `2k` numerals, whatever the live values were. -/
theorem wb_events_position (evs : List (Int × Int)) :
    ∀ (s : Sim) (pre rest : List Nat), s.stream_check ≠ 0 →
      s.wb_golden = some (pre ++ rest) → (∀ v ∈ pre, v < UINT_RANGE) →
      pre.length = 2 * evs.length → s.stream_dump = 0 →
      ∃ s1, wb_events evs s = some s1 ∧ s1.stream_check ≠ 0 ∧
        s1.stream_dump = 0 ∧ s1.main_time = s.main_time ∧
        s1.wb_golden = some rest := by
  induction evs with
  | nil =>
    intro s pre rest hcheck hg _ hlen hdump
    have hnil : pre = [] := List.length_eq_zero.mp (by simpa using hlen)
    subst hnil
    exact ⟨s, rfl, hcheck, hdump, rfl, by simpa using hg⟩
  | cons ev tl ih =>
    intro s pre rest hcheck hg hvalid hlen hdump
    match pre, hlen, hvalid, hg with
    | a :: d :: pre1, hlen, hvalid, hg =>
      obtain ⟨s1, h1, ⟨hc1, hd1, _, ht1⟩, hg1, _⟩ :=
        wb_event_spec ev.1 ev.2 s _ hcheck hg hdump
      have hx : extract2 (a :: d :: pre1 ++ rest) = (some (a, d), pre1 ++ rest) :=
        extract2_cons a d _ (hvalid a (by simp)) (hvalid d (by simp))
      rw [hx] at hg1
      obtain ⟨s2, h2, hc2, hd2, ht2, hg2⟩ :=
        ih s1 pre1 rest (by rw [hc1]; exact hcheck) hg1
          (fun v hv => hvalid v (by simp [hv]))
          (by simp only [List.length_cons] at hlen; omega) hd1
      exact ⟨s2, by simp [wb_events, h1, h2], hc2, hd2, by rw [ht2, ht1], hg2⟩
    | [], hlen, _, _ => simp at hlen
    | [_], hlen, _, _ => simp at hlen; omega

/-- With dumping off, after `k` calls of `ls_event` the golden reader stands
behind its first `3k` numerals, whatever the live values were. -/
theorem ls_events_position (evs : List (Int × Int × Int)) :
    ∀ (s : Sim) (pre rest : List Nat), s.stream_check ≠ 0 →
      s.ls_golden = some (pre ++ rest) → (∀ v ∈ pre, v < UINT_RANGE) →
      pre.length = 3 * evs.length → s.stream_dump = 0 →
      ∃ s1, ls_events evs s = some s1 ∧ s1.stream_check ≠ 0 ∧
        s1.stream_dump = 0 ∧ s1.main_time = s.main_time ∧
        s1.ls_golden = some rest := by
  induction evs with
  | nil =>
    intro s pre rest hcheck hg _ hlen hdump
    have hnil : pre = [] := List.length_eq_zero.mp (by simpa using hlen)
    subst hnil
    exact ⟨s, rfl, hcheck, hdump, rfl, by simpa using hg⟩
  | cons ev tl ih =>
    intro s pre rest hcheck hg hvalid hlen hdump
    match pre, hlen, hvalid, hg with
    | o :: a :: d :: pre1, hlen, hvalid, hg =>
      obtain ⟨s1, h1, ⟨hc1, hd1, _, ht1⟩, hg1, _⟩ :=
        ls_event_spec ev.1 ev.2.1 ev.2.2 s _ hcheck hg hdump
      have hx : extract3 (o :: a :: d :: pre1 ++ rest) = (some (o, a, d), pre1 ++ rest) :=
        extract3_cons o a d _ (hvalid o (by simp)) (hvalid a (by simp)) (hvalid d (by simp))
      rw [hx] at hg1
      obtain ⟨s2, h2, hc2, hd2, ht2, hg2⟩ :=
        ih s1 pre1 rest (by rw [hc1]; exact hcheck) hg1
          (fun v hv => hvalid v (by simp [hv]))
          (by simp only [List.length_cons] at hlen; omega) hd1
      exact ⟨s2, by simp [ls_events, h1, h2], hc2, hd2, by rw [ht2, ht1], hg2⟩
    | [], hlen, _, _ => simp at hlen
    | [_], hlen, _, _ => simp at hlen; omega
    | [_, _], hlen, _, _ => simp at hlen; omega

/-! ## Claims on the three channels -/

/-- C4 (amended): with verification enabled, dumping off and the next golden
record available, `wb_event(addr, data)` raises a divergence (mismatch
diagnostic, interrupt flag) exactly when `addr` or `data` differs from its
golden field, and `ls_event(op, addr, data)` exactly when `op`, `addr` or
`data` does; otherwise nothing but the optional echo is printed and the flag
is left alone. The record compared is the one that follows as many golden
records as there were earlier live events on the channel, whether those
matched or not. -/
theorem wb_ls_event_compare_in_order (s : Sim)
    (wb_evs : List (Int × Int)) (wb_pre wb_rest : List Nat) (ea ed : Nat) (addr data : Int)
    (ls_evs : List (Int × Int × Int)) (ls_pre ls_rest : List Nat) (lo la ld : Nat)
    (op laddr ldata : Int)
    (hcheck : s.stream_check ≠ 0)
    (hwb : s.wb_golden = some (wb_pre ++ ea :: ed :: wb_rest))
    (hls : s.ls_golden = some (ls_pre ++ lo :: la :: ld :: ls_rest))
    (hwb_pre : ∀ v ∈ wb_pre, v < UINT_RANGE) (hea : ea < UINT_RANGE) (hed : ed < UINT_RANGE)
    (hls_pre : ∀ v ∈ ls_pre, v < UINT_RANGE) (hlo : lo < UINT_RANGE) (hla : la < UINT_RANGE)
    (hld : ld < UINT_RANGE)
    (hwb_k : wb_pre.length = 2 * wb_evs.length) (hls_k : ls_pre.length = 3 * ls_evs.length)
    (hdump : s.stream_dump = 0) :
    (∃ s1 s2, wb_events wb_evs s = some s1 ∧ wb_event addr data s1 = some s2 ∧
      ((s2.interrupt = SIGINT ∧
          s2.cout = (wb_print addr data s1).cout ++
            wb_mismatch_text s1.main_time ea ed addr data) ↔
        (ea ≠ to_unsigned addr ∨ ed ≠ to_unsigned data)) ∧
      ((s2.interrupt = s1.interrupt ∧ s2.cout = (wb_print addr data s1).cout) ↔
        (ea = to_unsigned addr ∧ ed = to_unsigned data))) ∧
    (∃ s1 s2, ls_events ls_evs s = some s1 ∧ ls_event op laddr ldata s1 = some s2 ∧
      ((s2.interrupt = SIGINT ∧
          s2.cout = (ls_print op laddr ldata s1).cout ++
            ls_mismatch_text s1.main_time lo la ld op laddr ldata) ↔
        (lo ≠ to_unsigned op ∨ la ≠ to_unsigned laddr ∨ ld ≠ to_unsigned ldata)) ∧
      ((s2.interrupt = s1.interrupt ∧ s2.cout = (ls_print op laddr ldata s1).cout) ↔
        (lo = to_unsigned op ∧ la = to_unsigned laddr ∧ ld = to_unsigned ldata))) := by
  constructor
  · obtain ⟨s1, h1, hc1, hdu1, _, hg1⟩ :=
      wb_events_position wb_evs s wb_pre _ hcheck hwb hwb_pre hwb_k hdump
    obtain ⟨s2, h2, _, _, _, _, hmis, hok⟩ := wb_event_spec addr data s1 _ hc1 hg1 hdu1
    rw [extract2_cons ea ed wb_rest hea hed] at hmis hok
    refine ⟨s1, s2, h1, h2, ⟨?_, ?_⟩, ⟨?_, ?_⟩⟩
    · rintro ⟨_, hco⟩
      by_contra hne
      have heq : ea = to_unsigned addr ∧ ed = to_unsigned data := by
        constructor <;> by_contra h <;> simp [h] at hne
      have hco1 := (hok (by rw [heq.1, heq.2])).1
      rw [hco1] at hco
      exact append_ne_self _ _ (wb_mismatch_text_length _ _ _ _ _) hco
    · intro hne
      obtain ⟨hco, hi⟩ := hmis ea ed rfl hne
      exact ⟨hi, hco⟩
    · rintro ⟨_, hco⟩
      by_contra hne
      have hdiff : ea ≠ to_unsigned addr ∨ ed ≠ to_unsigned data := by
        by_cases h1 : ea = to_unsigned addr
        · exact Or.inr fun h2 => hne ⟨h1, h2⟩
        · exact Or.inl h1
      have hco1 := (hmis ea ed rfl hdiff).1
      rw [hco] at hco1
      exact append_ne_self _ _ (wb_mismatch_text_length _ _ _ _ _) hco1
    · rintro ⟨h1, h2⟩
      obtain ⟨hco, hi⟩ := hok (by rw [h1, h2])
      exact ⟨hi, hco⟩
  · obtain ⟨s1, h1, hc1, hdu1, _, hg1⟩ :=
      ls_events_position ls_evs s ls_pre _ hcheck hls hls_pre hls_k hdump
    obtain ⟨s2, h2, _, _, _, _, hmis, hok⟩ := ls_event_spec op laddr ldata s1 _ hc1 hg1 hdu1
    rw [extract3_cons lo la ld ls_rest hlo hla hld] at hmis hok
    refine ⟨s1, s2, h1, h2, ⟨?_, ?_⟩, ⟨?_, ?_⟩⟩
    · rintro ⟨_, hco⟩
      by_contra hne
      have heq : lo = to_unsigned op ∧ la = to_unsigned laddr ∧ ld = to_unsigned ldata := by
        refine ⟨?_, ?_, ?_⟩ <;> by_contra h <;> simp [h] at hne
      have hco1 := (hok (by rw [heq.1, heq.2.1, heq.2.2])).1
      rw [hco1] at hco
      exact append_ne_self _ _ (ls_mismatch_text_length _ _ _ _ _ _ _) hco
    · intro hne
      obtain ⟨hco, hi⟩ := hmis lo la ld rfl hne
      exact ⟨hi, hco⟩
    · rintro ⟨_, hco⟩
      by_contra hne
      have hdiff : lo ≠ to_unsigned op ∨ la ≠ to_unsigned laddr ∨ ld ≠ to_unsigned ldata := by
        by_cases h0 : lo = to_unsigned op
        · by_cases h1 : la = to_unsigned laddr
          · exact Or.inr (Or.inr fun h2 => hne ⟨h0, h1, h2⟩)
          · exact Or.inr (Or.inl h1)
        · exact Or.inl h0
      have hco1 := (hmis lo la ld rfl hdiff).1
      rw [hco] at hco1
      exact append_ne_self _ _ (ls_mismatch_text_length _ _ _ _ _ _ _) hco1
    · rintro ⟨h0, h1, h2⟩
      obtain ⟨hco, hi⟩ := hok (by rw [h0, h1, h2])
      exact ⟨hi, hco⟩

/-- C4 at golden write-backs `10 1`, `14 2` and golden load/stores `1 20 5`,
`0 24 6`, dumping off: after one earlier event on each channel (a diverging
one for the write-backs), the write-back `(0x14, 3)` differs from the second
record in its data and raises the flag, and the load/store `(0, 0x24, 6)`
equals the second record and leaves the flag as it was. -/
theorem wb_ls_event_compare_in_order_witness :
    (∃ s1 s2,
      wb_events [(0x99, 0)]
          { wb_golden := some [0x10, 1, 0x14, 2], ls_golden := some [1, 0x20, 5, 0, 0x24, 6] }
        = some s1 ∧
      wb_event 0x14 3 s1 = some s2 ∧ s2.interrupt = SIGINT) ∧
    (∃ s1 s2,
      ls_events [(1, 0x20, 5)]
          { wb_golden := some [0x10, 1, 0x14, 2], ls_golden := some [1, 0x20, 5, 0, 0x24, 6] }
        = some s1 ∧
      ls_event 0 0x24 6 s1 = some s2 ∧ s2.interrupt = s1.interrupt) := by
  obtain ⟨⟨a, b, h1, h2, hm, _⟩, ⟨c, d, h3, h4, _, hk⟩⟩ :=
    wb_ls_event_compare_in_order
      { wb_golden := some [0x10, 1, 0x14, 2], ls_golden := some [1, 0x20, 5, 0, 0x24, 6] }
      [(0x99, 0)] [0x10, 1] [] 0x14 2 0x14 3
      [(1, 0x20, 5)] [1, 0x20, 5] [] 0 0x24 6 0 0x24 6
      (by decide) rfl rfl (by decide) (by decide) (by decide) (by decide) (by decide)
      (by decide) (by decide) rfl rfl rfl
  exact ⟨⟨a, b, h1, h2, (hm.mpr (by decide)).1⟩, ⟨c, d, h3, h4, (hk.mpr (by decide)).1⟩⟩

/-- C4 as stated fails with dumping on (`stream_dump = 1`). The golden
write-back file holding `14 2`, the live write-back `(0x14, 3)` is first
dumped, the reader takes `14 3` from the file, and the event that differs from
the golden record in its data raises no divergence; so does the load/store
`(1, 0x20, 6)` with the golden file holding `1 20 5`. With time stamps
(`stream_dump = 2`) the write-back `(0x14, 2)` at time 110, which equals the
golden record, is compared with `110 14` and raises the flag. -/
theorem wb_ls_event_dumped_compares_itself :
    (wb_event 0x14 3 { stream_dump := 1, wb_golden := some [0x14, 2] }).map
        (fun s => (s.interrupt, s.cout, s.wb_dump)) = some (0, "", some "14 3\n") ∧
    (ls_event 1 0x20 6 { stream_dump := 1, ls_golden := some [1, 0x20, 5] }).map
        (fun s => (s.interrupt, s.cout, s.ls_dump)) = some (0, "", some "1 20 6\n") ∧
    (wb_event 0x14 2 { stream_dump := 2, main_time := 110, wb_golden := some [0x14, 2] }).map
        (fun s => (s.interrupt, s.wb_dump)) = some (SIGINT, some "110 14 2\n") := by
  decide

/-- The count of `pc_event`, with or without verification. -/
theorem pc_event_count (pc : Int) (s : Sim)
    (hgolden : s.stream_check ≠ 0 → s.pc_golden ≠ none)
    (hdump : s.stream_dump ≠ 0 → s.pc_dump ≠ none) :
    ∃ s1, pc_event pc s = some s1 ∧
      s1.instruction_count = (s.instruction_count + 1) % UINT_RANGE := by
  obtain ⟨s1, h1, hc1, _, _, _, _, _, hne1, hn1, _, _⟩ := pc_dump_step_spec pc s hdump
  by_cases hc : s.stream_check = 0
  · refine ⟨{ s1 with instruction_count := (s1.instruction_count + 1) % UINT_RANGE }, ?_, ?_⟩
    · unfold pc_event
      rw [h1]
      simp [pc_check, hc1, hc]
    · simp [hn1]
  · obtain ⟨g, hg⟩ := Option.ne_none_iff_exists'.mp (hne1 (hgolden hc))
    obtain ⟨s2, h2, _, _, hn2, _⟩ := pc_check_spec pc s1 g (by rw [hc1]; exact hc) hg
    refine ⟨{ s2 with instruction_count := (s2.instruction_count + 1) % UINT_RANGE }, ?_, ?_⟩
    · unfold pc_event
      rw [h1]
      simp only [Option.some_bind, h2]
    · show (s2.instruction_count + 1) % UINT_RANGE = _
      rw [hn2, hn1]

/-- The count of `wb_event`, with or without verification. -/
theorem wb_event_count (addr data : Int) (s : Sim)
    (hgolden : s.stream_check ≠ 0 → s.wb_golden ≠ none)
    (hdump : s.stream_dump ≠ 0 → s.wb_dump ≠ none) :
    ∃ s1, wb_event addr data s = some s1 ∧
      s1.write_back_count = (s.write_back_count + 1) % UINT_RANGE := by
  obtain ⟨s1, h1, hc1, _, _, _, _, _, hne1, hn1, _, _⟩ := wb_dump_step_spec addr data s hdump
  by_cases hc : s.stream_check = 0
  · refine ⟨{ s1 with write_back_count := (s1.write_back_count + 1) % UINT_RANGE }, ?_, ?_⟩
    · unfold wb_event
      rw [h1]
      simp [wb_check, hc1, hc]
    · simp [hn1]
  · obtain ⟨g, hg⟩ := Option.ne_none_iff_exists'.mp (hne1 (hgolden hc))
    obtain ⟨s2, h2, _, _, hn2, _⟩ := wb_check_spec addr data s1 g (by rw [hc1]; exact hc) hg
    refine ⟨{ s2 with write_back_count := (s2.write_back_count + 1) % UINT_RANGE }, ?_, ?_⟩
    · unfold wb_event
      rw [h1]
      simp only [Option.some_bind, h2]
    · show (s2.write_back_count + 1) % UINT_RANGE = _
      rw [hn2, hn1]

/-- The count of `ls_event`, with or without verification. -/
theorem ls_event_count (op addr data : Int) (s : Sim)
    (hgolden : s.stream_check ≠ 0 → s.ls_golden ≠ none)
    (hdump : s.stream_dump ≠ 0 → s.ls_dump ≠ none) :
    ∃ s1, ls_event op addr data s = some s1 ∧
      s1.load_store_count = (s.load_store_count + 1) % UINT_RANGE := by
  obtain ⟨s1, h1, hc1, _, _, _, _, _, hne1, hn1, _, _⟩ :=
    ls_dump_step_spec op addr data s hdump
  by_cases hc : s.stream_check = 0
  · refine ⟨{ s1 with load_store_count := (s1.load_store_count + 1) % UINT_RANGE }, ?_, ?_⟩
    · unfold ls_event
      rw [h1]
      simp [ls_check, hc1, hc]
    · simp [hn1]
  · obtain ⟨g, hg⟩ := Option.ne_none_iff_exists'.mp (hne1 (hgolden hc))
    obtain ⟨s2, h2, _, _, hn2, _⟩ :=
      ls_check_spec op addr data s1 g (by rw [hc1]; exact hc) hg
    refine ⟨{ s2 with load_store_count := (s2.load_store_count + 1) % UINT_RANGE }, ?_, ?_⟩
    · unfold ls_event
      rw [h1]
      simp only [Option.some_bind, h2]
    · show (s2.load_store_count + 1) % UINT_RANGE = _
      rw [hn2, hn1]

/-- C5 (amended): on each channel, every live event that the process survives
(the golden file, when verification is on, and the dump file, when dumping is
on, can be opened) adds one to the channel's `unsigned int` counter, whether
the event matches the next golden record or produces a stream-exhausted or
mismatch divergence. -/
theorem stream_counter_counts_every_event (s : Sim)
    (pc wb_addr wb_data ls_op ls_addr ls_data : Int)
    (hgolden : s.stream_check ≠ 0 →
      s.pc_golden ≠ none ∧ s.wb_golden ≠ none ∧ s.ls_golden ≠ none)
    (hdump : s.stream_dump ≠ 0 → s.pc_dump ≠ none ∧ s.wb_dump ≠ none ∧ s.ls_dump ≠ none) :
    (∃ s1, pc_event pc s = some s1 ∧
      s1.instruction_count = (s.instruction_count + 1) % UINT_RANGE) ∧
    (∃ s1, wb_event wb_addr wb_data s = some s1 ∧
      s1.write_back_count = (s.write_back_count + 1) % UINT_RANGE) ∧
    (∃ s1, ls_event ls_op ls_addr ls_data s = some s1 ∧
      s1.load_store_count = (s.load_store_count + 1) % UINT_RANGE) :=
  ⟨pc_event_count pc s (fun h => (hgolden h).1) (fun h => (hdump h).1),
   wb_event_count wb_addr wb_data s (fun h => (hgolden h).2.1) (fun h => (hdump h).2.1),
   ls_event_count ls_op ls_addr ls_data s (fun h => (hgolden h).2.2) (fun h => (hdump h).2.2)⟩

/-- C5 (amended) at a state whose golden readers hold `104`, nothing, and
`1 20 5`: a mismatching `pc_event`, an exhausted `wb_event` and a matching
`ls_event` each add one to their counter. -/
theorem stream_counter_counts_every_event_witness :
    (∃ s1, pc_event 0x100
        { pc_golden := some [0x104], wb_golden := some [], ls_golden := some [1, 0x20, 5] }
        = some s1 ∧ s1.instruction_count = (0 + 1) % UINT_RANGE) ∧
    (∃ s1, wb_event 0x10 1
        { pc_golden := some [0x104], wb_golden := some [], ls_golden := some [1, 0x20, 5] }
        = some s1 ∧ s1.write_back_count = (0 + 1) % UINT_RANGE) ∧
    (∃ s1, ls_event 1 0x20 5
        { pc_golden := some [0x104], wb_golden := some [], ls_golden := some [1, 0x20, 5] }
        = some s1 ∧ s1.load_store_count = (0 + 1) % UINT_RANGE) :=
  stream_counter_counts_every_event
    { pc_golden := some [0x104], wb_golden := some [], ls_golden := some [1, 0x20, 5] }
    0x100 0x10 1 1 0x20 5 (by decide) (by decide)

/-- C5 as stated fails: a `pc_event` that mismatches the golden value, and one
that finds the golden stream exhausted, both raise the interrupt flag and both
move `instruction_count` from 0 to 1; so do `wb_event` and `ls_event` with
their counters. -/
theorem stream_counter_counts_divergent_event :
    (pc_event 0x100 { pc_golden := some [0x104] }).map
        (fun s => (s.interrupt, s.instruction_count)) = some (SIGINT, 1) ∧
    (pc_event 0x200 { pc_golden := some [] }).map
        (fun s => (s.interrupt, s.instruction_count)) = some (SIGINT, 1) ∧
    (wb_event 0x10 2 { wb_golden := some [0x10, 1] }).map
        (fun s => (s.interrupt, s.write_back_count)) = some (SIGINT, 1) ∧
    (wb_event 0x10 2 { wb_golden := some [] }).map
        (fun s => (s.interrupt, s.write_back_count)) = some (SIGINT, 1) ∧
    (ls_event 1 0x20 6 { ls_golden := some [1, 0x20, 5] }).map
        (fun s => (s.interrupt, s.load_store_count)) = some (SIGINT, 1) ∧
    (ls_event 1 0x20 6 { ls_golden := some [] }).map
        (fun s => (s.interrupt, s.load_store_count)) = some (SIGINT, 1) := by
  decide

/-! ## Claims on the physical-register encoding and the display names -/

/-- C6: for every index `i ≥ 0` and validity bit `v` in `{0, 1}` whose encoding
`e = 2*i + v` fits the `int` field of `PhysReg`, `PhysReg{e}.adjust(1).index`
is `i` and `e & 1` is `v`. -/
theorem physreg_round_trip (i v : Nat) (hv : v ≤ 1) (_hfit : 2 * i + v ≤ 2147483647) :
    ((PhysReg.mk ((2 * i + v : Nat) : Int)).adjust 1).index = (i : Int) ∧
    (PhysReg.mk ((2 * i + v : Nat) : Int)).use_flag = (v : Int) := by
  constructor
  · simp only [PhysReg.adjust, Int.shiftRight_eq_div_pow]
    omega
  · have hland : Int.land (Int.ofNat (2 * i + v)) (Int.ofNat 1)
        = Int.ofNat ((2 * i + v) &&& 1) := rfl
    show Int.land (Int.ofNat (2 * i + v)) (Int.ofNat 1) = (v : Int)
    rw [hland, Nat.and_one_is_mod]
    show ((((2 * i + v) % 2 : Nat)) : Int) = (v : Int)
    congr 1
    omega

/-- C6 at index 5 with the validity bit set: the encoding 11 decodes to index
5, and its bit 0 is 1. -/
theorem physreg_round_trip_witness :
    ((PhysReg.mk ((2 * 5 + 1 : Nat) : Int)).adjust 1).index = ((5 : Nat) : Int) ∧
    (PhysReg.mk ((2 * 5 + 1 : Nat) : Int)).use_flag = ((1 : Nat) : Int) :=
  physreg_round_trip 5 1 (by decide) (by decide)

/-- The names of the 38 instruction enumerators are pairwise distinct. -/
theorem instruction_to_string_fin_inj :
    ∀ j k : Fin 38, Instruction.to_string (j.val : Int) = Instruction.to_string (k.val : Int) →
      j = k := by
  decide

/-- The names of the 27 ALU-operation enumerators are pairwise distinct. -/
theorem alu_to_string_fin_inj :
    ∀ j k : Fin 27, ALU_Operation.to_string (j.val : Int)
        = ALU_Operation.to_string (k.val : Int) → j = k := by
  decide

/-- C7: `to_string` sends the enumerator of ordinal `k` to the `k`-th name of
its list, for the 38 instructions and the 27 ALU operations; within each
enumeration the names are pairwise distinct (`to_string` is injective on the
defined ordinals) and none is empty, and `to_string` returns an empty string for
no value at all. -/
theorem to_string_distinct_nonempty :
    ((List.range 38).map (fun k => Instruction.to_string (k : Int)) = SIM_ALL_INSTRUCTIONS ∧
      SIM_ALL_INSTRUCTIONS.length = 38 ∧ SIM_ALL_INSTRUCTIONS.Nodup ∧
      (∀ n ∈ SIM_ALL_INSTRUCTIONS, n ≠ "") ∧
      (∀ j k : Int, 0 ≤ j → j ≤ 37 → 0 ≤ k → k ≤ 37 →
        Instruction.to_string j = Instruction.to_string k → j = k) ∧
      (∀ k : Int, Instruction.to_string k ≠ "")) ∧
    ((List.range 27).map (fun k => ALU_Operation.to_string (k : Int))
        = SIM_ALL_ALU_OPERATIONS ∧
      SIM_ALL_ALU_OPERATIONS.length = 27 ∧ SIM_ALL_ALU_OPERATIONS.Nodup ∧
      (∀ n ∈ SIM_ALL_ALU_OPERATIONS, n ≠ "") ∧
      (∀ j k : Int, 0 ≤ j → j ≤ 26 → 0 ≤ k → k ≤ 26 →
        ALU_Operation.to_string j = ALU_Operation.to_string k → j = k) ∧
      (∀ k : Int, ALU_Operation.to_string k ≠ "")) := by
  refine ⟨⟨by decide, by decide, by decide, by decide, ?_, ?_⟩,
    ⟨by decide, by decide, by decide, by decide, ?_, ?_⟩⟩
  · intro j k hj0 hj1 hk0 hk1 h
    obtain ⟨a, rfl⟩ := Int.eq_ofNat_of_zero_le hj0
    obtain ⟨b, rfl⟩ := Int.eq_ofNat_of_zero_le hk0
    have hab : a = b :=
      congrArg Fin.val (instruction_to_string_fin_inj ⟨a, by omega⟩ ⟨b, by omega⟩ h)
    rw [hab]
  · intro k
    unfold Instruction.to_string
    split <;> decide
  · intro j k hj0 hj1 hk0 hk1 h
    obtain ⟨a, rfl⟩ := Int.eq_ofNat_of_zero_le hj0
    obtain ⟨b, rfl⟩ := Int.eq_ofNat_of_zero_le hk0
    have hab : a = b :=
      congrArg Fin.val (alu_to_string_fin_inj ⟨a, by omega⟩ ⟨b, by omega⟩ h)
    rw [hab]
  · intro k
    unfold ALU_Operation.to_string
    split <;> decide

/-- C8: outside the defined ordinals the lookup returns the sentinel,
`"(unknown instruction)"` for every `v < 0` or `v > 37` and
`"(unknown operation)"` for every `v < 0` or `v > 26`, and no defined
enumerator is given its sentinel as name. -/
theorem to_string_unknown_sentinel :
    (∀ v : Int, v < 0 ∨ v > 37 → Instruction.to_string v = "(unknown instruction)") ∧
    (∀ v : Int, v < 0 ∨ v > 26 → alu_ctl_to_string v = "(unknown operation)") ∧
    (∀ k : Int, 0 ≤ k → k ≤ 37 → Instruction.to_string k ≠ "(unknown instruction)") ∧
    (∀ k : Int, 0 ≤ k → k ≤ 26 → alu_ctl_to_string k ≠ "(unknown operation)") := by
  refine ⟨?_, ?_, ?_, ?_⟩
  · intro v h
    unfold Instruction.to_string
    split <;> first | rfl | omega
  · intro v h
    unfold alu_ctl_to_string ALU_Operation.to_string
    split <;> first | rfl | omega
  · intro k hk0 hk1
    interval_cases k <;> decide
  · intro k hk0 hk1
    interval_cases k <;> decide

/-- C8 at the first values past each end: 38 and -1 for the instructions, 27
and -1 for the ALU operations; and at the last defined ordinals 37 and 26. -/
theorem to_string_unknown_sentinel_witness :
    Instruction.to_string 38 = "(unknown instruction)" ∧
    Instruction.to_string (-1) = "(unknown instruction)" ∧
    alu_ctl_to_string 27 = "(unknown operation)" ∧
    alu_ctl_to_string (-1) = "(unknown operation)" ∧
    Instruction.to_string 37 ≠ "(unknown instruction)" ∧
    alu_ctl_to_string 26 ≠ "(unknown operation)" :=
  ⟨to_string_unknown_sentinel.1 38 (by decide), to_string_unknown_sentinel.1 (-1) (by decide),
   to_string_unknown_sentinel.2.1 27 (by decide),
   to_string_unknown_sentinel.2.1 (-1) (by decide),
   to_string_unknown_sentinel.2.2.1 37 (by decide) (by decide),
   to_string_unknown_sentinel.2.2.2 26 (by decide) (by decide)⟩

/-- C9: `mips_reg_to_string` sends the indices 0..31 to the MIPS
calling-convention names, in order `zero at v0 v1 a0-a3 t0-t7 s0-s7 t8 t9 k0 k1
gp sp s8 ra`; the 32 names are pairwise distinct; every integer outside 0..31
is sent to `"(invalid register)"`. -/
theorem mips_reg_to_string_table :
    (List.range 32).map (fun i => mips_reg_to_string (i : Int))
      = ["zero", "at", "v0", "v1", "a0", "a1", "a2", "a3",
         "t0", "t1", "t2", "t3", "t4", "t5", "t6", "t7",
         "s0", "s1", "s2", "s3", "s4", "s5", "s6", "s7",
         "t8", "t9", "k0", "k1", "gp", "sp", "s8", "ra"] ∧
    ((List.range 32).map (fun i => mips_reg_to_string (i : Int))).Nodup ∧
    (∀ v : Int, v < 0 ∨ v > 31 → mips_reg_to_string v = "(invalid register)") := by
  refine ⟨by decide, by decide, ?_⟩
  intro v h
  unfold mips_reg_to_string Register.to_string
  split <;> first | rfl | omega

/-- C9 at the first values past each end, 32 and -1. -/
theorem mips_reg_to_string_table_witness :
    mips_reg_to_string 32 = "(invalid register)" ∧
    mips_reg_to_string (-1) = "(invalid register)" :=
  ⟨mips_reg_to_string_table.2.2 32 (by decide), mips_reg_to_string_table.2.2 (-1) (by decide)⟩

/-! ## The tracer -/

theorem Tracer.put_put (t : Tracer) (a b : String) : (t.put a).put b = t.put (a ++ b) := by
  by_cases h : t.is_open <;> simp [Tracer.put, h, String.append_assoc]

theorem Tracer.put_empty (t : Tracer) : t.put "" = t := by
  cases t with
  | mk o f e j => cases o <;> simp [Tracer.put]

theorem Tracer.put_event_count (t : Tracer) (s : String) :
    (t.put s).event_count = t.event_count := by
  by_cases h : t.is_open <;> simp [Tracer.put, h]

/-- The single-entry overload writes one text, the same on every stream. -/
theorem Tracer.add_json_trace_event_arg_writes (entry : Trace_Entry) :
    ∃ w : String, ∀ t : Tracer, t.add_json_trace_event_arg entry = (t.put w, entry.visible) := by
  by_cases hv : entry.visible
  · by_cases hs : entry.value.is_string_type
    · refine ⟨"\"" ++ entry.key ++ "\":" ++ "\"" ++ entry.value.text ++ "\"", fun t => ?_⟩
      simp [Tracer.add_json_trace_event_arg, hv, hs, Tracer.put_put, String.append_assoc]
    · refine ⟨"\"" ++ entry.key ++ "\":" ++ entry.value.text, fun t => ?_⟩
      simp [Tracer.add_json_trace_event_arg, hv, hs, Tracer.put_put, String.append_assoc]
  · exact ⟨"", fun t => by simp [Tracer.add_json_trace_event_arg, hv, Tracer.put_empty]⟩

/-- The variadic overload writes one text, the same on every stream. -/
theorem Tracer.add_json_trace_event_args_writes (args : List Trace_Entry) :
    ∃ w : String, ∀ t : Tracer, t.add_json_trace_event_args args = t.put w := by
  induction args with
  | nil => exact ⟨"", fun t => by simp [Tracer.add_json_trace_event_args, Tracer.put_empty]⟩
  | cons entry rest ih =>
    obtain ⟨w1, h1⟩ := Tracer.add_json_trace_event_arg_writes entry
    cases rest with
    | nil => exact ⟨w1, fun t => by simp [Tracer.add_json_trace_event_args, h1]⟩
    | cons e2 rest2 =>
      obtain ⟨w2, h2⟩ := ih
      by_cases hv : entry.visible
      · refine ⟨w1 ++ "," ++ w2, fun t => ?_⟩
        simp [Tracer.add_json_trace_event_args, h1, h2, hv, Tracer.put_put,
          String.append_assoc]
      · refine ⟨w1 ++ w2, fun t => ?_⟩
        simp [Tracer.add_json_trace_event_args, h1, h2, hv, Tracer.put_put]

/-- Below the cap one call writes the text of the call and counts it. -/
theorem Tracer.record_below_cap (output_trace : Option String) (c : Trace_Call) (t : Tracer)
    (h : t.event_count < 100000) :
    Tracer.record output_trace t c =
      { t.put (Trace_Call.text output_trace c) with event_count := t.event_count + 1 } := by
  obtain ⟨w, hw⟩ := Tracer.add_json_trace_event_args_writes c.args
  have hnot : ¬ t.event_count ≥ 100000 := by omega
  have key : ∀ u : Tracer, ¬ u.event_count ≥ 100000 →
      ∃ x : String, (∀ v : Tracer, ¬ v.event_count ≥ 100000 →
        Tracer.record output_trace v c = { v.put x with event_count := v.event_count + 1 }) := by
    intro u _
    by_cases hargs : c.args.length > 0
    · refine ⟨event_head_text output_trace c.thread c.name c.ts c.duration ++
        ",\"args\":\x7b" ++ w ++ "\x7d\x7d,", fun v hv => ?_⟩
      simp only [Tracer.record, Tracer.add_json_trace_event, hv, if_false, hargs, if_true, hw,
        Tracer.put_put, Tracer.put_event_count]
    · refine ⟨event_head_text output_trace c.thread c.name c.ts c.duration, fun v hv => ?_⟩
      simp only [Tracer.record, Tracer.add_json_trace_event, hv, if_false, hargs,
        Tracer.put_event_count]
  obtain ⟨x, hx⟩ := key t hnot
  have htext : Trace_Call.text output_trace c = x := by
    unfold Trace_Call.text
    rw [hx { is_open := true } (by decide)]
    simp [Tracer.put]
  rw [htext]
  exact hx t hnot

/-- At the cap a call changes nothing. -/
theorem Tracer.record_at_cap (output_trace : Option String) (c : Trace_Call) (t : Tracer)
    (h : 100000 ≤ t.event_count) : Tracer.record output_trace t c = t := by
  simp [Tracer.record, Tracer.add_json_trace_event, h]

/-- A run of calls on a tracer that is `r` records below the cap writes the
texts of its first `r` calls, in order, and counts them. -/
theorem Tracer.record_all_budget (output_trace : Option String) (calls : List Trace_Call) :
    ∀ (t : Tracer) (r : Nat), t.event_count = 100000 - (r : Int) →
      Tracer.record_all output_trace calls t =
        { t.put (concat_texts ((calls.take r).map (Trace_Call.text output_trace))) with
          event_count := t.event_count + (min r calls.length : Nat) } := by
  induction calls with
  | nil =>
    intro t r _
    cases t with
    | mk o f e j => cases o <;> simp [Tracer.record_all, Tracer.put, concat_texts]
  | cons c tl ih =>
    intro t r hr
    cases r with
    | zero =>
      have hcap : 100000 ≤ t.event_count := by rw [hr]; simp
      have h0 := ih t 0 hr
      simp only [Tracer.record_all, List.foldl_cons, Tracer.record_at_cap output_trace c t hcap]
      simpa [Tracer.record_all] using h0
    | succ r1 =>
      have hlt : t.event_count < 100000 := by rw [hr]; push_cast; omega
      have h1 := ih { t.put (Trace_Call.text output_trace c) with
          event_count := t.event_count + 1 } r1 (by simp only [hr]; push_cast; omega)
      simp only [Tracer.record_all, List.foldl_cons,
        Tracer.record_below_cap output_trace c t hlt]
      simp only [Tracer.record_all] at h1
      rw [h1]
      have hmin : ((min (r1 + 1) (tl.length + 1) : Nat) : Int) = 1 + (min r1 tl.length : Nat) := by
        omega
      cases t with
      | mk o f e j =>
        cases o <;>
          simp [Tracer.put, concat_texts, String.append_assoc, hmin, Int.add_assoc]

theorem concat_texts_append (a b : List String) :
    concat_texts (a ++ b) = concat_texts a ++ concat_texts b := by
  induction a with
  | nil => simp [concat_texts]
  | cons x xs ih => simp [concat_texts, ih, String.append_assoc]

/-- What `Tracer::create` leaves when an output path is set: an open file
holding the envelope (outside fragment mode) and one placeholder per stage, and
a zero event count. -/
theorem Tracer.create_open (p : String) (j : Int) :
    Tracer.create (some p) { json_fragment := j } =
      { is_open := true,
        f := (if j = 0 then envelope_text else "") ++
          concat_texts (stage_name_table.map (placeholder_text (some p))),
        event_count := 0, json_fragment := j } := by
  by_cases hj : j = 0 <;>
    simp [Tracer.create, Tracer.put, stage_name_table, concat_texts, hj, String.append_assoc]

/-- Without an output path `Tracer::create` writes nothing. -/
theorem Tracer.create_closed (j : Int) :
    Tracer.create none { json_fragment := j } = { json_fragment := j } := by
  by_cases hj : j = 0 <;> simp [Tracer.create, Tracer.put, stage_name_table, hj]

theorem Tracer.create_event_count (output_trace : Option String) (j : Int) :
    (Tracer.create output_trace { json_fragment := j }).event_count = 0 := by
  cases output_trace with
  | none => rw [Tracer.create_closed]
  | some p => rw [Tracer.create_open]

/-- After `create` and `n` identical calls, `n` at most 100,000, the file holds
what `create` wrote and then `n` times the text of the call. -/
theorem Tracer.record_all_replicate (p : String) (c : Trace_Call) (n : Nat)
    (hn : n ≤ 100000) :
    (Tracer.record_all (some p) (List.replicate n c) (Tracer.create (some p) {})).f =
      envelope_text ++ concat_texts (stage_name_table.map (placeholder_text (some p)) ++
        List.replicate n (Trace_Call.text (some p) c)) := by
  rw [Tracer.record_all_budget (some p) (List.replicate n c) _ 100000
    (by rw [Tracer.create_event_count]; simp)]
  rw [List.take_replicate, List.map_replicate, Nat.min_eq_right hn, concat_texts_append,
    Tracer.create_open]
  simp [Tracer.put, String.append_assoc]

/-! ## Claims on the tracer -/

/-- C10 (amended): after `create`, a sequence of record calls of any length
leaves the tracer as `create` left it but for the texts of the first 100,000
calls, appended in order, and an event count of the number of calls or 100,000,
whichever is less: at most 100,000 records come from record calls, after the
five placeholder records `create` wrote. A call made once 100,000 records have
been recorded leaves the artifact text and the tracer state unchanged. -/
theorem tracer_record_cap (output_trace : Option String) (json_fragment : Int)
    (calls : List Trace_Call) (late : Trace_Call) :
    Tracer.record_all output_trace calls
        (Tracer.create output_trace { json_fragment := json_fragment }) =
      { (Tracer.create output_trace { json_fragment := json_fragment }).put
          (concat_texts ((calls.take 100000).map (Trace_Call.text output_trace))) with
        event_count := (min 100000 calls.length : Nat) } ∧
    ((calls.take 100000).map (Trace_Call.text output_trace)).length ≤ 100000 ∧
    (∀ p : String, output_trace = some p →
      (Tracer.record_all output_trace calls
          (Tracer.create output_trace { json_fragment := json_fragment })).f =
        (if json_fragment = 0 then envelope_text else "") ++
          concat_texts (stage_name_table.map (placeholder_text output_trace) ++
            (calls.take 100000).map (Trace_Call.text output_trace)) ∧
      (stage_name_table.map (placeholder_text output_trace) ++
        (calls.take 100000).map (Trace_Call.text output_trace)).length ≤ 100005) ∧
    (∀ t : Tracer, 100000 ≤ t.event_count → Tracer.record output_trace t late = t) ∧
    (100000 ≤ calls.length →
      Tracer.record output_trace
          (Tracer.record_all output_trace calls
            (Tracer.create output_trace { json_fragment := json_fragment })) late =
        Tracer.record_all output_trace calls
          (Tracer.create output_trace { json_fragment := json_fragment })) := by
  have hrun := Tracer.record_all_budget output_trace calls
    (Tracer.create output_trace { json_fragment := json_fragment }) 100000
    (by rw [Tracer.create_event_count]; simp)
  rw [Tracer.create_event_count, Int.zero_add] at hrun
  refine ⟨hrun, by simp, ?_, fun t ht => Tracer.record_at_cap output_trace late t ht, ?_⟩
  · intro p hp
    subst hp
    constructor
    · rw [hrun, concat_texts_append, Tracer.create_open]
      simp [Tracer.put, String.append_assoc]
    · simp only [List.length_append, List.length_map, List.length_take, stage_name_table,
        List.length_cons, List.length_nil]
      omega
  intro hlen
  apply Tracer.record_at_cap
  rw [hrun]
  simp only
  rw [Nat.min_eq_left hlen]
  simp

/-- C10 (amended) at a tracer whose event count is 100,000: the call is
dropped, text and state stay as they were. -/
theorem tracer_record_cap_witness :
    Tracer.record (some "trace") { is_open := true, f := "x", event_count := 100000 }
        { thread := "Fetch", name := "F", ts := 0, duration := 1000,
          args := [{ key := "pc", value := Trace_Value.hex 0 }] } =
      { is_open := true, f := "x", event_count := 100000 } :=
  (tracer_record_cap (some "trace") 0 []
    { thread := "Fetch", name := "F", ts := 0, duration := 1000,
      args := [{ key := "pc", value := Trace_Value.hex 0 }] }).2.2.2.1
    { is_open := true, f := "x", event_count := 100000 } (by decide)

/-- C10 as stated fails: after `create` with the output path `trace` and
100,000 record calls, the artifact is the envelope followed by 100,005 records,
the five placeholders of `create` and the 100,000 recorded events. -/
theorem tracer_artifact_exceeds_cap :
    ∃ rs : List String,
      (Tracer.record_all (some "trace")
          (List.replicate 100000
            { thread := "Fetch", name := "F", ts := 0, duration := 1000,
              args := [{ key := "pc", value := Trace_Value.hex 0 }] })
          (Tracer.create (some "trace") {})).f = envelope_text ++ concat_texts rs ∧
      rs = stage_name_table.map (placeholder_text (some "trace")) ++
        List.replicate 100000
          "\x7b\"cat\":\"write\",\"dur\":1000,\"name\":\"F\",\"ph\":\"X\",\"pid\":\"trace\",\"tid\":\"Fetch\",\"ts\":0,\"args\":\x7b\"pc\":\"00000000\"\x7d\x7d," ∧
      rs.length = 100005 ∧ 100000 < rs.length := by
  have htext : Trace_Call.text (some "trace")
      { thread := "Fetch", name := "F", ts := 0, duration := 1000,
        args := [{ key := "pc", value := Trace_Value.hex 0 }] } =
      "\x7b\"cat\":\"write\",\"dur\":1000,\"name\":\"F\",\"ph\":\"X\",\"pid\":\"trace\",\"tid\":\"Fetch\",\"ts\":0,\"args\":\x7b\"pc\":\"00000000\"\x7d\x7d," := by
    decide
  refine ⟨_, ?_, rfl, ?_, ?_⟩
  · rw [Tracer.record_all_replicate "trace" _ 100000 (Nat.le_refl _), htext]
  · rw [List.length_append, List.length_map, List.length_replicate]
    rfl
  · rw [List.length_append, List.length_map, List.length_replicate]
    decide

/-! ## Statistics: `stats_event` and `predictor_event` -/

/-- After a run of `stats_event` calls a label that was recorded holds its
earlier count plus the number of its recordings, modulo `2^32`; a label that
was not recorded is as before. -/
theorem stats_events_spec (labels : List String) :
    ∀ (stats : Stats) (label : String),
      stats_events labels stats label =
        if label ∈ labels then
          some (((stats label).getD 0 + labels.count label) % UINT_RANGE)
        else stats label := by
  induction labels with
  | nil => intro stats label; simp [stats_events]
  | cons e tl ih =>
    intro stats label
    have hstep : stats_events (e :: tl) stats = stats_events tl (stats_event e stats) := rfl
    rw [hstep, ih]
    by_cases hle : label = e
    · subst hle
      by_cases hmem : label ∈ tl
      · simp [hmem, stats_event, UINT_RANGE]
        omega
      · simp [hmem, stats_event, List.count_eq_zero_of_not_mem hmem]
    · have hne : (e == label) = false := by
        simp only [beq_eq_false_iff_ne, ne_eq]
        exact fun h => hle h.symm
      by_cases hmem : label ∈ tl
      · simp [hmem, stats_event, hle, List.count_cons, hne]
      · simp [hmem, stats_event, hle]

/-- Recording one label `n` times on the empty map leaves its counter at `n`
modulo `2^32`. -/
theorem stats_events_replicate (label : String) (n : Nat) (hn : 0 < n) :
    stats_events (List.replicate n label) Stats.empty label = some (n % UINT_RANGE) := by
  rw [stats_events_spec]
  have hmem : label ∈ List.replicate n label := by
    rw [List.mem_replicate]
    exact ⟨by omega, rfl⟩
  simp only [hmem, if_true, List.count_replicate_self, Stats.empty, Option.getD_none,
    Nat.zero_add]

/-- C11 (amended): from the empty stats map, after a finite sequence of
`stats_event` calls a label that occurs in the sequence holds the number of its
occurrences modulo `2^32` (the counters are `unsigned int`), hence exactly that
number when it is below `2^32`, and a label that does not occur has no counter;
recording one more label, different from it, leaves the count as it is. -/
theorem stats_event_counts (labels : List String) (label : String) :
    stats_events labels Stats.empty label =
      (if label ∈ labels then some (labels.count label % UINT_RANGE) else none) ∧
    (label ∈ labels → labels.count label < UINT_RANGE →
      stats_events labels Stats.empty label = some (labels.count label)) ∧
    (∀ other : String, other ≠ label →
      stats_events (labels ++ [other]) Stats.empty label =
        stats_events labels Stats.empty label) := by
  have h1 : stats_events labels Stats.empty label =
      (if label ∈ labels then some (labels.count label % UINT_RANGE) else none) := by
    rw [stats_events_spec]
    simp [Stats.empty]
  refine ⟨h1, ?_, ?_⟩
  · intro hmem hlt
    rw [h1, if_pos hmem, Nat.mod_eq_of_lt hlt]
  · intro other hne
    have hne2 : (other == label) = false := by
      simp only [beq_eq_false_iff_ne, ne_eq]
      exact hne
    rw [stats_events_spec, stats_events_spec]
    simp [Stats.empty, hne.symm, List.count_append, List.count_cons, hne2]

/-- C11 (amended) on the labels `br_miss`, `ic_miss`, `br_miss`: two, one, and
no counter for a label never recorded. -/
theorem stats_event_counts_witness :
    stats_events ["br_miss", "ic_miss", "br_miss"] Stats.empty "br_miss" = some 2 ∧
    stats_events ["br_miss", "ic_miss", "br_miss"] Stats.empty "ic_miss" = some 1 :=
  ⟨(stats_event_counts ["br_miss", "ic_miss", "br_miss"] "br_miss").2.1 (by decide) (by decide),
   (stats_event_counts ["br_miss", "ic_miss", "br_miss"] "ic_miss").2.1 (by decide) (by decide)⟩

/-- C11 as stated fails: `2^32` recordings of one label leave its counter at
0, not at `2^32`. -/
theorem stats_event_count_wraps :
    stats_events (List.replicate 4294967296 "br_miss") Stats.empty "br_miss" = some 0 ∧
    (List.replicate 4294967296 "br_miss").count "br_miss" = 4294967296 := by
  constructor
  · rw [stats_events_replicate "br_miss" 4294967296 (Nat.succ_pos _)]
    exact congrArg some (Nat.mod_self _)
  · exact List.count_replicate_self _ _

/-- The counters after a run of `predictor_event` calls that stays within
`int`. -/
theorem predictor_events_spec (calls : List (Int × Int)) :
    ∀ g : Predictor, 0 ≤ g.correct → g.correct ≤ g.prediction →
      g.prediction + calls.length ≤ INT_MAX →
      predictor_events calls g =
        some { g with prediction := g.prediction + calls.length,
                      correct := g.correct + (calls.filter (fun c => c.1 = c.2)).length } := by
  induction calls with
  | nil => intro g _ _ _; simp [predictor_events]
  | cons c tl ih =>
    intro g h0 hle hmax
    simp only [List.length_cons, Nat.cast_add, Nat.cast_one] at hmax
    have hp : g.prediction < INT_MAX := by omega
    have hc : g.correct < INT_MAX := by omega
    by_cases heq : c.1 = c.2
    · have hstep : predictor_event c.1 c.2 g =
          some { g with correct := g.correct + 1, prediction := g.prediction + 1 } := by
        simp [predictor_event, int_incr, heq, hp, hc]
      simp only [predictor_events, hstep, Option.some_bind]
      rw [ih _ (by simp; omega) (by simp; omega) (by simp; omega)]
      simp [heq, List.filter_cons]
      constructor <;> omega
    · have hstep : predictor_event c.1 c.2 g =
          some { g with prediction := g.prediction + 1 } := by
        simp [predictor_event, int_incr, heq, hp]
      simp only [predictor_events, hstep, Option.some_bind]
      rw [ih _ (by simpa using h0) (by simp; omega) (by simp; omega)]
      simp [heq, List.filter_cons]
      omega

/-- A run of `predictor_event` calls that would take the attempt counter past
the largest `int` has no defined result. -/
theorem predictor_events_overflow (calls : List (Int × Int)) :
    ∀ g : Predictor, 0 ≤ g.correct → g.correct ≤ g.prediction → g.prediction ≤ INT_MAX →
      INT_MAX < g.prediction + calls.length → predictor_events calls g = none := by
  induction calls with
  | nil => intro g _ _ hp hlen; simp at hlen; omega
  | cons c tl ih =>
    intro g h0 hle hp hlen
    simp only [List.length_cons, Nat.cast_add, Nat.cast_one] at hlen
    by_cases hlast : g.prediction = INT_MAX
    · have hnp : ¬ g.prediction < INT_MAX := by omega
      by_cases heq : c.1 = c.2
      · by_cases hc : g.correct < INT_MAX <;>
          simp [predictor_events, predictor_event, int_incr, heq, hnp, hc]
      · simp [predictor_events, predictor_event, int_incr, heq, hnp]
    · have hp1 : g.prediction < INT_MAX := by omega
      have hc1 : g.correct < INT_MAX := by omega
      by_cases heq : c.1 = c.2
      · have hstep : predictor_event c.1 c.2 g =
            some { g with correct := g.correct + 1, prediction := g.prediction + 1 } := by
          simp [predictor_event, int_incr, heq, hp1, hc1]
        simp only [predictor_events, hstep, Option.some_bind]
        exact ih _ (by simp; omega) (by simp; omega) (by simp; omega) (by simp; omega)
      · have hstep : predictor_event c.1 c.2 g =
            some { g with prediction := g.prediction + 1 } := by
          simp [predictor_event, int_incr, heq, hp1]
        simp only [predictor_events, hstep, Option.some_bind]
        exact ih _ (by simpa using h0) (by simp; omega) (by simp; omega) (by simp; omega)

/-- C19 (amended): from zeroed counters, after a finite sequence of at most
`2^31 - 1` calls of `predictor_event(predicted, actual)` the attempt counter is
the number of calls and the correct counter the number of calls in which
`predicted` equals `actual`; hence the correct counter never exceeds the
attempt counter. -/
theorem predictor_event_counts (calls : List (Int × Int))
    (hlen : calls.length ≤ 2147483647) :
    ∃ g, predictor_events calls { prediction := 0, correct := 0 } = some g ∧
      g.prediction = calls.length ∧
      g.correct = (calls.filter (fun c => c.1 = c.2)).length ∧
      g.correct ≤ g.prediction := by
  have h := predictor_events_spec calls { prediction := 0, correct := 0 }
    (by simp) (by simp) (by simp [INT_MAX]; omega)
  refine ⟨_, h, by simp, by simp, ?_⟩
  simp only [Int.zero_add, Nat.cast_le]
  exact List.length_filter_le _ _

/-- C19 (amended) on three calls, two of them with `predicted = actual`. -/
theorem predictor_event_counts_witness :
    ∃ g, predictor_events [(1, 1), (0, 1), (0, 0)] { prediction := 0, correct := 0 } = some g ∧
      g.prediction = ([(1, 1), (0, 1), (0, 0)] : List (Int × Int)).length ∧
      g.correct = (([(1, 1), (0, 1), (0, 0)] : List (Int × Int)).filter
        (fun c => c.1 = c.2)).length ∧
      g.correct ≤ g.prediction :=
  predictor_event_counts [(1, 1), (0, 1), (0, 0)] (by decide)

/-- C19 as stated fails: a sequence of `2^31` calls takes the `int` attempt
counter past its largest value, so that it cannot equal the number of calls. -/
theorem predictor_event_count_overflows :
    predictor_events (List.replicate 2147483648 (0, 1)) { prediction := 0, correct := 0 }
      = none := by
  apply predictor_events_overflow
  · simp
  · simp
  · simp [INT_MAX]
  · simp only [List.length_replicate, INT_MAX]
    norm_num

/-! ## Records of the pipeline stages -/

theorem ldiff_one (n : Nat) : Nat.ldiff 1 n = (n + 1) % 2 := by
  apply Nat.eq_of_testBit_eq
  intro i
  rw [Nat.testBit_ldiff]
  cases i with
  | zero =>
    simp [Nat.testBit_zero]
    rcases Nat.mod_two_eq_zero_or_one n with h | h <;> simp [h] <;> omega
  | succ i =>
    have h1 : Nat.testBit 1 (i + 1) = false := by
      rw [Nat.testBit_succ]; simp
    have h2 : Nat.testBit ((n + 1) % 2) (i + 1) = false := by
      rw [Nat.testBit_succ]
      have : (n + 1) % 2 / 2 = 0 := by omega
      rw [this]; simp
    rw [h1, h2]; simp

/-- The test `x & 1` is the parity of `x`, also for a negative `x`. -/
theorem int_land_one (x : Int) : Int.land x 1 = x % 2 := by
  cases x with
  | ofNat n =>
    have hland : Int.land (Int.ofNat n) (Int.ofNat 1) = Int.ofNat (n &&& 1) := rfl
    show Int.land (Int.ofNat n) (Int.ofNat 1) = _
    rw [hland, Nat.and_one_is_mod]
    show ((n % 2 : Nat) : Int) = (n : Int) % 2
    omega
  | negSucc n =>
    have hland : Int.land (Int.negSucc n) (Int.ofNat 1) = Int.ofNat (Nat.ldiff 1 n) := rfl
    show Int.land (Int.negSucc n) (Int.ofNat 1) = _
    rw [hland, ldiff_one]
    show (((n + 1) % 2 : Nat) : Int) = (Int.negSucc n) % 2
    have hneg : Int.negSucc n = -((n : Int) + 1) := Int.negSucc_eq n
    rw [hneg]
    omega

/-- The use flag of a word is set exactly when the word is odd. -/
theorem use_flag_ne_zero_iff (x : Int) : (PhysReg.mk x).use_flag ≠ 0 ↔ x % 2 = 1 := by
  show Int.land x 1 ≠ 0 ↔ x % 2 = 1
  rw [int_land_one]
  constructor <;> intro h <;> omega

/-- The single-entry overload writes the text of a visible entry. -/
theorem Tracer.add_json_trace_event_arg_text (entry : Trace_Entry) (t : Tracer) :
    t.add_json_trace_event_arg entry =
      (if entry.visible then t.put entry.text else t, entry.visible) := by
  by_cases hv : entry.visible
  · by_cases hs : entry.value.is_string_type <;>
      simp only [Tracer.add_json_trace_event_arg, Trace_Entry.text, hv, hs, Bool.not_true,
        Bool.false_eq_true, if_false, if_true, Tracer.put_put, String.append_assoc]
  · simp [Tracer.add_json_trace_event_arg, hv]

/-- The variadic overload writes `args_text`. -/
theorem Tracer.add_json_trace_event_args_text (args : List Trace_Entry) :
    ∀ t : Tracer, t.add_json_trace_event_args args = t.put (args_text args) := by
  induction args with
  | nil => intro t; simp [Tracer.add_json_trace_event_args, args_text, Tracer.put_empty]
  | cons entry rest ih =>
    intro t
    cases rest with
    | nil =>
      by_cases hv : entry.visible <;>
        simp [Tracer.add_json_trace_event_args, args_text,
          Tracer.add_json_trace_event_arg_text, hv, Tracer.put_empty]
    | cons e2 rest2 =>
      by_cases hv : entry.visible <;>
        simp [Tracer.add_json_trace_event_args, args_text,
          Tracer.add_json_trace_event_arg_text, hv, ih, Tracer.put_put, String.append_assoc]

/-- The text of a call: the head, then the arguments between `,"args":` with
an opening brace and two closing braces with a comma, when there are any. -/
theorem Trace_Call.text_eq (output_trace : Option String) (c : Trace_Call) :
    Trace_Call.text output_trace c =
      event_head_text output_trace c.thread c.name c.ts c.duration ++
        (if c.args.length > 0 then ",\"args\":\x7b" ++ args_text c.args ++ "\x7d\x7d,"
         else "") := by
  by_cases hargs : c.args.length > 0 <;>
    simp [Trace_Call.text, Tracer.record, Tracer.add_json_trace_event, hargs,
      Tracer.add_json_trace_event_args_text, Tracer.put, String.append_assoc]

/-- Below the cap an open tracer takes the text of the call and counts it. -/
theorem Tracer.record_open (output_trace : Option String) (c : Trace_Call) (t : Tracer)
    (hopen : t.is_open = true) (hcap : t.event_count < 100000) :
    Tracer.record output_trace t c =
      { t with f := t.f ++ Trace_Call.text output_trace c,
               event_count := t.event_count + 1 } := by
  rw [Tracer.record_below_cap output_trace c t hcap]
  simp [Tracer.put, hopen]

/-- The five stages reach their `case`, with the lane name of the stage. -/
theorem log_pipeline_stage_cases (p : String) (main_time : Nat) (a b c d e f : Int)
    (t : Tracer) :
    log_pipeline_stage (some p) main_time 0 a b c d e f t =
      some (t.record (some p) (fetch_call "Fetch" main_time a b)) ∧
    log_pipeline_stage (some p) main_time 1 a b c d e f t =
      some (t.record (some p) (decode_call "Decode" main_time a b c d e f)) ∧
    log_pipeline_stage (some p) main_time 2 a b c d e f t =
      some (t.record (some p) (rename_call "Rename" main_time a b c d e f)) ∧
    log_pipeline_stage (some p) main_time 3 a b c d e f t =
      some (t.record (some p) (issue_call "Issue" main_time a b c d)) ∧
    log_pipeline_stage (some p) main_time 4 a b c d e f t =
      some (t.record (some p) (commit_call "Commit" main_time a b c d)) := by
  refine ⟨rfl, rfl, rfl, rfl, rfl⟩

/-! ## Claims on the Rename, Commit and Fetch records -/

/-- C12: for every Rename event (stage 2) with payload `pc`, commit index,
`old`, `dst`, `src1`, `src2`, with tracing enabled (output path set, file open,
cap not reached), the record appended has the label `I` when bit 0 of the `dst`
word is 0, and otherwise `p` followed by the decimal value of `dst` shifted
right by one bit. -/
theorem rename_record_label (p : String) (main_time : Nat) (a b c d e f : Int) (t : Tracer)
    (hopen : t.is_open = true) (hcap : t.event_count < 100000) :
    ∃ args : String,
      log_pipeline_stage (some p) main_time 2 a b c d e f t =
        some { t with
          f := t.f ++
            ("\x7b\"cat\":\"write\",\"dur\":" ++ decStr 1000 ++ ",\"name\":\"" ++
              (if d % 2 = 0 then "I" else "p" ++ intStr (d >>> (1 : Nat))) ++
              "\",\"ph\":\"X\",\"pid\":\"" ++ p ++ "\",\"tid\":\"" ++ "Rename" ++ "\",\"ts\":" ++
              decStr (main_time * 100 % UINT64_RANGE) ++
              ",\"args\":\x7b" ++ args ++ "\x7d\x7d,"),
          event_count := t.event_count + 1 } := by
  refine ⟨args_text (rename_call "Rename" main_time a b c d e f).args, ?_⟩
  rw [(log_pipeline_stage_cases p main_time a b c d e f t).2.2.1,
    Tracer.record_open _ _ t hopen hcap, Trace_Call.text_eq]
  have hlabel : rename_label { index := d } =
      (if d % 2 = 0 then "I" else "p" ++ intStr (d >>> (1 : Nat))) := by
    unfold rename_label
    by_cases hd : d % 2 = 0
    · have : ¬ (PhysReg.mk d).use_flag ≠ 0 := by
        rw [use_flag_ne_zero_iff]; omega
      rw [if_neg this, if_pos hd]
    · have : (PhysReg.mk d).use_flag ≠ 0 := by
        rw [use_flag_ne_zero_iff]; omega
      rw [if_pos this, if_neg hd]
      simp only [PhysReg.adjust]
  have hargs : (rename_call "Rename" main_time a b c d e f).args.length > 0 := by
    simp [rename_call]
  rw [if_pos hargs]
  simp only [rename_call, hlabel, event_head_text, c_str_text, Option.getD_some, DURATION,
    String.append_assoc]

/-- C12 at a Rename event whose `dst` word is 11 (bit 0 set, index 5), and at
one whose `dst` word is 10 (bit 0 clear): the labels are `p5` and `I`. -/
theorem rename_record_label_witness :
    (∃ args : String,
      log_pipeline_stage (some "trace") 105 2 0x400000 7 4 11 0 9 { is_open := true } =
        some { ({ is_open := true } : Tracer) with
          f := ({ is_open := true } : Tracer).f ++
            ("\x7b\"cat\":\"write\",\"dur\":" ++ decStr 1000 ++ ",\"name\":\"" ++
              (if (11 : Int) % 2 = 0 then "I" else "p" ++ intStr ((11 : Int) >>> (1 : Nat))) ++
              "\",\"ph\":\"X\",\"pid\":\"" ++ "trace" ++ "\",\"tid\":\"" ++ "Rename" ++ "\",\"ts\":" ++
              decStr (105 * 100 % UINT64_RANGE) ++
              ",\"args\":\x7b" ++ args ++ "\x7d\x7d,"),
          event_count := ({ is_open := true } : Tracer).event_count + 1 }) ∧
    (if (11 : Int) % 2 = 0 then "I" else "p" ++ intStr ((11 : Int) >>> (1 : Nat))) = "p5" ∧
    (if (10 : Int) % 2 = 0 then "I" else "p" ++ intStr ((10 : Int) >>> (1 : Nat))) = "I" :=
  ⟨rename_record_label "trace" 105 0x400000 7 4 11 0 9 { is_open := true } rfl (by decide),
   by decide, by decide⟩

/-- The arguments of a Rename record. -/
theorem rename_args_text (stage_name : String) (main_time : Nat) (a b c d e f : Int) :
    args_text (rename_call stage_name main_time a b c d e f).args =
      "\"pc\":" ++ hex_text a ++ "," ++
      ("\"Commit Index\":" ++ intStr b ++ ",") ++
      (if e % 2 = 1 then "\"src1\":" ++ ("\"p" ++ intStr (e >>> (1 : Nat)) ++ "\"") ++ ","
       else "") ++
      (if f % 2 = 1 then "\"src2\":" ++ ("\"p" ++ intStr (f >>> (1 : Nat)) ++ "\"") ++ ","
       else "") ++
      ("\"old\":" ++ ("\"p" ++ intStr c ++ "\"")) := by
  have he := use_flag_ne_zero_iff e
  have hf := use_flag_ne_zero_iff f
  have k1 : ("\"pc\":" : String) = "\"" ++ ("pc" ++ "\":") := by decide
  have k2 : ("\"Commit Index\":" : String) = "\"" ++ ("Commit Index" ++ "\":") := by decide
  have k3 : ("\"src1\":" : String) = "\"" ++ ("src1" ++ "\":") := by decide
  have k4 : ("\"src2\":" : String) = "\"" ++ ("src2" ++ "\":") := by decide
  have k5 : ("\"old\":" : String) = "\"" ++ ("old" ++ "\":") := by decide
  by_cases h1 : e % 2 = 1 <;> by_cases h2 : f % 2 = 1 <;>
    simp only [rename_call, args_text, Trace_Entry.text, Trace_Value.is_string_type,
      Trace_Value.text, PhysReg.text, PhysReg.adjust, decide_eq_true_eq, he, hf, h1, h2,
      if_true, if_false, Bool.false_eq_true, String.append_assoc, String.empty_append,
      String.append_empty, k1, k2, k3, k4, k5]

/-- The arguments of a Commit record. -/
theorem commit_args_text (stage_name : String) (main_time : Nat) (a b c d : Int) :
    args_text (commit_call stage_name main_time a b c d).args =
      "\"pc\":" ++ hex_text a ++ "," ++
      (if c % 2 = 1 then "\"dst\":" ++ ("\"p" ++ intStr (c >>> (1 : Nat)) ++ "\"") ++ ","
       else "") ++
      (if d % 2 = 1 then "\"free\":" ++ ("\"p" ++ intStr (d >>> (1 : Nat)) ++ "\"") ++ ","
       else "") ++
      ("\"Commit Index\":" ++ intStr b) := by
  have hc := use_flag_ne_zero_iff c
  have hd := use_flag_ne_zero_iff d
  have k1 : ("\"pc\":" : String) = "\"" ++ ("pc" ++ "\":") := by decide
  have k2 : ("\"Commit Index\":" : String) = "\"" ++ ("Commit Index" ++ "\":") := by decide
  have k3 : ("\"dst\":" : String) = "\"" ++ ("dst" ++ "\":") := by decide
  have k4 : ("\"free\":" : String) = "\"" ++ ("free" ++ "\":") := by decide
  by_cases h1 : c % 2 = 1 <;> by_cases h2 : d % 2 = 1 <;>
    simp only [commit_call, args_text, Trace_Entry.text, Trace_Value.is_string_type,
      Trace_Value.text, PhysReg.text, PhysReg.adjust, decide_eq_true_eq, hc, hd, h1, h2,
      if_true, if_false, Bool.false_eq_true, String.append_assoc, String.empty_append,
      String.append_empty, k1, k2, k3, k4]

/-- C13: with tracing enabled (output path set, file open, cap not reached),
the argument set of a Rename record is `pc`, `Commit Index`, then `src1` and
`src2`, each present exactly when bit 0 of its payload word is 1, then `old`;
that of a Commit record is `pc`, then `dst` and `free`, each present exactly
when bit 0 of its payload word is 1, then `Commit Index`. A register argument
that is present is written as `p` and the decimal value of the word shifted
right by one. -/
theorem register_args_shown_iff_valid (p : String) (main_time : Nat) (a b c d e f : Int)
    (t : Tracer) (hopen : t.is_open = true) (hcap : t.event_count < 100000) :
    log_pipeline_stage (some p) main_time 2 a b c d e f t =
      some { t with
        f := t.f ++
          (event_head_text (some p) "Rename" (rename_label { index := d }) main_time 1000 ++
            (",\"args\":\x7b" ++
              ("\"pc\":" ++ hex_text a ++ "," ++
               ("\"Commit Index\":" ++ intStr b ++ ",") ++
               (if e % 2 = 1 then
                  "\"src1\":" ++ ("\"p" ++ intStr (e >>> (1 : Nat)) ++ "\"") ++ ","
                else "") ++
               (if f % 2 = 1 then
                  "\"src2\":" ++ ("\"p" ++ intStr (f >>> (1 : Nat)) ++ "\"") ++ ","
                else "") ++
               ("\"old\":" ++ ("\"p" ++ intStr c ++ "\""))) ++
              "\x7d\x7d,")),
        event_count := t.event_count + 1 } ∧
    log_pipeline_stage (some p) main_time 4 a b c d e f t =
      some { t with
        f := t.f ++
          (event_head_text (some p) "Commit" (commit_label b) main_time 1000 ++
            (",\"args\":\x7b" ++
              ("\"pc\":" ++ hex_text a ++ "," ++
               (if c % 2 = 1 then
                  "\"dst\":" ++ ("\"p" ++ intStr (c >>> (1 : Nat)) ++ "\"") ++ ","
                else "") ++
               (if d % 2 = 1 then
                  "\"free\":" ++ ("\"p" ++ intStr (d >>> (1 : Nat)) ++ "\"") ++ ","
                else "") ++
               ("\"Commit Index\":" ++ intStr b)) ++
              "\x7d\x7d,")),
        event_count := t.event_count + 1 } := by
  constructor
  · rw [(log_pipeline_stage_cases p main_time a b c d e f t).2.2.1,
      Tracer.record_open _ _ t hopen hcap, Trace_Call.text_eq, rename_args_text]
    have hargs : (rename_call "Rename" main_time a b c d e f).args.length > 0 := by
      simp [rename_call]
    rw [if_pos hargs]
    rfl
  · rw [(log_pipeline_stage_cases p main_time a b c d e f t).2.2.2.2,
      Tracer.record_open _ _ t hopen hcap, Trace_Call.text_eq, commit_args_text]
    have hargs : (commit_call "Commit" main_time a b c d).args.length > 0 := by
      simp [commit_call]
    rw [if_pos hargs]
    rfl

/-- C13 at a Rename event with `src1 = 0` (hidden) and `src2 = 9` (shown as
`p4`), and a Commit event with `dst = 4` (hidden) and `free = 11` (shown as
`p5`): the records written. -/
theorem register_args_shown_iff_valid_witness :
    log_pipeline_stage (some "trace") 105 2 0x400000 7 4 11 0 9 { is_open := true } =
      some { is_open := true, event_count := 1,
             f := "\x7b\"cat\":\"write\",\"dur\":1000,\"name\":\"p5\",\"ph\":\"X\",\"pid\":\"trace\",\"tid\":\"Rename\",\"ts\":10500,\"args\":\x7b\"pc\":\"00400000\",\"Commit Index\":7,\"src2\":\"p4\",\"old\":\"p4\"\x7d\x7d," } ∧
    log_pipeline_stage (some "trace") 105 4 0x400000 7 4 11 0 9 { is_open := true } =
      some { is_open := true, event_count := 1,
             f := "\x7b\"cat\":\"write\",\"dur\":1000,\"name\":\"C7\",\"ph\":\"X\",\"pid\":\"trace\",\"tid\":\"Commit\",\"ts\":10500,\"args\":\x7b\"pc\":\"00400000\",\"free\":\"p5\",\"Commit Index\":7\x7d\x7d," } := by
  have h := register_args_shown_iff_valid "trace" 105 0x400000 7 4 11 0 9 { is_open := true }
    rfl (by decide)
  refine ⟨h.1.trans ?_, h.2.trans ?_⟩
  · decide
  · decide

/-- The hexadecimal digit characters, in lowercase. -/
theorem digitChar_hex (k : Nat) (hk : k < 16) :
    Nat.digitChar k ∈ ("0123456789abcdef" : String).data := by
  interval_cases k <;> decide

theorem toDigitsCore_hex (fuel : Nat) :
    ∀ (n : Nat) (acc : List Char),
      (∀ ch ∈ acc, ch ∈ ("0123456789abcdef" : String).data) →
      ∀ ch ∈ Nat.toDigitsCore 16 fuel n acc, ch ∈ ("0123456789abcdef" : String).data := by
  induction fuel with
  | zero => intro n acc hacc ch hch; exact hacc ch (by simpa [Nat.toDigitsCore] using hch)
  | succ fuel ih =>
    intro n acc hacc ch hch
    have hacc1 : ∀ c ∈ Nat.digitChar (n % 16) :: acc,
        c ∈ ("0123456789abcdef" : String).data := by
      intro c hc
      rcases List.mem_cons.mp hc with h | h
      · rw [h]; exact digitChar_hex _ (Nat.mod_lt _ (by decide))
      · exact hacc c h
    simp only [Nat.toDigitsCore] at hch
    by_cases hz : n / 16 = 0
    · rw [if_pos hz] at hch
      exact hacc1 ch hch
    · rw [if_neg hz] at hch
      exact ih _ _ hacc1 ch hch

/-- The text of `os << hex{value}` is eight lowercase hexadecimal digits
between double quotes: the digits of the 32-bit word, after the zeros that
fill the field. -/
theorem hex_text_shape (value : Int) :
    ∃ ds : List Char, ds.length = 8 ∧
      (∀ ch ∈ ds, ch ∈ ("0123456789abcdef" : String).data) ∧
      ds = List.replicate (8 - (Nat.toDigits 16 (to_unsigned value)).length) '0' ++
        Nat.toDigits 16 (to_unsigned value) ∧
      hex_text value = "\"" ++ String.mk ds ++ "\"" := by
  have hlen : (Nat.toDigits 16 (to_unsigned value)).length ≤ 8 := by
    unfold Nat.toDigits
    apply Nat.toDigitsCore_length 16 (by decide) _ _ 8 _ (by decide)
    have := to_unsigned_lt value
    unfold UINT_RANGE at this
    norm_num
    exact this
  refine ⟨_, ?_, ?_, rfl, rfl⟩
  · rw [List.length_append, List.length_replicate]
    omega
  · intro ch hch
    rcases List.mem_append.mp hch with h | h
    · rw [(List.mem_replicate.mp h).2]; decide
    · exact toDigitsCore_hex _ _ [] (fun c hc => absurd hc (List.not_mem_nil c)) ch h

/-- C15 (amended): for every Fetch event (stage 0) with payload words `a`
(pc) and `b` (raw instruction) at simulated time `t`, with tracing enabled
(output path set, file open) and the cap not reached, exactly one record is
appended: lane `Fetch`, label `F`, duration 1000, timestamp `100*t` modulo
`2^64` (the product is taken in `uint64_t`), hence `100*t` when that is below
`2^64`, and the arguments `pc` and `raw_instruction`, each a quoted string of
exactly 8 zero-padded lowercase hexadecimal digits of the 32-bit word. -/
theorem fetch_record (p : String) (t : Nat) (a b c d e f : Int) (tr : Tracer)
    (hopen : tr.is_open = true) (hcap : tr.event_count < 100000) :
    log_pipeline_stage (some p) t 0 a b c d e f tr =
      some { tr with
        f := tr.f ++
          ("\x7b\"cat\":\"write\",\"dur\":" ++ decStr 1000 ++ ",\"name\":\"" ++ "F" ++
            "\",\"ph\":\"X\",\"pid\":\"" ++ p ++ "\",\"tid\":\"" ++ "Fetch" ++ "\",\"ts\":" ++
            decStr (100 * t % UINT64_RANGE) ++
            ",\"args\":\x7b" ++ "\"pc\":" ++ hex_text a ++ "," ++
            "\"raw_instruction\":" ++ hex_text b ++ "\x7d\x7d,"),
        event_count := tr.event_count + 1 } ∧
    (100 * t < UINT64_RANGE → decStr (100 * t % UINT64_RANGE) = decStr (100 * t)) ∧
    (∀ value : Int, ∃ ds : List Char, ds.length = 8 ∧
      (∀ ch ∈ ds, ch ∈ ("0123456789abcdef" : String).data) ∧
      ds = List.replicate (8 - (Nat.toDigits 16 (to_unsigned value)).length) '0' ++
        Nat.toDigits 16 (to_unsigned value) ∧
      hex_text value = "\"" ++ String.mk ds ++ "\"") := by
  refine ⟨?_, fun h => by rw [Nat.mod_eq_of_lt h], hex_text_shape⟩
  rw [(log_pipeline_stage_cases p t a b c d e f tr).1,
    Tracer.record_open _ _ tr hopen hcap, Trace_Call.text_eq]
  have hargs : (fetch_call "Fetch" t a b).args.length > 0 := by simp [fetch_call]
  have k1 : ("\"pc\":" : String) = "\"" ++ ("pc" ++ "\":") := by decide
  have k2 : ("\"raw_instruction\":" : String) = "\"" ++ ("raw_instruction" ++ "\":") := by
    decide
  rw [if_pos hargs]
  simp only [fetch_call, args_text, Trace_Entry.text, Trace_Value.is_string_type,
    Trace_Value.text, event_head_text, c_str_text, Option.getD_some, DURATION, if_true,
    Bool.false_eq_true, if_false, String.append_assoc, k1, k2, Nat.mul_comm t 100]

/-- C15 (amended) at the Fetch event `pc = 0x400000`, raw instruction `-1`
(the word `ffffffff`), time 105: the record written. -/
theorem fetch_record_witness :
    log_pipeline_stage (some "trace") 105 0 0x400000 (-1) 0 0 0 0 { is_open := true } =
      some { is_open := true, event_count := 1,
             f := "\x7b\"cat\":\"write\",\"dur\":1000,\"name\":\"F\",\"ph\":\"X\",\"pid\":\"trace\",\"tid\":\"Fetch\",\"ts\":10500,\"args\":\x7b\"pc\":\"00400000\",\"raw_instruction\":\"ffffffff\"\x7d\x7d," } :=
  ((fetch_record "trace" 105 0x400000 (-1) 0 0 0 0 { is_open := true } rfl (by decide)).1).trans
    (by decide)

/-- C15 as stated fails at the simulated time 184467440737095520, a multiple
of 5: the timestamp written is 384, not the hundredfold of the time. -/
theorem fetch_timestamp_wraps :
    log_pipeline_stage (some "trace") 184467440737095520 0 0x400000 0 0 0 0 0
        { is_open := true } =
      some { is_open := true, event_count := 1,
             f := "\x7b\"cat\":\"write\",\"dur\":1000,\"name\":\"F\",\"ph\":\"X\",\"pid\":\"trace\",\"tid\":\"Fetch\",\"ts\":384,\"args\":\x7b\"pc\":\"00400000\",\"raw_instruction\":\"00000000\"\x7d\x7d," } ∧
    100 * 184467440737095520 ≠ 384 := by
  constructor
  · decide
  · decide

/-! ## Claims on unknown stages, `create` and `destroy` -/

/-- C14 as stated fails at the Rename event with payload `pc = 0x400000`,
commit index 7, `old = 4`, `dst = 0`, `src1 = 0`, `src2 = 0` at time 105: the
record shows the argument `old` as `p4`, although bit 0 of the word 4 is clear
and the word shifted right by one is 2. -/
theorem rename_old_shown_unshifted :
    log_pipeline_stage (some "trace") 105 2 0x400000 7 4 0 0 0 { is_open := true } =
      some { is_open := true, event_count := 1,
             f := "\x7b\"cat\":\"write\",\"dur\":1000,\"name\":\"I\",\"ph\":\"X\",\"pid\":\"trace\",\"tid\":\"Rename\",\"ts\":10500,\"args\":\x7b\"pc\":\"00400000\",\"Commit Index\":7,\"old\":\"p4\"\x7d\x7d," } ∧
    (PhysReg.mk 4).use_flag = 0 ∧ ((PhysReg.mk 4).adjust 1).index = 2 := by
  decide

/-- A stage number outside 0..4 reads the table of lane names outside its
entries. -/
theorem stage_name_lookup_outside (stage : Int) (h : stage < 0 ∨ 4 < stage) :
    stage_name_lookup stage = none := by
  unfold stage_name_lookup
  by_cases h0 : 0 ≤ stage
  · rw [if_pos h0, List.get?_eq_none]
    simp only [stage_name_table, List.length_cons, List.length_nil]
    omega
  · rw [if_neg h0]

/-- C16, the call `log_pipeline_stage(5, 0, 0, 0, 0, 0, 0)` with tracing
enabled: the lane name is read at index 5 of the five-entry table before the
`switch` is reached, so the call has no defined result; so it is for every
stage number outside 0..4. With tracing disabled the call returns at once and
leaves the tracer as it was. -/
theorem log_pipeline_stage_unknown_stage :
    stage_name_lookup 5 = none ∧
    log_pipeline_stage (some "trace") 105 5 0 0 0 0 0 0 { is_open := true } = none ∧
    (∀ (stage : Int) (p : String) (main_time : Nat) (a b c d e f : Int) (t : Tracer),
      stage < 0 ∨ 4 < stage →
      log_pipeline_stage (some p) main_time stage a b c d e f t = none) ∧
    (∀ (stage : Int) (main_time : Nat) (a b c d e f : Int) (t : Tracer),
      log_pipeline_stage none main_time stage a b c d e f t = some t) := by
  refine ⟨by decide, by decide, ?_, ?_⟩
  · intro stage p main_time a b c d e f t h
    simp [log_pipeline_stage, stage_name_lookup_outside stage h]
  · intro stage main_time a b c d e f t
    simp [log_pipeline_stage]

/-- C17 (amended): with an output path `p` configured and fragment mode off,
`Tracer::create` leaves an open file that holds the opening envelope followed
by exactly five placeholder records, one per pipeline stage in the order
Fetch, Decode, Rename, Issue, Commit, each with timestamp 0 and duration 1, and
each followed by a comma; the event count stays 0. -/
theorem create_writes_placeholders (p : String) :
    Tracer.create (some p) { json_fragment := 0 } =
      { is_open := true, event_count := 0, json_fragment := 0,
        f := "\x7b\"otherData\":\x7b\x7d,\"traceEvents\": [" ++
          concat_texts (List.map
            (fun stage =>
              "\x7b\"cat\":\"a\",\"dur\":1,\"name\":\"DUMMY\",\"ph\":\"X\",\"pid\":\"" ++ p ++
                "\",\"tid\":\"" ++ stage ++ "\",\"ts\":0\x7d,")
            ["Fetch", "Decode", "Rename", "Issue", "Commit"]) } := by
  rw [Tracer.create_open]
  simp only [stage_name_table, if_true, envelope_text]
  rfl

set_option maxRecDepth 100000 in
/-- C17 (amended) at the output path `trace`: the text of the file after
`create`. -/
theorem create_writes_placeholders_witness :
    (Tracer.create (some "trace") { json_fragment := 0 }).f =
      "\x7b\"otherData\":\x7b\x7d,\"traceEvents\": [\x7b\"cat\":\"a\",\"dur\":1,\"name\":\"DUMMY\",\"ph\":\"X\",\"pid\":\"trace\",\"tid\":\"Fetch\",\"ts\":0\x7d,\x7b\"cat\":\"a\",\"dur\":1,\"name\":\"DUMMY\",\"ph\":\"X\",\"pid\":\"trace\",\"tid\":\"Decode\",\"ts\":0\x7d,\x7b\"cat\":\"a\",\"dur\":1,\"name\":\"DUMMY\",\"ph\":\"X\",\"pid\":\"trace\",\"tid\":\"Rename\",\"ts\":0\x7d,\x7b\"cat\":\"a\",\"dur\":1,\"name\":\"DUMMY\",\"ph\":\"X\",\"pid\":\"trace\",\"tid\":\"Issue\",\"ts\":0\x7d,\x7b\"cat\":\"a\",\"dur\":1,\"name\":\"DUMMY\",\"ph\":\"X\",\"pid\":\"trace\",\"tid\":\"Commit\",\"ts\":0\x7d," :=
  (congrArg Tracer.f (create_writes_placeholders "trace")).trans (by decide)

set_option maxRecDepth 100000 in
/-- C17 as stated fails: the placeholder records that `create` writes for the
output path `trace` have `"dur":1`; the text is not the one with `"dur":0`. -/
theorem create_placeholder_duration_one :
    (Tracer.create (some "trace") { json_fragment := 0 }).f ≠
      "\x7b\"otherData\":\x7b\x7d,\"traceEvents\": [" ++
        concat_texts (List.map
          (fun stage =>
            "\x7b\"cat\":\"a\",\"dur\":0,\"name\":\"DUMMY\",\"ph\":\"X\",\"pid\":\"trace" ++
              "\",\"tid\":\"" ++ stage ++ "\",\"ts\":0\x7d,")
          ["Fetch", "Decode", "Rename", "Issue", "Commit"]) ∧
    placeholder_text (some "trace") "Fetch" =
      "\x7b\"cat\":\"a\",\"dur\":1,\"name\":\"DUMMY\",\"ph\":\"X\",\"pid\":\"trace\",\"tid\":\"Fetch\",\"ts\":0\x7d," := by
  constructor
  · decide
  · decide

/-- The arguments of a Rename record are the fields of `rename_fields`. -/
theorem rename_args_fields (stage_name : String) (main_time : Nat) (a b c d e f : Int) :
    args_text (rename_call stage_name main_time a b c d e f).args =
      fields_text (rename_fields a b c e f) := by
  rw [rename_args_text]
  have k1 : ("\"pc\":" : String) = "\"" ++ ("pc" ++ "\":") := by decide
  have k2 : ("\"Commit Index\":" : String) = "\"" ++ ("Commit Index" ++ "\":") := by decide
  have k3 : ("\"src1\":" : String) = "\"" ++ ("src1" ++ "\":") := by decide
  have k4 : ("\"src2\":" : String) = "\"" ++ ("src2" ++ "\":") := by decide
  have k5 : ("\"old\":" : String) = "\"" ++ ("old" ++ "\":") := by decide
  by_cases h1 : e % 2 = 1 <;> by_cases h2 : f % 2 = 1 <;>
    simp only [rename_fields, fields_text, join_commas, h1, h2, if_true, if_false,
      List.map_cons, List.map_nil, List.cons_append, List.nil_append, List.append_nil,
      String.append_assoc, String.empty_append, String.append_empty, k1, k2, k3, k4, k5]

/-- The arguments of a Commit record are the fields of `commit_fields`. -/
theorem commit_args_fields (stage_name : String) (main_time : Nat) (a b c d : Int) :
    args_text (commit_call stage_name main_time a b c d).args =
      fields_text (commit_fields a b c d) := by
  rw [commit_args_text]
  have k1 : ("\"pc\":" : String) = "\"" ++ ("pc" ++ "\":") := by decide
  have k2 : ("\"Commit Index\":" : String) = "\"" ++ ("Commit Index" ++ "\":") := by decide
  have k3 : ("\"dst\":" : String) = "\"" ++ ("dst" ++ "\":") := by decide
  have k4 : ("\"free\":" : String) = "\"" ++ ("free" ++ "\":") := by decide
  by_cases h1 : c % 2 = 1 <;> by_cases h2 : d % 2 = 1 <;>
    simp only [commit_fields, fields_text, join_commas, h1, h2, if_true, if_false,
      List.map_cons, List.map_nil, List.cons_append, List.nil_append, List.append_nil,
      String.append_assoc, String.empty_append, String.append_empty, k1, k2, k3, k4]

/-- C14 (amended): with tracing enabled (output path set, file open, cap not
reached), the argument object of every Rename record is the text of the fields
`rename_fields`, and that of every Commit record the text of the fields
`commit_fields`. So a field `src1`, `src2`, `dst` or `free` that a record
shows has bit 0 of its encoded word set and is shown as `p` with the word
shifted right by one, and the field `old` is shown in every Rename record,
whatever its bit 0, as `p` with the encoded word itself. -/
theorem displayed_register_fields (p : String) (main_time : Nat) (a b c d e f : Int)
    (t : Tracer) (hopen : t.is_open = true) (hcap : t.event_count < 100000) :
    log_pipeline_stage (some p) main_time 2 a b c d e f t =
      some { t with
        f := t.f ++
          (event_head_text (some p) "Rename" (rename_label { index := d }) main_time 1000 ++
            (",\"args\":\x7b" ++ fields_text (rename_fields a b c e f) ++ "\x7d\x7d,")),
        event_count := t.event_count + 1 } ∧
    log_pipeline_stage (some p) main_time 4 a b c d e f t =
      some { t with
        f := t.f ++
          (event_head_text (some p) "Commit" (commit_label b) main_time 1000 ++
            (",\"args\":\x7b" ++ fields_text (commit_fields a b c d) ++ "\x7d\x7d,")),
        event_count := t.event_count + 1 } ∧
    (∀ value, ("src1", value) ∈ rename_fields a b c e f →
      e % 2 = 1 ∧ value = "\"p" ++ intStr (e >>> (1 : Nat)) ++ "\"") ∧
    (∀ value, ("src2", value) ∈ rename_fields a b c e f →
      f % 2 = 1 ∧ value = "\"p" ++ intStr (f >>> (1 : Nat)) ++ "\"") ∧
    (∀ value, ("dst", value) ∈ commit_fields a b c d →
      c % 2 = 1 ∧ value = "\"p" ++ intStr (c >>> (1 : Nat)) ++ "\"") ∧
    (∀ value, ("free", value) ∈ commit_fields a b c d →
      d % 2 = 1 ∧ value = "\"p" ++ intStr (d >>> (1 : Nat)) ++ "\"") ∧
    (∀ value, ("old", value) ∈ rename_fields a b c e f ↔ value = "\"p" ++ intStr c ++ "\"") := by
  have hs1 : ("src1" : String) ≠ "pc" ∧ ("src1" : String) ≠ "Commit Index" ∧
      ("src1" : String) ≠ "src2" ∧ ("src1" : String) ≠ "old" := by decide
  have hs2 : ("src2" : String) ≠ "pc" ∧ ("src2" : String) ≠ "Commit Index" ∧
      ("src2" : String) ≠ "src1" ∧ ("src2" : String) ≠ "old" := by decide
  have hd : ("dst" : String) ≠ "pc" ∧ ("dst" : String) ≠ "Commit Index" ∧
      ("dst" : String) ≠ "free" := by decide
  have hf : ("free" : String) ≠ "pc" ∧ ("free" : String) ≠ "Commit Index" ∧
      ("free" : String) ≠ "dst" := by decide
  have ho : ("old" : String) ≠ "pc" ∧ ("old" : String) ≠ "Commit Index" ∧
      ("old" : String) ≠ "src1" ∧ ("old" : String) ≠ "src2" := by decide
  refine ⟨?_, ?_, ?_, ?_, ?_, ?_, ?_⟩
  · rw [(log_pipeline_stage_cases p main_time a b c d e f t).2.2.1,
      Tracer.record_open _ _ t hopen hcap, Trace_Call.text_eq, rename_args_fields]
    have hargs : (rename_call "Rename" main_time a b c d e f).args.length > 0 := by
      simp [rename_call]
    rw [if_pos hargs]
    rfl
  · rw [(log_pipeline_stage_cases p main_time a b c d e f t).2.2.2.2,
      Tracer.record_open _ _ t hopen hcap, Trace_Call.text_eq, commit_args_fields]
    have hargs : (commit_call "Commit" main_time a b c d).args.length > 0 := by
      simp [commit_call]
    rw [if_pos hargs]
    rfl
  · intro value h
    by_cases h1 : e % 2 = 1 <;> by_cases h2 : f % 2 = 1 <;>
      simp [rename_fields, h1, h2, hs1] at h ⊢ <;> exact h
  · intro value h
    by_cases h1 : e % 2 = 1 <;> by_cases h2 : f % 2 = 1 <;>
      simp [rename_fields, h1, h2, hs2] at h ⊢ <;> exact h
  · intro value h
    by_cases h1 : c % 2 = 1 <;> by_cases h2 : d % 2 = 1 <;>
      simp [commit_fields, h1, h2, hd] at h ⊢ <;> exact h
  · intro value h
    by_cases h1 : c % 2 = 1 <;> by_cases h2 : d % 2 = 1 <;>
      simp [commit_fields, h1, h2, hf] at h ⊢ <;> exact h
  · intro value
    by_cases h1 : e % 2 = 1 <;> by_cases h2 : f % 2 = 1 <;>
      simp [rename_fields, h1, h2, ho]

/-- C14 (amended) at a Rename event with `old = 4`, `src1 = 0`, `src2 = 9` on
an empty open file: the record shows `old` as `p4`, hides `src1`, and shows
`src2` as `p4`. -/
theorem displayed_register_fields_witness :
    log_pipeline_stage (some "trace") 105 2 0x400000 7 4 11 0 9 { is_open := true } =
      some { is_open := true, event_count := 1,
             f := "\x7b\"cat\":\"write\",\"dur\":1000,\"name\":\"p5\",\"ph\":\"X\",\"pid\":\"trace\",\"tid\":\"Rename\",\"ts\":10500,\"args\":\x7b\"pc\":\"00400000\",\"Commit Index\":7,\"src2\":\"p4\",\"old\":\"p4\"\x7d\x7d," } ∧
    rename_fields 0x400000 7 4 0 9 =
      [("pc", "\"00400000\""), ("Commit Index", "7"), ("src2", "\"p4\""), ("old", "\"p4\"")] := by
  have h := displayed_register_fields "trace" 105 0x400000 7 4 11 0 9 { is_open := true }
    rfl (by decide)
  refine ⟨h.1.trans ?_, ?_⟩
  · decide
  · decide

/-- Trimming the last character of a text that ends with a comma leaves the
text before the comma. -/
theorem dropLast_append_comma (x : String) :
    String.mk (x ++ ",").data.dropLast = x ∧ (x ++ ",").data ≠ [] := by
  have hd : (x ++ ",").data = x.data ++ [','] := by
    rw [String.data_append]
  rw [hd, List.dropLast_concat]
  exact ⟨rfl, by simp⟩

/-- On an open file whose text ends with a comma, `destroy` puts a space in
the place of the comma, closes the envelope outside fragment mode, and closes
the file. -/
theorem Tracer.destroy_trims_comma (output_trace : Option String) (x : String) (n j : Int) :
    (Tracer.destroy output_trace
      { is_open := true, f := x ++ ",", event_count := n, json_fragment := j }).1 =
      { is_open := false, f := x ++ " " ++ (if j = 0 then "]\x7d" else ""),
        event_count := n, json_fragment := j } := by
  obtain ⟨h1, h2⟩ := dropLast_append_comma x
  by_cases hj : j = 0 <;>
    simp only [Tracer.destroy, Bool.not_true, Bool.false_eq_true, if_false, h1, h2, hj,
      if_true, String.append_empty]

/-- Every iteration adds 5 to `main_time`, a `uint64_t`. -/
theorem loop_body_main_time (k : Tick) (s : Loop) :
    (loop_body k s).main_time = (s.main_time + 5) % UINT64_RANGE := by
  unfold loop_body
  simp only
  split <;> split <;> rfl

/-- One iteration of the drain: the flag stays raised, `stop_time` stays, and
`top->done` is what the evaluation leaves. -/
theorem loop_body_draining (k : Tick) (s : Loop) (hint : s.interrupt ≠ 0)
    (hstop : s.stop_time ≠ 0) (hfit : s.main_time + 5 < UINT64_RANGE) :
    (loop_body k s).main_time = s.main_time + 5 ∧ (loop_body k s).interrupt ≠ 0 ∧
    (loop_body k s).stop_time = s.stop_time ∧ (loop_body k s).done = k.done := by
  have hsig : SIGINT ≠ 0 := by decide
  cases he : k.raise_early <;> cases hl : k.raise_late <;>
    simp [loop_body, he, hl, hstop, hint, hsig, Nat.mod_eq_of_lt hfit]

/-- The drain: with the flag raised and `n` iterations of 5 left before
`stop_time`, the loop stops after at most `n` iterations, and after fewer only
if the model reports completion. -/
theorem simulate_drain (env : Nat → Tick) (n : Nat) :
    ∀ (fuel i : Nat) (s : Loop), s.interrupt ≠ 0 → s.stop_time ≠ 0 →
      s.main_time + 5 * n = s.stop_time → s.stop_time < UINT64_RANGE → n ≤ fuel →
      ∃ k s1, simulate env fuel i s = some (k, s1) ∧ i ≤ k ∧ k ≤ i + n ∧
        s1.main_time = s.main_time + 5 * (k - i) ∧ (k < i + n → s1.done = true) ∧
        s1.interrupt ≠ 0 := by
  induction n with
  | zero =>
    intro fuel i s hint hstop hleft _ _
    have hge : s.main_time ≥ s.stop_time := by omega
    have hcond : loop_cond s = false := by simp [loop_cond, hint, hge]
    refine ⟨i, s, ?_, le_refl _, le_refl _, by simp, fun h => absurd h (by omega), hint⟩
    cases fuel <;> simp [simulate, hcond]
  | succ n ih =>
    intro fuel i s hint hstop hleft hfit hfuel
    by_cases hdone : s.done = true
    · have hcond : loop_cond s = false := by simp [loop_cond, hdone]
      refine ⟨i, s, ?_, le_refl _, by omega, by simp, fun _ => hdone, hint⟩
      cases fuel <;> simp [simulate, hcond]
    · have hlt : ¬ s.main_time ≥ s.stop_time := by omega
      have hcond : loop_cond s = true := by
        simp only [Bool.not_eq_true] at hdone
        simp [loop_cond, hdone, hlt]
      obtain ⟨fuel1, rfl⟩ : ∃ fuel1, fuel = fuel1 + 1 := ⟨fuel - 1, by omega⟩
      obtain ⟨hm, hi, hs, _⟩ := loop_body_draining (env i) s hint hstop (by omega)
      obtain ⟨k, s1, hrun, hik, hkn, hmt, hearly, hint1⟩ :=
        ih fuel1 (i + 1) (loop_body (env i) s) hi (by rw [hs]; exact hstop)
          (by rw [hm, hs]; omega) (by rw [hs]; exact hfit) (by omega)
      refine ⟨k, s1, ?_, by omega, by omega, ?_, fun h => hearly (by omega), hint1⟩
      · rw [simulate, if_pos hcond]
        exact hrun
      · rw [hmt, hm]
        have : k - i = (k - (i + 1)) + 1 := by omega
        rw [this]
        ring

/-- C20 (amended): if the interrupt flag first becomes set during the loop
iteration that starts at simulated time `t`, before that iteration tests the
flag at the end of its body (as with every divergence raised by a stream
callback inside the evaluation of the model), and `t + 105` is below `2^64`,
then the loop stops after that iteration and at most 20 further ones, with
`main_time` at most `t + 105`, and it stops earlier only if the model reports
done; every iteration advances the time by 5 (in `uint64_t`). -/
theorem bounded_drain (env : Nat → Tick) (i : Nat) (s : Loop) (t fuel : Nat)
    (ht : s.main_time = t) (hint : s.interrupt = 0) (hstop : s.stop_time = 0)
    (hdone : s.done = false) (hraise : (env i).raise_early = true)
    (hfit : t + 105 < UINT64_RANGE) (hfuel : 21 ≤ fuel) :
    (∃ k s1, simulate env fuel i s = some (k, s1) ∧ i + 1 ≤ k ∧ k ≤ i + 21 ∧
      s1.main_time = t + 5 * (k - i) ∧ s1.main_time ≤ t + 105 ∧
      (k < i + 21 → s1.done = true) ∧ s1.interrupt ≠ 0) ∧
    (∀ (k : Tick) (s1 : Loop), (loop_body k s1).main_time = (s1.main_time + 5) % UINT64_RANGE) := by
  refine ⟨?_, loop_body_main_time⟩
  have hcond : loop_cond s = true := by simp [loop_cond, hdone, hint]
  obtain ⟨fuel1, rfl⟩ : ∃ fuel1, fuel = fuel1 + 1 := ⟨fuel - 1, by omega⟩
  have hsig : SIGINT ≠ 0 := by decide
  have hm : (loop_body (env i) s).main_time = t + 5 := by
    rw [loop_body_main_time, ht, Nat.mod_eq_of_lt (by omega)]
  have hs : (loop_body (env i) s).stop_time = t + 105 := by
    have h1 : (t + 5) % UINT64_RANGE = t + 5 := Nat.mod_eq_of_lt (by omega)
    have h2 : (t + 5 + 100) % UINT64_RANGE = t + 105 := Nat.mod_eq_of_lt (by omega)
    cases hl : (env i).raise_late <;>
      simp [loop_body, hraise, hl, hstop, hsig, ht, h1, h2]
  have hi : (loop_body (env i) s).interrupt ≠ 0 := by
    cases hl : (env i).raise_late <;>
      simp [loop_body, hraise, hl, hstop, hsig]
  obtain ⟨k, s1, hrun, hik, hkn, hmt, hearly, hint1⟩ :=
    simulate_drain env 20 fuel1 (i + 1) (loop_body (env i) s) hi (by rw [hs]; omega)
      (by rw [hm, hs]) (by rw [hs]; omega) (by omega)
  refine ⟨k, s1, ?_, by omega, by omega, ?_, ?_, fun h => hearly (by omega), hint1⟩
  · rw [simulate, if_pos hcond]
    exact hrun
  · rw [hmt, hm]
    have : k - i = (k - (i + 1)) + 1 := by omega
    rw [this]
    ring
  · rw [hmt, hm]
    omega

/-- C20 (amended) for a divergence raised in the iteration that starts at time
15, the model never reporting done: 20 further iterations, and the loop stops
at time 120. -/
theorem bounded_drain_witness :
    ∃ k s1, simulate (fun i => if i = 3 then { raise_early := true } else {}) 21 3
        { main_time := 15 } = some (k, s1) ∧ 3 + 1 ≤ k ∧ k ≤ 3 + 21 ∧
      s1.main_time = 15 + 5 * (k - 3) ∧ s1.main_time ≤ 15 + 105 ∧
      (k < 3 + 21 → s1.done = true) ∧ s1.interrupt ≠ 0 :=
  (bounded_drain (fun i => if i = 3 then { raise_early := true } else {}) 3
    { main_time := 15 } 15 21 rfl rfl rfl rfl (by decide) (by decide) (by decide)).1

/-- C20 as stated fails in two ways. A signal delivered in the iteration that
starts at time 100, after the body has tested the flag, finds `stop_time`
still 0: the loop stops at time 105 with no further iteration, the model not
done. And a flag raised in the iteration that starts at `2^64 - 105` makes
`main_time + 100` wrap to 0, with the same effect. -/
theorem drain_skipped :
    simulate (fun i => if i = 0 then { raise_late := true } else {}) 100 0
        { main_time := 100 } =
      some (1, { main_time := 105, interrupt := SIGINT, stop_time := 0, done := false }) ∧
    simulate (fun i => if i = 0 then { raise_early := true } else {}) 100 0
        { main_time := 18446744073709551511 } =
      some (1, { main_time := 18446744073709551516, interrupt := SIGINT, stop_time := 0,
                 done := false }) := by
  constructor
  · decide
  · decide

/-! ## Benchmark `test_functions` -/

theorem int_wrap_add_left (a b : Int) : int_wrap (int_wrap a + b) = int_wrap (a + b) := by
  unfold int_wrap
  omega

theorem int_wrap_add_right (a b : Int) : int_wrap (a + int_wrap b) = int_wrap (a + b) := by
  unfold int_wrap
  omega

/-- A value in the range of `int` is left as it is. -/
theorem int_wrap_of_range (v : Int) (hlo : INT_MIN ≤ v) (hhi : v ≤ INT_MAX) :
    int_wrap v = v := by
  unfold int_wrap
  unfold INT_MIN at hlo
  unfold INT_MAX at hhi
  omega

/-- The loop body commutes with moving `x`: the other variables do not depend
on it. -/
theorem foo_body_shift (x0 : Int) (s : Foo) :
    foo_body (s.shift x0) = (foo_body s).shift x0 := by
  simp only [foo_body, Foo.shift, List.map_append, List.map_cons, List.map_nil, Mark.shift,
    int_wrap_add_left, int_wrap_add_right, add_assoc]

/-- The loop commutes with moving `x`. -/
theorem foo_loop_shift (x0 : Int) (fuel : Nat) :
    ∀ s : Foo, foo_loop fuel (s.shift x0) = (foo_loop fuel s).map (Foo.shift x0) := by
  induction fuel with
  | zero => intro s; rfl
  | succ fuel ih =>
    intro s
    have hi : (s.shift x0).i = s.i := rfl
    by_cases h : s.i < 40
    · simp only [foo_loop, hi, h, if_true, foo_body_shift, ih]
    · simp only [foo_loop, hi, h, if_false, Option.map_some']

/-- More fuel does not change the result of a loop that has ended. -/
theorem foo_loop_fuel (fuel : Nat) :
    ∀ (s r : Foo) (m : Nat), foo_loop fuel s = some r → foo_loop (fuel + m) s = some r := by
  induction fuel with
  | zero => intro s r m h; simp [foo_loop] at h
  | succ fuel ih =>
    intro s r m h
    rw [Nat.add_right_comm]
    by_cases hi : s.i < 40
    · simp only [foo_loop, hi, if_true] at h ⊢
      exact ih _ _ m h
    · simp only [foo_loop, hi, if_false] at h ⊢
      exact h

set_option maxRecDepth 1000000 in
/-- The loop of `foo` from `x = 0`. -/
theorem foo_loop_zero :
    foo_loop 41 { x := 0 } =
      some { x := 10700, j := 40, k := 821, i := 40,
             marks := (List.range 40).map fun n => Mark.PASS (foo_offset n) } := by
  decide

theorem foo_offset_le (n : Nat) (hn : n < 40) : 0 < foo_offset n ∧ foo_offset n ≤ 10700 := by
  interval_cases n <;> decide

/-- The loop of `foo` from a 32-bit `x`. -/
theorem foo_loop_spec (x : Int) (fuel : Nat) (hlo : INT_MIN ≤ x) (hhi : x ≤ INT_MAX)
    (hfuel : 41 ≤ fuel) :
    foo_loop fuel { x := x } =
      some { x := int_wrap (x + 10700), j := 40, k := 821, i := 40,
             marks := (List.range 40).map fun n => Mark.PASS (int_wrap (x + foo_offset n)) } := by
  obtain ⟨m, rfl⟩ : ∃ m, fuel = 41 + m := ⟨fuel - 41, by omega⟩
  have h0 : ({ x := x } : Foo) = Foo.shift x { x := 0 } := by
    simp only [Foo.shift, add_zero, List.map_nil, int_wrap_of_range x hlo hhi]
  apply foo_loop_fuel
  rw [h0, foo_loop_shift, foo_loop_zero]
  simp only [Option.map_some', Foo.shift, List.map_map]
  rfl

set_option maxRecDepth 1000000 in
/-- The loop of `foo` has not ended after 40 tests of its condition. -/
theorem foo_loop_short (x : Int) (hlo : INT_MIN ≤ x) (hhi : x ≤ INT_MAX) :
    foo_loop 40 { x := x } = none := by
  have h0 : ({ x := x } : Foo) = Foo.shift x { x := 0 } := by
    simp only [Foo.shift, add_zero, List.map_nil, int_wrap_of_range x hlo hhi]
  have hz : foo_loop 40 { x := 0 } = none := by decide
  rw [h0, foo_loop_shift, hz]
  rfl

/-- C21: the benchmark `test_functions` passes. For every 32-bit input `x`,
with `int` sums wrapping around, `foo(x)` returns `x + 10700` (reduced into the
range of `int`) after exactly 40 iterations of its loop: the loop ends at the
41st test of its condition and not before, with `i = 40`, having emitted the
40 running sums. When `x + 10700` does not exceed `INT_MAX` no sum leaves the
range, and the result is `x + 10700` itself. So `foo(7)` returns `0x29d3`, and
`begin` returns 0 after the 40 marks of `foo`, the `PASS` of its own branch
and `DONE(105)`, with no `FAIL` among them. -/
theorem test_functions_passes (x : Int) (fuel : Nat) (hlo : INT_MIN ≤ x) (hhi : x ≤ INT_MAX)
    (hfuel : 41 ≤ fuel) :
    foo fuel x =
      some (int_wrap (x + 10700),
        (List.range 40).map (fun n => Mark.PASS (int_wrap (x + foo_offset n))), 40) ∧
    foo 40 x = none ∧
    (x + 10700 ≤ INT_MAX →
      int_wrap (x + 10700) = x + 10700 ∧
      ∀ n < 40, int_wrap (x + foo_offset n) = x + foo_offset n) ∧
    foo fuel 7 = some (0x29d3, (List.range 40).map (fun n => Mark.PASS (7 + foo_offset n)), 40) ∧
    begin fuel =
      some (0, (List.range 40).map (fun n => Mark.PASS (7 + foo_offset n)) ++
        [Mark.PASS 0x29d3, Mark.DONE 105]) ∧
    (∀ (r : Int) (marks : List Mark), begin fuel = some (r, marks) →
      r = 0 ∧ Mark.PASS 0x29d3 ∈ marks ∧ marks.any Mark.is_fail = false) := by
  have h7 : foo fuel 7 =
      some (0x29d3, (List.range 40).map (fun n => Mark.PASS (7 + foo_offset n)), 40) := by
    have hv : int_wrap (7 + 10700) = 0x29d3 := by decide
    have hm : (List.range 40).map (fun n => Mark.PASS (int_wrap (7 + foo_offset n))) =
        (List.range 40).map (fun n => Mark.PASS (7 + foo_offset n)) := by
      apply List.map_congr_left
      intro n hn
      obtain ⟨h1, h2⟩ := foo_offset_le n (List.mem_range.mp hn)
      rw [int_wrap_of_range _ (by unfold INT_MIN; omega) (by unfold INT_MAX; omega)]
    simp only [foo, foo_loop_spec 7 fuel (by decide) (by decide) hfuel, Option.map_some', hv, hm]
  have hb : begin fuel =
      some (0, (List.range 40).map (fun n => Mark.PASS (7 + foo_offset n)) ++
        [Mark.PASS 0x29d3, Mark.DONE 105]) := by
    simp only [begin, h7, if_true, List.append_assoc, List.singleton_append]
  refine ⟨?_, ?_, ?_, h7, hb, ?_⟩
  · simp only [foo, foo_loop_spec x fuel hlo hhi hfuel, Option.map_some']
  · simp only [foo, foo_loop_short x hlo hhi, Option.map_none']
  · intro hsum
    have hmin : INT_MIN = -2147483648 := rfl
    refine ⟨int_wrap_of_range _ (by omega) hsum, ?_⟩
    intro n hn
    obtain ⟨h1, h2⟩ := foo_offset_le n hn
    exact int_wrap_of_range _ (by omega) (by omega)
  · intro r marks h
    rw [hb] at h
    injection h with h
    injection h with hr hm
    subst hr
    subst hm
    refine ⟨rfl, ?_, ?_⟩
    · exact List.mem_append_right _ (List.mem_cons_self _ _)
    · simp [List.any_append, List.any_map, Mark.is_fail]

/-- C21 at `x = 2147483647`, the largest `int`, with fuel for 50 tests of the
loop condition: the sums wrap around, `foo` returns `-2147472949` after 40
iterations, and `begin` passes. -/
theorem test_functions_passes_witness :
    foo 50 2147483647 =
      some (-2147472949,
        (List.range 40).map (fun n => Mark.PASS (int_wrap (2147483647 + foo_offset n))), 40) ∧
    begin 50 =
      some (0, (List.range 40).map (fun n => Mark.PASS (7 + foo_offset n)) ++
        [Mark.PASS 0x29d3, Mark.DONE 105]) :=
  have h := test_functions_passes 2147483647 50 (by decide) (by decide) (by decide)
  ⟨h.1, h.2.2.2.2.1⟩

/-! ## Files of the stream verifier -/

/-- Two names with the same stem and different endings are different. -/
theorem append_ending_ne (stem x y : String) (h : x ≠ y) : stem ++ x ≠ stem ++ y := by
  intro heq
  apply h
  have hd := congrArg String.data heq
  rw [String.data_append, String.data_append] at hd
  exact String.ext (List.append_cancel_left hd)

theorem Files.write_same (files : Files) (fname text : String) :
    files.write fname text fname = some text := by
  simp [Files.write]

theorem Files.write_other (files : Files) (fname text path : String) (h : path ≠ fname) :
    files.write fname text path = files path := by
  simp [Files.write, h]

/-- The text `pc_event` leaves in its dump writer. -/
theorem pc_event_files_on (benchmark : String) (pc : Int) (s : Sim) (files : Files)
    (text : String) (hdump : s.stream_dump ≠ 0) (hopen : s.pc_dump = some text) :
    pc_event_files benchmark pc s files =
      files.write (pc_dump_fname benchmark)
        ((if s.stream_dump ≥ 2 then text ++ decStr s.main_time ++ " " else text) ++
          hexStr (to_unsigned pc) ++ "\n") := by
  have h1 : (pc_print pc s).stream_dump = s.stream_dump := by
    unfold pc_print; split <;> rfl
  have h2 : (pc_print pc s).pc_dump = s.pc_dump := by
    unfold pc_print; split <;> rfl
  have h3 : (pc_print pc s).main_time = s.main_time := by
    unfold pc_print; split <;> rfl
  simp only [pc_event_files, pc_dump_step, h1, h2, h3, hdump, hopen, ne_eq, not_false_eq_true,
    if_true, Option.bind]

/-- The text `wb_event` leaves in its dump writer. -/
theorem wb_event_files_on (benchmark : String) (addr data : Int) (s : Sim) (files : Files)
    (text : String) (hdump : s.stream_dump ≠ 0) (hopen : s.wb_dump = some text) :
    wb_event_files benchmark addr data s files =
      files.write (wb_dump_fname benchmark)
        ((if s.stream_dump ≥ 2 then text ++ decStr s.main_time ++ " " else text) ++
          hexStr (to_unsigned addr) ++ " " ++ hexStr (to_unsigned data) ++ "\n") := by
  have h1 : (wb_print addr data s).stream_dump = s.stream_dump := by
    unfold wb_print; split <;> rfl
  have h2 : (wb_print addr data s).wb_dump = s.wb_dump := by
    unfold wb_print; split <;> rfl
  have h3 : (wb_print addr data s).main_time = s.main_time := by
    unfold wb_print; split <;> rfl
  simp only [wb_event_files, wb_dump_step, h1, h2, h3, hdump, hopen, ne_eq, not_false_eq_true,
    if_true, Option.bind]

/-- The text `ls_event` leaves in its dump writer. -/
theorem ls_event_files_on (benchmark : String) (op addr data : Int) (s : Sim) (files : Files)
    (text : String) (hdump : s.stream_dump ≠ 0) (hopen : s.ls_dump = some text) :
    ls_event_files benchmark op addr data s files =
      files.write (ls_dump_fname benchmark)
        ((if s.stream_dump ≥ 2 then text ++ decStr s.main_time ++ " " else text) ++
          hexStr (to_unsigned op) ++ " " ++ hexStr (to_unsigned addr) ++ " " ++
          hexStr (to_unsigned data) ++ "\n") := by
  have h1 : (ls_print op addr data s).stream_dump = s.stream_dump := by
    unfold ls_print; split <;> rfl
  have h2 : (ls_print op addr data s).ls_dump = s.ls_dump := by
    unfold ls_print; split <;> rfl
  have h3 : (ls_print op addr data s).main_time = s.main_time := by
    unfold ls_print; split <;> rfl
  simp only [ls_event_files, ls_dump_step, h1, h2, h3, hdump, hopen, ne_eq, not_false_eq_true,
    if_true, Option.bind]

/-- C22 (amended): for every benchmark name and each channel (pc, wb, ls), the
file that dump mode writes live events to is the golden reference file of that
channel itself, the same path `hexfiles_dir/hexfiles/<benchmark>.<channel>.txt`;
the files of the three channels are different from each other and from the
program image. So an event dumped by a channel rewrites the golden file of
that channel, which then holds the text written through the dump writer
whatever it held before, and leaves every other file as it was; with dump mode
off an event leaves every file as it was. -/
theorem dump_file_is_golden_file (benchmark : String) :
    (pc_dump_fname benchmark = pc_check_fname benchmark ∧
     wb_dump_fname benchmark = wb_check_fname benchmark ∧
     ls_dump_fname benchmark = ls_check_fname benchmark) ∧
    (pc_check_fname benchmark ≠ wb_check_fname benchmark ∧
     pc_check_fname benchmark ≠ ls_check_fname benchmark ∧
     wb_check_fname benchmark ≠ ls_check_fname benchmark ∧
     hex_file_name benchmark ≠ pc_check_fname benchmark ∧
     hex_file_name benchmark ≠ wb_check_fname benchmark ∧
     hex_file_name benchmark ≠ ls_check_fname benchmark) ∧
    (∀ (s : Sim) (files : Files) (text : String) (pc : Int),
      s.stream_dump ≠ 0 → s.pc_dump = some text →
      pc_event_files benchmark pc s files (pc_check_fname benchmark) =
        some ((if s.stream_dump ≥ 2 then text ++ decStr s.main_time ++ " " else text) ++
          hexStr (to_unsigned pc) ++ "\n") ∧
      ∀ path, path ≠ pc_check_fname benchmark →
        pc_event_files benchmark pc s files path = files path) ∧
    (∀ (s : Sim) (files : Files) (text : String) (addr data : Int),
      s.stream_dump ≠ 0 → s.wb_dump = some text →
      wb_event_files benchmark addr data s files (wb_check_fname benchmark) =
        some ((if s.stream_dump ≥ 2 then text ++ decStr s.main_time ++ " " else text) ++
          hexStr (to_unsigned addr) ++ " " ++ hexStr (to_unsigned data) ++ "\n") ∧
      ∀ path, path ≠ wb_check_fname benchmark →
        wb_event_files benchmark addr data s files path = files path) ∧
    (∀ (s : Sim) (files : Files) (text : String) (op addr data : Int),
      s.stream_dump ≠ 0 → s.ls_dump = some text →
      ls_event_files benchmark op addr data s files (ls_check_fname benchmark) =
        some ((if s.stream_dump ≥ 2 then text ++ decStr s.main_time ++ " " else text) ++
          hexStr (to_unsigned op) ++ " " ++ hexStr (to_unsigned addr) ++ " " ++
          hexStr (to_unsigned data) ++ "\n") ∧
      ∀ path, path ≠ ls_check_fname benchmark →
        ls_event_files benchmark op addr data s files path = files path) ∧
    (∀ (s : Sim) (files : Files) (op addr data : Int), s.stream_dump = 0 →
      pc_event_files benchmark addr s files = files ∧
      wb_event_files benchmark addr data s files = files ∧
      ls_event_files benchmark op addr data s files = files) := by
  refine ⟨⟨rfl, rfl, rfl⟩, ⟨?_, ?_, ?_, ?_, ?_, ?_⟩, ?_, ?_, ?_, ?_⟩
  · exact append_ending_ne _ _ _ (by decide)
  · exact append_ending_ne _ _ _ (by decide)
  · exact append_ending_ne _ _ _ (by decide)
  · exact append_ending_ne _ _ _ (by decide)
  · exact append_ending_ne _ _ _ (by decide)
  · exact append_ending_ne _ _ _ (by decide)
  · intro s files text pc hdump hopen
    rw [pc_event_files_on benchmark pc s files text hdump hopen]
    exact ⟨Files.write_same _ _ _, fun path h => Files.write_other _ _ _ path h⟩
  · intro s files text addr data hdump hopen
    rw [wb_event_files_on benchmark addr data s files text hdump hopen]
    exact ⟨Files.write_same _ _ _, fun path h => Files.write_other _ _ _ path h⟩
  · intro s files text op addr data hdump hopen
    rw [ls_event_files_on benchmark op addr data s files text hdump hopen]
    exact ⟨Files.write_same _ _ _, fun path h => Files.write_other _ _ _ path h⟩
  · intro s files op addr data hdump
    simp [pc_event_files, wb_event_files, ls_event_files, hdump]

/-- C22 (amended) for the benchmark `nqueens`: the dump file and the golden
file of the pc channel are both `../hexfiles/nqueens.pc.txt`, which is not the
file of the wb channel. -/
theorem dump_file_is_golden_file_witness :
    pc_dump_fname "nqueens" = "../hexfiles/nqueens.pc.txt" ∧
    pc_check_fname "nqueens" = "../hexfiles/nqueens.pc.txt" ∧
    pc_check_fname "nqueens" ≠ wb_check_fname "nqueens" :=
  have h := dump_file_is_golden_file "nqueens"
  ⟨by decide, by decide, h.2.1.1⟩

/-- C22 as stated fails: for the benchmark `nqueens` the dump file of each
channel is the golden file of that channel, not a sibling of it. With the
golden file of the pc channel holding the two values `400000` and `400004`,
the first event dumped (`stream_dump = 1`, pc `0x400000`) leaves that file
holding the single line just written: the golden stream has been altered. -/
theorem dump_alters_golden_file :
    pc_dump_fname "nqueens" = pc_check_fname "nqueens" ∧
    wb_dump_fname "nqueens" = wb_check_fname "nqueens" ∧
    ls_dump_fname "nqueens" = ls_check_fname "nqueens" ∧
    (fun path => if path = "../hexfiles/nqueens.pc.txt" then some "400000\n400004\n" else none)
      (pc_check_fname "nqueens") = some "400000\n400004\n" ∧
    pc_event_files "nqueens" 0x400000 { stream_dump := 1 }
      (fun path => if path = "../hexfiles/nqueens.pc.txt" then some "400000\n400004\n" else none)
      (pc_check_fname "nqueens") = some "400000\n" := by
  refine ⟨rfl, rfl, rfl, by decide, by decide⟩

/-! ## Commas of the argument object -/

theorem comma_count_append (x y : String) :
    comma_count (x ++ y) = comma_count x + comma_count y := by
  simp [comma_count, String.data_append, List.count_append]

theorem join_commas_cons (x : String) (xs : List String) (h : xs ≠ []) :
    join_commas (x :: xs) = x ++ "," ++ join_commas xs := by
  cases xs with
  | nil => exact absurd rfl h
  | cons y rest => rfl

/-- When the last entry is visible, some entry of a non-empty suffix is. -/
theorem filter_visible_ne_nil (args : List Trace_Entry) (last : Trace_Entry)
    (hlast : args.getLast? = some last) (hvis : last.visible = true) :
    (args.filter fun entry => entry.visible) ≠ [] := by
  intro h
  have hmem : last ∈ args := List.mem_of_getLast?_eq_some hlast
  have : last ∈ args.filter fun entry => entry.visible :=
    List.mem_filter.mpr ⟨hmem, hvis⟩
  rw [h] at this
  exact List.not_mem_nil _ this

/-- The variadic writer produces the visible entries joined by single commas
when the last entry it is passed is visible. -/
theorem args_text_eq_visible (args : List Trace_Entry) :
    ∀ last : Trace_Entry, args.getLast? = some last → last.visible = true →
      args_text args = visible_args_text args := by
  induction args with
  | nil => intro last h; simp at h
  | cons entry rest ih =>
    intro last hlast hvis
    cases rest with
    | nil =>
      have h : entry = last := by simpa using hlast
      subst h
      simp [args_text, visible_args_text, hvis, join_commas]
    | cons e2 rest2 =>
      have hlast2 : (e2 :: rest2).getLast? = some last := by
        rw [List.getLast?_cons_cons] at hlast
        exact hlast
      have hne := filter_visible_ne_nil (e2 :: rest2) last hlast2 hvis
      have ih2 := ih last hlast2 hvis
      have hne2 : ((e2 :: rest2).filter fun entry => entry.visible).map Trace_Entry.text ≠ [] := by
        simpa using hne
      by_cases hv : entry.visible = true
      · have hf : ((entry :: e2 :: rest2).filter fun entry => entry.visible) =
            entry :: ((e2 :: rest2).filter fun entry => entry.visible) := by
          rw [List.filter_cons_of_pos]
          simpa using hv
        show (if entry.visible = true then entry.text ++ "," else "") ++ args_text (e2 :: rest2) =
          visible_args_text (entry :: e2 :: rest2)
        rw [if_pos hv, ih2]
        unfold visible_args_text
        rw [hf, List.map_cons, join_commas_cons _ _ hne2]
      · have hf : ((entry :: e2 :: rest2).filter fun entry => entry.visible) =
            ((e2 :: rest2).filter fun entry => entry.visible) := by
          rw [List.filter_cons_of_neg]
          simpa using hv
        show (if entry.visible = true then entry.text ++ "," else "") ++ args_text (e2 :: rest2) =
          visible_args_text (entry :: e2 :: rest2)
        rw [if_neg hv, ih2]
        unfold visible_args_text
        rw [hf, String.empty_append]

/-- Texts without a comma, joined: the commas are the separators, one fewer
than the texts. -/
theorem comma_count_join (xs : List String) (h : ∀ x ∈ xs, comma_count x = 0)
    (hne : xs ≠ []) : comma_count (join_commas xs) + 1 = xs.length := by
  induction xs with
  | nil => exact absurd rfl hne
  | cons x rest ih =>
    cases rest with
    | nil =>
      simp [join_commas, h x (List.mem_cons_self _ _)]
    | cons y rest2 =>
      have ih2 := ih (fun z hz => h z (List.mem_cons_of_mem _ hz)) (by simp)
      have hx := h x (List.mem_cons_self _ _)
      have hc : comma_count "," = 1 := by decide
      rw [join_commas_cons _ _ (by simp), comma_count_append, comma_count_append, hx, hc,
        List.length_cons]
      omega

theorem digitChar_ne_comma (k : Nat) : Nat.digitChar k ≠ ',' := by
  by_cases h : k < 16
  · interval_cases k <;> decide
  · have hstar : Nat.digitChar k = '*' := by
      unfold Nat.digitChar
      rw [if_neg (show ¬ k = 0 by omega)]
      rw [if_neg (show ¬ k = 1 by omega)]
      rw [if_neg (show ¬ k = 2 by omega)]
      rw [if_neg (show ¬ k = 3 by omega)]
      rw [if_neg (show ¬ k = 4 by omega)]
      rw [if_neg (show ¬ k = 5 by omega)]
      rw [if_neg (show ¬ k = 6 by omega)]
      rw [if_neg (show ¬ k = 7 by omega)]
      rw [if_neg (show ¬ k = 8 by omega)]
      rw [if_neg (show ¬ k = 9 by omega)]
      rw [if_neg (show ¬ k = 10 by omega)]
      rw [if_neg (show ¬ k = 11 by omega)]
      rw [if_neg (show ¬ k = 12 by omega)]
      rw [if_neg (show ¬ k = 13 by omega)]
      rw [if_neg (show ¬ k = 14 by omega)]
      rw [if_neg (show ¬ k = 15 by omega)]
    rw [hstar]
    decide

theorem toDigitsCore_no_comma (base fuel : Nat) :
    ∀ (n : Nat) (acc : List Char), ',' ∉ acc → ',' ∉ Nat.toDigitsCore base fuel n acc := by
  induction fuel with
  | zero => intro n acc hacc; simpa [Nat.toDigitsCore] using hacc
  | succ fuel ih =>
    intro n acc hacc
    have hacc1 : ',' ∉ Nat.digitChar (n % base) :: acc := by
      intro h
      rcases List.mem_cons.mp h with h | h
      · exact digitChar_ne_comma _ h.symm
      · exact hacc h
    simp only [Nat.toDigitsCore]
    by_cases hz : n / base = 0
    · rw [if_pos hz]; exact hacc1
    · rw [if_neg hz]; exact ih _ _ hacc1

/-- A numeral has no comma. -/
theorem comma_count_toDigits (base n : Nat) :
    comma_count (String.mk (Nat.toDigits base n)) = 0 := by
  unfold comma_count
  exact List.count_eq_zero.mpr (toDigitsCore_no_comma base _ n [] (List.not_mem_nil _))

theorem comma_count_intStr (i : Int) : comma_count (intStr i) = 0 := by
  have hm : comma_count "-" = 0 := by decide
  unfold intStr decStr
  split
  · rw [comma_count_append, hm, zero_add]; exact comma_count_toDigits 10 _
  · exact comma_count_toDigits 10 _

theorem comma_count_hex_text (value : Int) : comma_count (hex_text value) = 0 := by
  have hq : comma_count "\"" = 0 := by decide
  unfold hex_text
  simp only [comma_count_append, hq, add_zero, zero_add]
  unfold comma_count
  apply List.count_eq_zero.mpr
  intro h
  rcases List.mem_append.mp h with h | h
  · have := (List.mem_replicate.mp h).2
    exact absurd this (by decide)
  · exact toDigitsCore_no_comma 16 _ _ [] (List.not_mem_nil _) h

theorem comma_count_phys_reg (reg : PhysReg) : comma_count reg.text = 0 := by
  have h1 : comma_count "\"p" = 0 := by decide
  have h2 : comma_count "\"" = 0 := by decide
  unfold PhysReg.text
  rw [comma_count_append, comma_count_append, h1, h2, comma_count_intStr]

theorem comma_count_register (reg : Int) : comma_count (Register.to_string reg) = 0 := by
  unfold Register.to_string
  split <;> decide

/-- The text of an entry has no comma when its key and its value have none. -/
theorem comma_count_entry (entry : Trace_Entry) (hkey : comma_count entry.key = 0)
    (hval : comma_count entry.value.text = 0) : comma_count entry.text = 0 := by
  have h1 : comma_count "\"" = 0 := by decide
  have h2 : comma_count "\":" = 0 := by decide
  unfold Trace_Entry.text
  split <;> simp only [comma_count_append, h1, h2, hkey, hval]

/-- The entries that the five stages pass: no text of theirs has a comma, and
the last of them is visible. -/
theorem stage_call_entries (main_time : Nat) (stage a b c d e f : Int) (call : Trace_Call)
    (h : stage_call main_time stage a b c d e f = some call) :
    (∀ entry ∈ call.args, comma_count entry.text = 0) ∧
    ∃ last, call.args.getLast? = some last ∧ last.visible = true := by
  unfold stage_call at h
  split at h
  · injection h with h
    subst h
    refine ⟨?_, _, rfl, rfl⟩
    intro entry hmem
    simp only [fetch_call, List.mem_cons, List.mem_singleton, List.not_mem_nil, or_false]
      at hmem
    rcases hmem with rfl | rfl <;>
      exact comma_count_entry _ (by dsimp only; decide) (comma_count_hex_text _)
  · injection h with h
    subst h
    refine ⟨?_, _, rfl, rfl⟩
    intro entry hmem
    simp only [decode_call, List.mem_cons, List.mem_singleton, List.not_mem_nil, or_false]
      at hmem
    rcases hmem with rfl | rfl | rfl | rfl | rfl
    · exact comma_count_entry _ (by dsimp only; decide) (comma_count_hex_text _)
    · exact comma_count_entry _ (by dsimp only; decide) (comma_count_register _)
    · exact comma_count_entry _ (by dsimp only; decide) (comma_count_register _)
    · exact comma_count_entry _ (by dsimp only; decide) (comma_count_register _)
    · exact comma_count_entry _ (by dsimp only; decide) (comma_count_intStr _)
  · injection h with h
    subst h
    refine ⟨?_, _, rfl, rfl⟩
    intro entry hmem
    simp only [rename_call, List.mem_cons, List.mem_singleton, List.not_mem_nil, or_false]
      at hmem
    rcases hmem with rfl | rfl | rfl | rfl | rfl
    · exact comma_count_entry _ (by dsimp only; decide) (comma_count_hex_text _)
    · exact comma_count_entry _ (by dsimp only; decide) (comma_count_intStr _)
    · exact comma_count_entry _ (by dsimp only; decide) (comma_count_phys_reg _)
    · exact comma_count_entry _ (by dsimp only; decide) (comma_count_phys_reg _)
    · exact comma_count_entry _ (by dsimp only; decide) (comma_count_phys_reg _)
  · injection h with h
    subst h
    refine ⟨?_, _, rfl, rfl⟩
    intro entry hmem
    simp only [issue_call, List.mem_cons, List.mem_singleton, List.not_mem_nil, or_false]
      at hmem
    rcases hmem with rfl | rfl | rfl | rfl
    · exact comma_count_entry _ (by dsimp only; decide) (comma_count_hex_text _)
    · exact comma_count_entry _ (by dsimp only; decide) (comma_count_intStr _)
    · exact comma_count_entry _ (by dsimp only; decide) (comma_count_intStr _)
    · exact comma_count_entry _ (by dsimp only; decide) (comma_count_intStr _)
  · injection h with h
    subst h
    refine ⟨?_, _, rfl, rfl⟩
    intro entry hmem
    simp only [commit_call, List.mem_cons, List.mem_singleton, List.not_mem_nil, or_false]
      at hmem
    rcases hmem with rfl | rfl | rfl | rfl
    · exact comma_count_entry _ (by dsimp only; decide) (comma_count_hex_text _)
    · exact comma_count_entry _ (by dsimp only; decide) (comma_count_phys_reg _)
    · exact comma_count_entry _ (by dsimp only; decide) (comma_count_phys_reg _)
    · exact comma_count_entry _ (by dsimp only; decide) (comma_count_intStr _)
  · exact absurd h (by simp)

/-- The call that a stage 0..4 makes is the one `log_pipeline_stage` records. -/
theorem log_pipeline_stage_call (p : String) (main_time : Nat) (stage a b c d e f : Int)
    (t : Tracer) (hlo : 0 ≤ stage) (hhi : stage ≤ 4) :
    ∃ call, stage_call main_time stage a b c d e f = some call ∧
      log_pipeline_stage (some p) main_time stage a b c d e f t =
        some (t.record (some p) call) := by
  have h := log_pipeline_stage_cases p main_time a b c d e f t
  interval_cases stage
  · exact ⟨_, rfl, h.1⟩
  · exact ⟨_, rfl, h.2.1⟩
  · exact ⟨_, rfl, h.2.2.1⟩
  · exact ⟨_, rfl, h.2.2.2.1⟩
  · exact ⟨_, rfl, h.2.2.2.2⟩

/-- The record of a call whose last entry is visible: the head, the argument
object with the visible entries joined by single commas, and the comma that
ends the record. -/
theorem Tracer.record_joined (p : String) (call : Trace_Call) (t : Tracer)
    (hopen : t.is_open = true) (hcap : t.event_count < 100000) (last : Trace_Entry)
    (hlast : call.args.getLast? = some last) (hvis : last.visible = true) :
    Tracer.record (some p) t call =
      { is_open := true,
        f := t.f ++ event_head_text (some p) call.thread call.name call.ts call.duration ++
          ",\"args\":\x7b" ++ visible_args_text call.args ++ "\x7d\x7d" ++ ",",
        event_count := t.event_count + 1, json_fragment := t.json_fragment } := by
  have hargs : call.args.length > 0 := by
    cases hc : call.args with
    | nil => rw [hc] at hlast; simp at hlast
    | cons x xs => simp
  have k : ("\x7d\x7d," : String) = "\x7d\x7d" ++ "," := by decide
  rw [Tracer.record_open _ _ t hopen hcap, Trace_Call.text_eq, if_pos hargs,
    args_text_eq_visible _ last hlast hvis, k, ← hopen]
  simp only [String.append_assoc]

/-- C23: for every stage discriminant in 0..4 and every six-word payload, with
tracing enabled (output path set, file open, cap not reached), the last entry
that the stage passes is visible, and the argument object of the record lists
exactly the visible entries in call order, separated by single commas: the
text written is the texts of the visible entries joined by commas, and its
commas are one fewer than the visible entries, so there is no comma before the
first entry, after the last or next to another comma, whichever register
entries are hidden. The record ends with a comma, and that comma is the
character that `destroy` replaces by a space when the record is the last one
written. -/
theorem args_object_commas (p : String) (main_time : Nat) (stage a b c d e f : Int)
    (t : Tracer) (hlo : 0 ≤ stage) (hhi : stage ≤ 4) (hopen : t.is_open = true)
    (hcap : t.event_count < 100000) :
    ∃ call : Trace_Call,
      stage_call main_time stage a b c d e f = some call ∧
      (∃ last, call.args.getLast? = some last ∧ last.visible = true) ∧
      args_text call.args = visible_args_text call.args ∧
      comma_count (visible_args_text call.args) + 1 =
        (call.args.filter fun entry => entry.visible).length ∧
      log_pipeline_stage (some p) main_time stage a b c d e f t =
        some { is_open := true,
               f := t.f ++ event_head_text (some p) call.thread call.name call.ts call.duration ++
                 ",\"args\":\x7b" ++ visible_args_text call.args ++ "\x7d\x7d" ++ ",",
               event_count := t.event_count + 1, json_fragment := t.json_fragment } ∧
      ∀ t1, log_pipeline_stage (some p) main_time stage a b c d e f t = some t1 →
        t1.f.data.getLast? = some ',' ∧
        (Tracer.destroy (some p) t1).1.f =
          t.f ++ event_head_text (some p) call.thread call.name call.ts call.duration ++
            ",\"args\":\x7b" ++ visible_args_text call.args ++ "\x7d\x7d" ++ " " ++
            (if t.json_fragment = 0 then "]\x7d" else "") := by
  obtain ⟨call, hcall, hlog⟩ := log_pipeline_stage_call p main_time stage a b c d e f t hlo hhi
  obtain ⟨hno, last, hlast, hvis⟩ := stage_call_entries main_time stage a b c d e f call hcall
  have hrec := Tracer.record_joined p call t hopen hcap last hlast hvis
  refine ⟨call, hcall, ⟨last, hlast, hvis⟩, args_text_eq_visible _ last hlast hvis, ?_, ?_, ?_⟩
  · unfold visible_args_text
    rw [comma_count_join, List.length_map]
    · intro x hx
      obtain ⟨entry, hentry, rfl⟩ := List.mem_map.mp hx
      exact hno entry (List.mem_filter.mp hentry).1
    · have := filter_visible_ne_nil call.args last hlast hvis
      simpa using this
  · rw [hlog, hrec]
  · intro t1 h1
    rw [hlog, hrec] at h1
    injection h1 with h1
    subst h1
    constructor
    · show (_ ++ ",").data.getLast? = some ','
      rw [String.data_append]
      exact List.getLast?_concat _
    · rw [Tracer.destroy_trims_comma]

/-- C23 at a Rename event with both source registers hidden (`src1 = 0`,
`src2 = 4`) on an empty open file: the argument object holds `pc`,
`Commit Index` and `old` with two commas, and `destroy` leaves the record
closed by a space and the end of the envelope. -/
theorem args_object_commas_witness :
    ∃ call : Trace_Call,
      stage_call 105 2 0x400000 7 4 11 0 4 = some call ∧
      visible_args_text call.args = "\"pc\":\"00400000\",\"Commit Index\":7,\"old\":\"p4\"" ∧
      comma_count (visible_args_text call.args) + 1 = 3 ∧
      log_pipeline_stage (some "trace") 105 2 0x400000 7 4 11 0 4 { is_open := true } =
        some { is_open := true, event_count := 1,
               f := "\x7b\"cat\":\"write\",\"dur\":1000,\"name\":\"p5\",\"ph\":\"X\",\"pid\":\"trace\",\"tid\":\"Rename\",\"ts\":10500,\"args\":\x7b\"pc\":\"00400000\",\"Commit Index\":7,\"old\":\"p4\"\x7d\x7d," } := by
  obtain ⟨call, hcall, -, -, hcount, hlog, -⟩ :=
    args_object_commas "trace" 105 2 0x400000 7 4 11 0 4 { is_open := true }
      (by decide) (by decide) rfl (by decide)
  have hc : call = rename_call "Rename" 105 0x400000 7 4 11 0 4 := by
    have h2 : stage_call 105 2 0x400000 7 4 11 0 4 =
        some (rename_call "Rename" 105 0x400000 7 4 11 0 4) := rfl
    rw [h2] at hcall
    injection hcall with hcall
    exact hcall.symm
  subst hc
  refine ⟨_, hcall, by decide, ?_, hlog.trans ?_⟩
  · rw [hcount]; decide
  · decide

end MipsSim
